import Mathlib

/-!
# ser2net: the per-port data-transfer engine

A shallow embedding of the port state machine and the two data pipes of
`dataxfer.c`, followed by theorems about accepting connections, relaying
bytes, pacing and timeouts.

Conventions of the embedding:

* C `int` fields are `Int`, `unsigned int` fields and byte counts are `Nat`;
  where the source's arithmetic can leave the range of the C type the
  wrap-around is written out (`int32`, `uint32`).
* A byte is a `Nat` below 256; a buffer's storage is a `List Nat` of
  `maxsize` cells.  Cells outside the storage are not part of the model: a
  read there yields 0 and a write there is dropped.
* Calls without effect on the port (`led_flash`, the locks) are left out.
* What a handler does to the outside world (bytes accepted by the socket or
  the device, a shutdown being initiated, a rejected connection, ...) is
  returned as a list of `Event`s next to the new port state.
* What the outside world answers (how many bytes a `write` took, what the
  device `read` returned, the monotonic clock) is an argument of the handler.
* A port is identified by its position in the port list, which stands for
  the pointer identity of the source's linked list.
-/

namespace Ser2net

/-! ## Constants -/

def PORT_UNCONNECTED : Nat := 0
def PORT_WAITING_INPUT : Nat := 1
def PORT_WAITING_OUTPUT_CLEAR : Nat := 2
def PORT_CLOSING : Nat := 3

def PORT_DISABLED : Nat := 0
def PORT_RAW : Nat := 1
def PORT_RAWLP : Nat := 2
def PORT_TELNET : Nat := 3

def TN_OPT_COM_PORT : Nat := 44

/-- Two's-complement wrap-around of a value stored in a C `int`. -/
def int32 (x : Int) : Int := (x + 2147483648) % 4294967296 - 2147483648

/-- Wrap-around of a value stored in a C `unsigned int`. -/
def uint32 (x : Nat) : Nat := x % 4294967296

/-! ## Data model -/

/-- The C `struct timeval`: seconds and microseconds. -/
structure timeval where
  tv_sec : Int
  tv_usec : Int
deriving DecidableEq

/-- The instant a `timeval` denotes, in microseconds. -/
def timeval.usecs (tv : timeval) : Int := tv.tv_sec * 1000000 + tv.tv_usec

/-- The byte buffer `struct sbuf`: storage, read position, number of pending
bytes and capacity. -/
structure sbuf where
  buf : List Nat
  pos : Nat
  cursize : Nat
  maxsize : Nat
deriving DecidableEq

/-- The pending region of a buffer: `cursize` bytes starting at `pos`. -/
def sbuf.pending (b : sbuf) : List Nat := (b.buf.drop b.pos).take b.cursize

/-- The C `trace_info_t`: one trace sink. `fd` is -1 while the sink is not
open. -/
structure trace_info where
  hexdump : Bool
  timestamp : Bool
  filename : Option String
  fd : Int
deriving DecidableEq

/-- The target of one of the pointers `tr`, `tw`, `tb`: which of the port's
three `trace_info_t` it points to. -/
inductive trace_sel where
  | read
  | write
  | both
deriving DecidableEq

/-- What a handler does to the outside world. -/
inductive Event where
  /-- the socket accepted these bytes -/
  | tcp_sent (bytes : List Nat)
  /-- the device accepted these bytes -/
  | dev_sent (bytes : List Nat)
  /-- bytes handed to a controller session that monitors the port -/
  | monitor (bytes : List Nat)
  /-- bytes handed to `do_trace` for the trace sink with this fd -/
  | trace (fd : Int) (bytes : List Nat)
  /-- `header_trace` -/
  | header
  /-- `footer_trace` with the reason of the shutdown -/
  | footer (reason : String)
  /-- `sel_clear_fd_handlers` on the connected socket -/
  | clear_fd_handlers (fd : Int)
  /-- `sel_run (runshutdown, shutdown_port2)` -/
  | run_shutdown_port2
  /-- `telnet_send_option` with the option bytes -/
  | telnet_option (bytes : List Nat)
  /-- the 1-Hz timer was started again -/
  | timer_rearmed
  /-- a connection was accepted and closed again with this message -/
  | rejected (msg : String)
  /-- bytes written to a socket that is then given up (`write_ignore_fail`) -/
  | wrote (fd : Int) (msg : String)
  /-- `controller_outputf`: a message for the control session -/
  | cntlr_out (msg : String)
  /-- `close` of a connected socket -/
  | closed_fd (fd : Int)
  /-- the listening sockets had their handlers cleared and were closed -/
  | closed_accept_fds (fds : List Int)
  /-- `exit (0)` -/
  | exit
  /-- a device operation `io.f->...` was called with this value -/
  | dev_op (name : String) (val : Int)
  /-- `syslog` of an error -/
  | syslog (msg : String)
deriving DecidableEq

/-- The two functions `port->tcp_write_handler` can point to. -/
inductive tcp_write_fn where
  | handle_tcp_fd_write
  | handle_tcp_fd_banner_write
deriving DecidableEq

/-- The buffer handed to `tcp_fd_write` as `buf`: `&port->dev_to_tcp` or
`port->banner`. -/
inductive write_buf where
  | dev_to_tcp
  | banner
deriving DecidableEq

/-- The fields of `struct port_info` that the modelled functions read or
write, under their source names, together with the registrations the port
holds in the selector (`dev_read_enabled` ... `send_timer_armed`). -/
structure port_info where
  enabled : Nat
  timeout : Int
  timeout_left : Int
  send_timer_running : Bool
  chardelay : Int
  bps : Int
  bpc : Int
  enable_chardelay : Bool
  chardelay_scale : Int
  chardelay_min : Int
  chardelay_max : Int
  send_time : timeval
  portname : String
  devname : String
  is_stdio : Bool
  acceptfds : Option (List Int)
  nr_acceptfds : Nat
  /-- the waiter `accept_waiter`, by identity -/
  accept_waiter : Nat
  tcpfd : Int
  tcp_bytes_received : Nat
  tcp_bytes_sent : Nat
  dev_bytes_received : Nat
  dev_bytes_sent : Nat
  banner : Option sbuf
  devstr : Option sbuf
  tcp_to_dev_state : Nat
  tcp_to_dev : sbuf
  /-- the controller session that monitors the socket side, if any -/
  tcp_monitor : Option Nat
  dev_to_tcp_state : Nat
  dev_to_tcp : sbuf
  /-- the controller session that monitors the device side, if any -/
  dev_monitor : Option Nat
  config_num : Int
  sending_tn_data : Bool
  is_2217 : Bool
  linestate_mask : Nat
  modemstate_mask : Nat
  last_modemstate : Nat
  allow_2217 : Bool
  kickolduser_mode : Bool
  signaturestr : Option (List Nat)
  closeon : Option (List Nat)
  closeon_pos : Nat
  closeon_len : Nat
  close_on_output_done : Bool
  trace_read : trace_info
  trace_write : trace_info
  trace_both : trace_info
  tr : Option trace_sel
  tw : Option trace_sel
  tb : Option trace_sel
  out_telnet_cmd : sbuf
  read_disabled : Bool
  dev_read_enabled : Bool
  dev_write_enabled : Bool
  dev_except_enabled : Bool
  tcp_read_enabled : Bool
  tcp_write_enabled : Bool
  tcp_except_enabled : Bool
  timer_armed : Bool
  send_timer_armed : Option timeval
  /-- the function `tcp_write_handler` points to -/
  tcp_write_handler : tcp_write_fn
deriving DecidableEq

/-- The buffer `buf` of `tcp_fd_write` refers to. `port->banner` is not `NULL`
whenever `handle_tcp_fd_banner_write` hands it over; for a `NULL` banner the
result here is an empty buffer. -/
def port_info.buf_at (port : port_info) : write_buf → sbuf
  | .dev_to_tcp => port.dev_to_tcp
  | .banner => port.banner.getD ⟨[], 0, 0, 0⟩

/-- Store the buffer `buf` of `tcp_fd_write` refers to. -/
def port_info.set_buf (port : port_info) : write_buf → sbuf → port_info
  | .dev_to_tcp, b => { port with dev_to_tcp := b }
  | .banner, b => { port with banner := port.banner.map (fun _ => b) }

/-- The `trace_info_t` a pointer refers to. -/
def port_info.trace_at (port : port_info) : trace_sel → trace_info
  | .read => port.trace_read
  | .write => port.trace_write
  | .both => port.trace_both

/-- `if (t) do_trace (port, t, buf, len, prefix)` for a pointer `t` that may
be `NULL`: the bytes go to the fd of the sink pointed to; nothing is written
for an empty block. -/
def do_trace (port : port_info) (t : Option trace_sel) (bytes : List Nat) : List Event :=
  match t with
  | some sel => if bytes = [] then [] else [Event.trace (port.trace_at sel).fd bytes]
  | none => []

/-! ## Time arithmetic -/

/-- The loop of `add_usec_to_timeval`:
`while (usec >= 1000000) { usec -= 1000000; tv->tv_sec += 1; }`,
returning the final `tv_sec`. -/
def add_usec_loop : Nat → Int → Int → Int
  | 0, _, sec => sec
  | fuel + 1, usec, sec =>
    if usec ≥ 1000000 then add_usec_loop fuel (usec - 1000000) (sec + 1) else sec

/-- `add_usec_to_timeval`: `tv->tv_usec += usec`, then the loop above (which
runs `usec / 1000000` times). -/
def add_usec_to_timeval (tv : timeval) (usec : Int) : timeval :=
  { tv_sec := add_usec_loop (usec.toNat / 1000000 + 1) usec tv.tv_sec,
    tv_usec := tv.tv_usec + usec }

/-- The loop of `sub_timeval_us`:
`while (dest.tv_usec < 0) { dest.tv_usec += 1000000; dest.tv_sec--; }`. -/
def sub_timeval_loop : Nat → timeval → timeval
  | 0, dest => dest
  | fuel + 1, dest =>
    if dest.tv_usec < 0 then
      sub_timeval_loop fuel { tv_sec := dest.tv_sec - 1, tv_usec := dest.tv_usec + 1000000 }
    else dest

/-- `sub_timeval_us`: the difference `left - right` in microseconds, returned
as a C `int`. -/
def sub_timeval_us (left right : timeval) : Int :=
  let dest : timeval :=
    { tv_sec := left.tv_sec - right.tv_sec, tv_usec := left.tv_usec - right.tv_usec }
  let dest := sub_timeval_loop ((-dest.tv_usec).toNat / 1000000 + 1) dest
  int32 (dest.tv_sec * 1000000 + dest.tv_usec)

/-! ## Timers, character delay, shutdown -/

/-- `reset_timer`. -/
def reset_timer (port : port_info) : port_info :=
  { port with timeout_left := port.timeout }

/-- `recalc_port_chardelay`. The product is computed in C `int`
arithmetic, the division truncates. -/
def recalc_port_chardelay (port : port_info) : port_info :=
  if !port.enable_chardelay then
    { port with chardelay := 0 }
  else
    let chardelay :=
      Int.tdiv (int32 (int32 (port.bpc * 100000) * port.chardelay_scale)) port.bps
    if chardelay < port.chardelay_min then
      { port with chardelay := port.chardelay_min }
    else
      { port with chardelay := chardelay }

/-- `shutdown_port`: nothing when the port is already closing; otherwise the
trace footer, the three trace fds closed, `tr`/`tw`/`tb` cleared, the state
set to `PORT_CLOSING`, and the teardown started (through the socket's
handlers when there is a socket, directly otherwise). -/
def shutdown_port (port : port_info) (reason : String) : port_info × List Event :=
  if port.dev_to_tcp_state = PORT_CLOSING then
    (port, [])
  else
    let port := { port with
      trace_write := { port.trace_write with fd := -1 },
      trace_read := { port.trace_read with fd := -1 },
      trace_both := { port.trace_both with fd := -1 },
      tw := none, tr := none, tb := none,
      dev_to_tcp_state := PORT_CLOSING }
    (port, [Event.footer reason,
            if port.tcpfd ≠ -1 then Event.clear_fd_handlers port.tcpfd
            else Event.run_shutdown_port2])

/-- `telnet_output_ready`, the callback the telnet code runs when it has
queued output. -/
def telnet_output_ready (port : port_info) : port_info :=
  if port.dev_to_tcp.cursize ≠ 0 then port
  else if (port.banner.map (fun b => b.cursize)).getD 0 ≠ 0 then port
  else { port with sending_tn_data := true, dev_read_enabled := false,
                   tcp_write_enabled := true }

/-- `got_timeout`, the callback of the 1-Hz activity timer. `modem` is what
`get_modem_state` answers (`none` for -1). -/
def got_timeout (port : port_info) (modem : Option Nat) : port_info × List Event :=
  if port.dev_to_tcp_state = PORT_CLOSING then
    (port, [])
  else
    let port := if port.timeout ≠ 0 then
        { port with timeout_left := port.timeout_left - 1 } else port
    if port.timeout ≠ 0 ∧ port.timeout_left < 0 then
      shutdown_port port "timeout"
    else
      let (port, ev) :=
        match port.is_2217, modem with
        | true, some m =>
          let modemstate := m % 256 &&& port.modemstate_mask
          if modemstate ≠ port.last_modemstate then
            (telnet_output_ready { port with last_modemstate := modemstate },
             [Event.telnet_option [TN_OPT_COM_PORT, 107, modemstate]])
          else (port, [])
        | _, _ => (port, [])
      ({ port with timer_armed := true }, ev ++ [Event.timer_rearmed])

/-! ## Device to socket: `handle_tcp_send`, `send_timeout`, `handle_dev_fd_read` -/

/-- What a `write` on the socket or on the device answers. -/
inductive write_result where
  /-- `n` bytes were accepted (never more than were offered) -/
  | count (n : Nat)
  /-- `EINTR`: the caller retries, and the retry answers `next` -/
  | eintr (next : write_result)
  /-- `EAGAIN` / `EWOULDBLOCK` -/
  | eagain
  /-- `EPIPE` -/
  | epipe
  /-- any other error -/
  | error
deriving DecidableEq

/-- What a `read` on the socket or on the device answers. -/
inductive read_result where
  /-- these bytes are available; the read returns as many of them as were
  asked for (`count` is their number, 0 at end of file) -/
  | data (bytes : List Nat)
  /-- `EAGAIN` / `EWOULDBLOCK` -/
  | eagain
  /-- any other error -/
  | error
deriving DecidableEq

/-- Store `bytes` in the storage from offset `off` on (what `read` does with
its destination pointer `buf + off`). -/
def store_at (buf : List Nat) (off : Nat) : List Nat → List Nat
  | [] => buf
  | b :: bs => store_at (buf.set off b) (off + 1) bs

/-- `handle_tcp_send`: one `write (tcpfd, dev_to_tcp.buf, dev_to_tcp.cursize)`,
which offers the storage from index 0 on. Returns the new state, the events
and the C return value. -/
def handle_tcp_send (port : port_info) : write_result → port_info × List Event × Int
  | .eintr next => handle_tcp_send port next
  | .eagain =>
    ({ port with dev_read_enabled := false, tcp_write_enabled := true,
                 dev_to_tcp_state := PORT_WAITING_OUTPUT_CLEAR }, [], 0)
  | .epipe =>
    let r := shutdown_port port "EPIPE"
    (r.1, r.2, -1)
  | .error =>
    let r := shutdown_port port "tcp write error"
    (r.1, Event.syslog "tcp write error" :: r.2, -1)
  | .count n =>
    let offered := port.dev_to_tcp.buf.take port.dev_to_tcp.cursize
    let count := min n port.dev_to_tcp.cursize
    let port := { port with
      tcp_bytes_sent := uint32 (port.tcp_bytes_sent + count),
      dev_to_tcp := { port.dev_to_tcp with cursize := port.dev_to_tcp.cursize - count } }
    let ev := [Event.tcp_sent (offered.take count)]
    if port.dev_to_tcp.cursize ≠ 0 then
      ({ port with
          dev_to_tcp := { port.dev_to_tcp with pos := count },
          dev_read_enabled := false, tcp_write_enabled := true,
          dev_to_tcp_state := PORT_WAITING_OUTPUT_CLEAR }, ev, 0)
    else if port.close_on_output_done then
      let r := shutdown_port port "closeon sequence found"
      ({ r.1 with close_on_output_done := false }, ev ++ r.2, 0)
    else (port, ev, 0)

/-- `send_timeout`, the callback of `send_timer`; it runs only when that
timer, armed earlier, expires. -/
def send_timeout (port : port_info) (w : write_result) : port_info × List Event :=
  let port := { port with send_timer_armed := none }
  if port.dev_to_tcp_state = PORT_CLOSING then
    (port, [])
  else
    let port := { port with send_timer_running := false }
    if port.dev_to_tcp.cursize > 0 then
      let r := handle_tcp_send port w
      (r.1, r.2.1)
    else (port, [])

/-- The closeon scan of `handle_dev_fd_read`:
`for (i = 0; i < count; i++)` comparing `dev_to_tcp.buf[i]` with
`closeon[closeon_pos]`. Returns the new `count`, the new `closeon_pos` and
whether `close_on_output_done` was set. -/
def closeon_loop (buf closeon : List Nat) (closeon_len count : Nat) :
    Nat → Nat → Nat → Nat × Nat × Bool
  | 0, _, closeon_pos => (count, closeon_pos, false)
  | fuel + 1, i, closeon_pos =>
    if i < count then
      if buf.getD i 0 = closeon.getD closeon_pos 0 then
        if closeon_pos + 1 ≥ closeon_len then
          (i + 1, closeon_pos + 1, true)
        else closeon_loop buf closeon closeon_len count fuel (i + 1) (closeon_pos + 1)
      else closeon_loop buf closeon closeon_len count fuel (i + 1) 0
    else (count, closeon_pos, false)

/-- The inner loop of the IAC doubling:
`for (j = count; j > i; j--) buf[j+1] = buf[j];`, with `j` the first
argument. -/
def iac_shift (i : Nat) : Nat → List Nat → List Nat
  | 0, buf => buf
  | j + 1, buf =>
    if j + 1 > i then iac_shift i j (buf.set (j + 2) (buf.getD (j + 1) 0)) else buf

/-- The outer loop of the IAC doubling: `for (i = 0; i < count; i++)`, where
a 255 at `buf[i]` shifts the rest up, increments `count` and `i` and stores a
second 255. Returns the storage and the final `count`. -/
def iac_double_loop : Nat → Nat → Nat → List Nat → List Nat × Nat
  | 0, _, count, buf => (buf, count)
  | fuel + 1, i, count, buf =>
    if i < count then
      if buf.getD i 0 = 255 then
        iac_double_loop fuel (i + 2) (count + 1) ((iac_shift i count buf).set (i + 1) 255)
      else iac_double_loop fuel (i + 1) count buf
    else (buf, count)

/-- The label `send_it` of `handle_dev_fd_read`:
`if (handle_tcp_send(port) == 0) reset_timer(port);`. -/
def dev_read_send_it (port : port_info) (wr : write_result) : port_info × List Event :=
  let r := handle_tcp_send port wr
  if r.2.2 = 0 then (reset_timer r.1, r.2.1) else (r.1, r.2.1)

/-- The part of `handle_dev_fd_read` from the label `do_send` on: closeon
scan, tracing, byte counter, IAC doubling, commit, and then either the
immediate send or the arming of `send_timer`. `count` is the number of bytes
the read stored, `now` the monotonic time, `wr` the answer of the socket
should a send take place. -/
def dev_read_do_send (port : port_info) (count : Nat) (send_now : Bool)
    (now : timeval) (wr : write_result) : port_info × List Event :=
  -- closeon scan
  let scan := match port.closeon with
    | some closeon =>
      closeon_loop port.dev_to_tcp.buf closeon port.closeon_len count count 0 port.closeon_pos
    | none => (count, port.closeon_pos, false)
  let count := scan.1
  let port := { port with
    closeon_pos := scan.2.1,
    close_on_output_done := if scan.2.2 then true else port.close_on_output_done }
  -- tracing of `dev_to_tcp.buf`, `count` bytes
  let traced := port.dev_to_tcp.buf.take count
  let ev := do_trace port port.tr traced ++ do_trace port port.tb traced
  let port := { port with dev_bytes_received := uint32 (port.dev_bytes_received + count) }
  -- IAC doubling
  let dbl := if port.enabled = PORT_TELNET then
      iac_double_loop count 0 count port.dev_to_tcp.buf
    else (port.dev_to_tcp.buf, count)
  let count := dbl.2
  let port := { port with
    dev_to_tcp := { port.dev_to_tcp with
      buf := dbl.1, cursize := port.dev_to_tcp.cursize + count } }
  if send_now ∨ port.dev_to_tcp.cursize = port.dev_to_tcp.maxsize ∨ port.chardelay = 0 then
    let r := dev_read_send_it port wr
    (r.1, ev ++ r.2)
  else
    let port := if port.send_timer_running then
        { port with send_timer_armed := none }
      else
        { port with send_time := add_usec_to_timeval now port.chardelay_max }
    let delay := sub_timeval_us port.send_time now
    if delay > port.chardelay then
      ({ port with send_timer_armed := some (add_usec_to_timeval now port.chardelay),
                   send_timer_running := true }, ev)
    else if delay < 0 then
      let r := dev_read_send_it { port with send_timer_running := false } wr
      (r.1, ev ++ r.2)
    else
      ({ port with send_timer_armed := some (add_usec_to_timeval now delay),
                   send_timer_running := true }, ev)

/-- `handle_dev_fd_read`: data is ready on the device. `rd` is what the
device read answers, `now` the monotonic clock, `wr` the answer of the socket
should the data be sent at once. -/
def handle_dev_fd_read (port : port_info) (rd : read_result) (now : timeval)
    (wr : write_result) : port_info × List Event :=
  let curend := port.dev_to_tcp.cursize
  let port := { port with dev_to_tcp := { port.dev_to_tcp with pos := 0 } }
  let room := if port.enabled = PORT_TELNET then (port.dev_to_tcp.maxsize - curend) / 2
    else port.dev_to_tcp.maxsize - curend
  match rd with
  | .data bytes =>
    let got := bytes.take room
    let count := got.length
    let port := { port with
      dev_to_tcp := { port.dev_to_tcp with buf := store_at port.dev_to_tcp.buf curend got } }
    if count = 0 then
      if curend ≠ 0 then dev_read_do_send port 0 true now wr
      else shutdown_port port "closed port"
    else
      let ev := if port.dev_monitor.isSome then [Event.monitor got] else []
      let r := dev_read_do_send port count false now wr
      (r.1, ev ++ r.2)
  | .eagain =>
    if curend ≠ 0 then dev_read_do_send port 0 true now wr
    else (port, [])
  | .error =>
    if curend ≠ 0 then dev_read_do_send port 0 true now wr
    else
      let r := shutdown_port port "dev read error"
      (r.1, Event.syslog "dev read error" :: r.2)

/-! ## Socket to device: `handle_tcp_fd_read` -/

/-- The device write of `handle_tcp_fd_read` (label `retry_write`) and what
follows it: `io.f->write (tcp_to_dev.buf, tcp_to_dev.cursize)`. -/
def tcp_read_dev_write (port : port_info) : write_result → port_info × List Event
  | .eintr next => tcp_read_dev_write port next
  | .eagain =>
    (reset_timer { port with tcp_read_enabled := false, dev_write_enabled := true,
                             tcp_to_dev_state := PORT_WAITING_OUTPUT_CLEAR }, [])
  | .epipe =>
    let r := shutdown_port port "dev write error"
    (r.1, Event.syslog "dev write error" :: r.2)
  | .error =>
    let r := shutdown_port port "dev write error"
    (r.1, Event.syslog "dev write error" :: r.2)
  | .count n =>
    let offered := port.tcp_to_dev.buf.take port.tcp_to_dev.cursize
    let count := min n port.tcp_to_dev.cursize
    let port := { port with
      dev_bytes_sent := uint32 (port.dev_bytes_sent + count),
      tcp_to_dev := { port.tcp_to_dev with cursize := port.tcp_to_dev.cursize - count } }
    let ev := [Event.dev_sent (offered.take count)]
    if port.tcp_to_dev.cursize ≠ 0 then
      (reset_timer { port with
          tcp_to_dev := { port.tcp_to_dev with pos := count },
          tcp_read_enabled := false, dev_write_enabled := true,
          tcp_to_dev_state := PORT_WAITING_OUTPUT_CLEAR }, ev)
    else (reset_timer port, ev)

/-- The part of `handle_tcp_fd_read` after the telnet processing: monitor
tee, write tracing, then the device write. -/
def tcp_read_relay (port : port_info) (wr : write_result) : port_info × List Event :=
  let bytes := port.tcp_to_dev.buf.take port.tcp_to_dev.cursize
  let ev := (if port.tcp_monitor.isSome then [Event.monitor bytes] else []) ++
    do_trace port port.tw bytes ++ do_trace port port.tb bytes
  let r := tcp_read_dev_write port wr
  (r.1, ev ++ r.2)

/-- `handle_tcp_fd_read`: data is ready on the socket. `rd` is what the
socket read answers, `wr` what the device write answers. `process_telnet_data`
(telnet.c) is the parameter `tn`: from the bytes read to the user bytes it
leaves at the start of the buffer and its error flag. -/
def handle_tcp_fd_read (port : port_info) (rd : read_result)
    (tn : List Nat → List Nat × Bool) (wr : write_result) : port_info × List Event :=
  let port := { port with tcp_to_dev := { port.tcp_to_dev with pos := 0 } }
  match rd with
  | .eagain => (port, [])
  | .error =>
    let r := shutdown_port port "tcp read error"
    (r.1, Event.syslog "read error" :: r.2)
  | .data bytes =>
    let got := bytes.take port.tcp_to_dev.maxsize
    let count := got.length
    if count = 0 then
      shutdown_port port "tcp read close"
    else
      let port := { port with
        tcp_to_dev := { port.tcp_to_dev with
          buf := store_at port.tcp_to_dev.buf 0 got, cursize := count },
        tcp_bytes_received := uint32 (port.tcp_bytes_received + count) }
      if port.enabled = PORT_TELNET then
        let r := tn got
        let port := { port with
          tcp_to_dev := { port.tcp_to_dev with
            buf := store_at port.tcp_to_dev.buf 0 r.1, cursize := r.1.length } }
        if r.2 then shutdown_port port "telnet output error"
        else if port.tcp_to_dev.cursize = 0 then (port, [])
        else tcp_read_relay port wr
      else tcp_read_relay port wr

/-! ## Socket writable: `tcp_fd_write` -/

/-- The answer of `buffer_write`: the buffer afterwards, the bytes the sink
accepted, and the error if the sink failed (`true` for `EPIPE`). -/
structure buffer_write_result where
  buf : sbuf
  sent : List Nat
  err : Option Bool
deriving DecidableEq

/-- Modelled from the spec: `buffer_write` of buffer.c, which is not among the
sources. It attempts to write `cursize` bytes starting at `pos`, updates
`pos` and `cursize` by the amount accepted, and returns -1 on a sink error;
when the sink reports would-block it consumes nothing and reports success. -/
def buffer_write (b : sbuf) : write_result → buffer_write_result
  | .eintr next => buffer_write b next
  | .eagain => { buf := b, sent := [], err := none }
  | .epipe => { buf := b, sent := [], err := some true }
  | .error => { buf := b, sent := [], err := some false }
  | .count n =>
    let k := min n b.cursize
    { buf := { b with pos := b.pos + k, cursize := b.cursize - k },
      sent := b.pending.take k, err := none }

/-- The shutdown `tcp_fd_write` starts when `buffer_write` failed. -/
def tcp_write_failed (port : port_info) (epipe : Bool) : port_info × List Event :=
  if epipe then shutdown_port port "EPIPE"
  else
    let r := shutdown_port port "tcp write error"
    (r.1, Event.syslog "tcp write error" :: r.2)

/-- The body of `tcp_fd_write (port, buf)`: the socket has room. `tn` says
whether the body is entered at the label `send_tn_data`; `ws` are the answers
of the socket to the successive writes (none left counts as would-block). The
fuel bounds the jumps back to `send_tn_data`, of which there is at most one.
Returns the port, the events and the C return value (1 when the port was shut
down). -/
def tcp_fd_write_from :
    Nat → Bool → write_buf → port_info → List write_result → port_info × List Event × Int
  | 0, _, _, port, _ => (port, [], 0)
  | fuel + 1, tn, buf, port, ws =>
    let r1 := if tn then buffer_write port.out_telnet_cmd (ws.headD .eagain)
      else { buf := port.out_telnet_cmd, sent := [], err := none }
    let ws := if tn then ws.tail else ws
    let port := { port with out_telnet_cmd := r1.buf }
    let ev1 := if tn then [Event.tcp_sent r1.sent] else []
    match r1.err with
    | some epipe =>
      let r := tcp_write_failed port epipe
      (r.1, r.2, 1)
    | none =>
      if tn ∧ port.out_telnet_cmd.cursize > 0 then (port, ev1, 0)
      else
        let r2 := buffer_write (port.buf_at buf) (ws.headD .eagain)
        let port := port.set_buf buf r2.buf
        let ev := ev1 ++ [Event.tcp_sent r2.sent]
        match r2.err with
        | some epipe =>
          let r := tcp_write_failed port epipe
          (r.1, ev ++ r.2, 1)
        | none =>
          if (port.buf_at buf).cursize = 0 then
            if port.out_telnet_cmd.cursize > 0 then
              let r := tcp_fd_write_from fuel true buf { port with sending_tn_data := true }
                ws.tail
              (r.1, ev ++ r.2.1, r.2.2)
            else
              let port := { port with dev_read_enabled := true, tcp_write_enabled := false,
                                      dev_to_tcp_state := PORT_WAITING_INPUT }
              if port.close_on_output_done then
                let r := shutdown_port { port with close_on_output_done := false }
                  "closeon sequence found"
                (r.1, ev ++ r.2, 1)
              else (reset_timer port, ev, 0)
          else (reset_timer port, ev, 0)

/-- `tcp_fd_write (port, buf)`. -/
def tcp_fd_write (port : port_info) (buf : write_buf) (ws : List write_result) :
    port_info × List Event × Int :=
  tcp_fd_write_from 3 port.sending_tn_data buf port ws

/-- `handle_tcp_fd_write`: `tcp_fd_write (port, &port->dev_to_tcp)`. -/
def handle_tcp_fd_write (port : port_info) (ws : List write_result) :
    port_info × List Event × Int :=
  tcp_fd_write port .dev_to_tcp ws

/-- `handle_tcp_fd_banner_write`: `tcp_fd_write (port, port->banner)`, and when
that returned 0 and the banner has been written out, the banner is freed and
`tcp_write_handler` goes back to `handle_tcp_fd_write`. `none` stands for the
call with `port->banner == NULL`, which `setup_tcp_port` never sets up. -/
def handle_tcp_fd_banner_write (port : port_info) (ws : List write_result) :
    Option (port_info × List Event × Int) :=
  match port.banner with
  | none => none
  | some _ =>
    let r := tcp_fd_write port .banner ws
    if r.2.2 = 0 then
      if (r.1.buf_at .banner).cursize = 0 then
        some ({ r.1 with tcp_write_handler := .handle_tcp_fd_write, banner := none }, r.2.1, 0)
      else some (r.1, r.2.1, 0)
    else some (r.1, r.2.1, 1)

/-- `handle_tcp_fd_write_mux`, the write handler the selector calls: it
dispatches through `port->tcp_write_handler`. -/
def handle_tcp_fd_write_mux (port : port_info) (ws : List write_result) :
    Option (port_info × List Event) :=
  match port.tcp_write_handler with
  | .handle_tcp_fd_write =>
    let r := handle_tcp_fd_write port ws
    some (r.1, r.2.1)
  | .handle_tcp_fd_banner_write =>
    (handle_tcp_fd_banner_write port ws).map (fun r => (r.1, r.2.1))

/-! ## The device-to-socket pipeline as a transition system -/

/-- One step of a port's device-to-socket pipeline, with what the outside
world answers in it. -/
inductive pipe_step where
  /-- the device is readable: `handle_dev_fd_read` -/
  | dev_read (rd : read_result) (now : timeval) (wr : write_result)
  /-- `send_timer` expires at `now`: `send_timeout` -/
  | timer (now : timeval) (wr : write_result)
  /-- the socket is writable: `handle_tcp_fd_write_mux` -/
  | tcp_writable (ws : List write_result)

/-- A port's pipeline with its history: every byte the device read stored so
far, and every byte the socket accepted so far. -/
structure pipe_state where
  port : port_info
  dev_in : List Nat
  sock_out : List Nat
deriving DecidableEq

/-- The bytes of the `tcp_sent` events, in order. -/
def sent_bytes : List Event → List Nat
  | [] => []
  | Event.tcp_sent bytes :: rest => bytes ++ sent_bytes rest
  | _ :: rest => sent_bytes rest

/-- The bytes a device read stores: as many of the available ones as there is
room for (half the free space in telnet mode). -/
def dev_read_bytes (port : port_info) : read_result → List Nat
  | .data bytes =>
    bytes.take (if port.enabled = PORT_TELNET then
        (port.dev_to_tcp.maxsize - port.dev_to_tcp.cursize) / 2
      else port.dev_to_tcp.maxsize - port.dev_to_tcp.cursize)
  | _ => []

/-- One pipeline step. The selector runs a handler only while it is enabled:
the device read handler while `dev_read_enabled`, the timer callback when the
armed deadline has been reached, the socket write handler while
`tcp_write_enabled`; otherwise the step is not possible (`none`). -/
def pipe_step.run (s : pipe_state) : pipe_step → Option pipe_state
  | .dev_read rd now wr =>
    if s.port.dev_read_enabled then
      let r := handle_dev_fd_read s.port rd now wr
      some { port := r.1, dev_in := s.dev_in ++ dev_read_bytes s.port rd,
             sock_out := s.sock_out ++ sent_bytes r.2 }
    else none
  | .timer now wr =>
    match s.port.send_timer_armed with
    | some deadline =>
      if deadline.usecs ≤ now.usecs then
        let r := send_timeout s.port wr
        some { s with port := r.1, sock_out := s.sock_out ++ sent_bytes r.2 }
      else none
    | none => none
  | .tcp_writable ws =>
    if s.port.tcp_write_enabled then
      match handle_tcp_fd_write_mux s.port ws with
      | some r => some { s with port := r.1, sock_out := s.sock_out ++ sent_bytes r.2 }
      | none => none
    else none

/-- A run of the pipeline: the steps in order, `none` if one of them is not
possible in the state it meets. -/
def pipe_run (s : pipe_state) : List pipe_step → Option pipe_state
  | [] => some s
  | st :: rest => (st.run s).bind (fun s1 => pipe_run s1 rest)

/-! ## Accepting a connection -/

/-- The initial telnet negotiation `telnet_init_seq`. -/
def telnet_init_seq : List Nat := [255, 251, 3, 255, 251, 1, 255, 254, 1, 255, 253, 0]

/-- What the outside world answers during `setup_tcp_port`. -/
structure setup_env where
  /-- `fcntl (O_NONBLOCK)` succeeded -/
  fcntl_ok : Bool
  /-- `setsockopt (TCP_NODELAY)` succeeded -/
  nodelay_ok : Bool
  /-- `hosts_access` admitted the peer (always true without tcpd) -/
  hosts_access_ok : Bool
  /-- `io.f->setup`: `none` for -1, else the `bps` and `bpc` it stored -/
  dev_setup : Option (Int × Int)
  /-- `process_str_to_buf (port, port->bannerstr)` -/
  banner : Option sbuf
  /-- `process_str_to_buf (port, port->openstr)` -/
  devstr : Option sbuf
  /-- `open_trace_file` on a sink: `none` when the file name cannot be
  expanded, else what `open` returned (possibly -1) -/
  open_trace : trace_sel → Option Int

/-- Store a trace sink back into the port. -/
def port_info.set_trace (port : port_info) (sel : trace_sel) (t : trace_info) : port_info :=
  match sel with
  | .read => { port with trace_read := t }
  | .write => { port with trace_write := t }
  | .both => { port with trace_both := t }

/-- `open_trace_file (port, t, tv, out)`: returns the port with `t->fd` set
and the value left in `*out` (which is `NULL` on entry). -/
def open_trace_file (port : port_info) (sel : trace_sel) (env : setup_env) :
    port_info × Option trace_sel :=
  match env.open_trace sel with
  | none => (port.set_trace sel { port.trace_at sel with fd := -1 }, none)
  | some rv => (port.set_trace sel { port.trace_at sel with fd := rv }, some sel)

/-- Whether the pointer `t` is set and its sink has the file name of `np`. -/
def same_trace_file (port : port_info) (np : trace_info) (t : Option trace_sel) : Bool :=
  match t with
  | some sel => decide (np.filename = (port.trace_at sel).filename)
  | none => false

/-- The first part of `setup_trace`: the write sink, pointer `tw`. -/
def setup_trace_tw (port : port_info) (env : setup_env) : port_info :=
  let port := { port with tw := none }
  if port.trace_write.filename.isSome then
    let r := open_trace_file port .write env
    { r.1 with tw := r.2 }
  else port

/-- The second part of `setup_trace`: the read sink, pointer `tr`, which
shares the write sink when the file names are equal. -/
def setup_trace_tr (port : port_info) (env : setup_env) : port_info :=
  let port := { port with tr := none }
  if port.trace_read.filename.isSome then
    if same_trace_file port port.trace_read port.tw then { port with tr := port.tw }
    else
      let r := open_trace_file port .read env
      { r.1 with tr := r.2 }
  else port

/-- The third part of `setup_trace`: the sink for both directions, pointer
`tb`, which shares the write sink or else the read sink when the file names
are equal. -/
def setup_trace_tb (port : port_info) (env : setup_env) : port_info :=
  let port := { port with tb := none }
  if port.trace_both.filename.isSome then
    if same_trace_file port port.trace_both port.tw then { port with tb := port.tw }
    else if same_trace_file port port.trace_both port.tr then { port with tb := port.tr }
    else
      let r := open_trace_file port .both env
      { r.1 with tb := r.2 }
  else port

/-- `setup_trace`: its three parts in the order of the source. -/
def setup_trace (port : port_info) (env : setup_env) : port_info :=
  setup_trace_tb (setup_trace_tr (setup_trace_tw port env) env) env

/-- The failure exits of `setup_tcp_port`: `close (port->tcpfd)`,
`port->tcpfd = -1`, `return -1`. -/
def setup_failed (port : port_info) (ev : List Event) : port_info × List Event × Int :=
  ({ port with tcpfd := -1 }, ev ++ [Event.closed_fd port.tcpfd], -1)

/-- The middle part of `setup_tcp_port`, from `port->is_2217 = 0` to the
telnet initialisation: banner and open string, the handlers of the device and
of the socket, both states set to `PORT_WAITING_INPUT`. The telnet code
(`telnet_init`) is modelled by its queueing of the initial sequence. -/
def setup_tcp_port_handlers (port : port_info) (env : setup_env) : port_info :=
  let port := { port with is_2217 := false }
  let port := { port with
    banner := env.banner,
    tcp_write_handler := if env.banner.isSome then .handle_tcp_fd_banner_write
      else .handle_tcp_fd_write,
    devstr := env.devstr }
  let port := { port with
    dev_read_enabled := decide (port.enabled ≠ PORT_RAWLP),
    dev_except_enabled := true }
  let port := if port.devstr.isSome then { port with dev_write_enabled := true } else port
  let port := { port with dev_to_tcp_state := PORT_WAITING_INPUT }
  let port := { port with tcp_read_enabled := true, tcp_except_enabled := true,
                          tcp_to_dev_state := PORT_WAITING_INPUT }
  if port.enabled = PORT_TELNET then
    { port with
      out_telnet_cmd := { buf := telnet_init_seq, pos := 0,
                          cursize := telnet_init_seq.length,
                          maxsize := telnet_init_seq.length },
      tcp_write_enabled := true }
  else
    let port := { port with
      out_telnet_cmd := { buf := [], pos := 0, cursize := 0, maxsize := 0 },
      dev_read_enabled := true }
    if port.banner.isSome then { port with tcp_write_enabled := true } else port

/-- `setup_tcp_port`: set up a new connection's socket `port->tcpfd`.
Returns the port, the events and the C return value. -/
def setup_tcp_port (port : port_info) (env : setup_env) : port_info × List Event × Int :=
  if !env.fcntl_ok then setup_failed port [Event.syslog "Could not fcntl the tcp port"]
  else if !env.nodelay_ok then setup_failed port [Event.syslog "Could not enable TCP_NODELAY"]
  else if !env.hosts_access_ok then
    setup_failed port [Event.wrote port.tcpfd "Access denied\r\n"]
  else
    match env.dev_setup with
    | none => setup_failed port []
    | some (bps, bpc) =>
      let port := recalc_port_chardelay { port with bps := bps, bpc := bpc }
      let port := setup_tcp_port_handlers port env
      let port := setup_trace port env
      let port := { port with timer_armed := true }
      (reset_timer port, [Event.header, Event.timer_rearmed], 0)

/-- What the outside world answers during `handle_port_accept`. -/
structure accept_env where
  /-- `accept`: `none` for -1, else the new socket -/
  accept_fd : Option Int
  /-- `setsockopt (SO_KEEPALIVE)` succeeded -/
  keepalive_ok : Bool
  setup : setup_env

/-- `handle_port_accept`. -/
def handle_port_accept (port : port_info) (env : accept_env) : port_info × List Event :=
  match env.accept_fd with
  | none => ({ port with tcpfd := -1 }, [])
  | some fd =>
    let port := { port with tcpfd := fd }
    if !env.keepalive_ok then
      (port, [Event.closed_fd fd, Event.syslog "Could not enable SO_KEEPALIVE"])
    else
      let r := setup_tcp_port port env.setup
      (r.1, r.2.1)

/-- The walk of `is_device_already_inuse` over the port list from the node
with index `idx` on. -/
def device_inuse_from (check_port : Nat) (devname : String) : Nat → List port_info → Int
  | _, [] => 0
  | idx, port :: rest =>
    if idx ≠ check_port ∧ port.devname = devname ∧ port.tcp_to_dev_state ≠ PORT_UNCONNECTED
    then 1
    else device_inuse_from check_port devname (idx + 1) rest

/-- `is_device_already_inuse (check_port)` for the port at index `check_port`
of the list `ports`. -/
def is_device_already_inuse (ports : List port_info) (check_port : Nat) : Int :=
  match ports[check_port]? with
  | some cp => device_inuse_from check_port cp.devname 0 ports
  | none => 0

/-- The walk of `is_port_free` from the node with index `idx` on. -/
def port_free_from (ports : List port_info) (portname : String) :
    Nat → List port_info → Option (Nat × port_info)
  | _, [] => none
  | idx, port :: rest =>
    if port.portname = portname ∧ port.tcp_to_dev_state = PORT_UNCONNECTED ∧
        is_device_already_inuse ports idx = 0
    then some (idx, port)
    else port_free_from ports portname (idx + 1) rest

/-- `is_port_free (portname)`: the first port of that name that is
unconnected and whose device is not in use (its index in the list and the
node itself), or `NULL`. -/
def is_port_free (ports : List port_info) (portname : String) : Option (Nat × port_info) :=
  port_free_from ports portname 0 ports

/-- `handle_accept_port_read`: a connection request on the listening socket
of the port at index `idx`. `reject_ok` says whether the `accept` of a
connection that is to be rejected succeeds. -/
def handle_accept_port_read (ports : List port_info) (idx : Nat) (env : accept_env)
    (reject_ok : Bool) : List port_info × List Event :=
  match ports[idx]? with
  | none => (ports, [])
  | some port =>
    if port.enabled = PORT_DISABLED then (ports, [])
    else if port.tcp_to_dev_state ≠ PORT_UNCONNECTED ∧ port.kickolduser_mode then
      let r := shutdown_port port "kicked off, new user is coming\r\n"
      (ports.set idx r.1, r.2)
    else
      let err : Option String :=
        if port.tcp_to_dev_state ≠ PORT_UNCONNECTED then some "Port already in use\r\n"
        else if is_device_already_inuse ports idx ≠ 0 then
          some "Port's device already in use\r\n"
        else none
      match err with
      | some msg => (ports, if reject_ok then [Event.rejected msg] else [])
      | none =>
        let r := handle_port_accept port env
        (ports.set idx r.1, r.2)

/-- The C `rotator_t`. -/
structure rotator where
  curr_port : Nat
  portv : List String
  portc : Nat
deriving DecidableEq

/-- The `do ... while (i != rot->curr_port)` loop of `handle_rot_port_read`.
Returns `none` when the fuel runs out, else the port found together with the
value of `i` at that moment (or `none` when the loop ended without a free
port), and, as a record for the proofs, the indices of `portv` that were
examined, in order. -/
def rot_loop (ports : List port_info) (rot : rotator) :
    Nat → Nat → List Nat → Option (Option ((Nat × port_info) × Nat) × List Nat)
  | 0, _, _ => none
  | fuel + 1, i, seen =>
    let port := is_port_free ports (rot.portv.getD i "")
    let i1 := if i + 1 ≥ rot.portc then 0 else i + 1
    match port with
    | some p => some (some (p, i1), seen ++ [i])
    | none =>
      if i1 ≠ rot.curr_port then rot_loop ports rot fuel i1 (seen ++ [i])
      else some (none, seen ++ [i])

/-- The outcome of `handle_rot_port_read`. -/
structure rot_result where
  rot : rotator
  ports : List port_info
  events : List Event
  /-- the port the accept was dispatched to -/
  dispatched : Option Nat
  /-- the indices of `portv` examined, in order -/
  examined : List Nat

/-- `handle_rot_port_read`: a connection request on a rotator. The loop gets
`fuel` iterations; `none` when that is not enough. -/
def handle_rot_port_read (fuel : Nat) (rot : rotator) (ports : List port_info)
    (env : accept_env) (reject_ok : Bool) : Option rot_result :=
  match rot_loop ports rot fuel rot.curr_port [] with
  | none => none
  | some (some ((p, port), i), seen) =>
    let r := handle_port_accept port env
    some { rot := { rot with curr_port := i }, ports := ports.set p r.1, events := r.2,
           dispatched := some p, examined := seen }
  | some (none, seen) =>
    some { rot := rot, ports := ports,
           events := if reject_ok then [Event.rejected "No free port found\r\n"] else [],
           dispatched := none, examined := seen }

/-! ## Enabling, disabling and the end of a session -/

/-- The answer of `open_socket` (utils.c, not among the sources): an array of
listening sockets whose number it stores through `nr_fds`, or `NULL`, in
which case it has either left `*nr_fds` alone or stored 0 there. -/
inductive open_socket_result where
  | fds (l : List Int)
  | null_untouched
  | null_zero
deriving DecidableEq

/-- What the outside world answers during `startup_port`. -/
structure startup_env where
  open_socket : open_socket_result
  setup : setup_env

/-- `startup_port`. `inuse` is the answer of `is_device_already_inuse (port)`,
which is asked for on a stdio port only. -/
def startup_port (port : port_info) (inuse : Bool) (env : startup_env) :
    port_info × List Event × Int :=
  if port.is_stdio then
    if inuse then (port, [], -1)
    else
      let r := setup_tcp_port { port with acceptfds := none, tcpfd := 0 } env.setup
      if r.2.2 = -1 then (r.1, r.2.1, -1) else (r.1, r.2.1, 0)
  else
    match env.open_socket with
    | .fds l => ({ port with acceptfds := some l, nr_acceptfds := l.length }, [], 0)
    | .null_untouched =>
      ({ port with acceptfds := none }, [Event.syslog "Unable to create TCP socket"], -1)
    | .null_zero =>
      ({ port with acceptfds := none, nr_acceptfds := 0 },
       [Event.syslog "Unable to create TCP socket"], -1)

/-- `change_port_state (eout, port, state)`. -/
def change_port_state (port : port_info) (state : Nat) (inuse : Bool) (env : startup_env) :
    port_info × List Event × Int :=
  if port.enabled = state then (port, [], 0)
  else if state = PORT_DISABLED then
    let port := { port with enabled := PORT_DISABLED }
    match port.acceptfds with
    | some l =>
      ({ port with acceptfds := none, nr_acceptfds := 0 },
       [Event.closed_accept_fds (l.take port.nr_acceptfds)], 0)
    | none => (port, [], 0)
  else if port.enabled = PORT_DISABLED then
    let port := { port with read_disabled := decide (state = PORT_RAWLP) }
    let r := startup_port port inuse env
    ({ r.1 with enabled := state }, r.2.1, r.2.2)
  else (port, [], 0)

/-- `find_port_by_num`: the index of the first port with that name, unless it
is marked as deleted and deleted ports are not wanted. -/
def find_port_by_num (portstr : String) (allow_deleted : Bool) :
    Nat → List port_info → Option Nat
  | _, [] => none
  | idx, port :: rest =>
    if portstr = port.portname then
      if port.config_num = -1 ∧ !allow_deleted then none else some idx
    else find_port_by_num portstr allow_deleted (idx + 1) rest

/-- `setportenable`: the control command that sets the enable state of the
named port. -/
def setportenable (ports : List port_info) (portspec enable : String) (env : startup_env) :
    List port_info × List Event :=
  match find_port_by_num portspec false 0 ports with
  | none => (ports, [Event.cntlr_out ("Invalid port number: " ++ portspec ++ "\r\n")])
  | some idx =>
    match ports[idx]? with
    | none => (ports, [])
    | some port =>
      let new_enable : Option Nat :=
        if enable = "off" then some PORT_DISABLED
        else if enable = "raw" then some PORT_RAW
        else if enable = "rawlp" then some PORT_RAWLP
        else if enable = "telnet" then some PORT_TELNET
        else none
      match new_enable with
      | none => (ports, [Event.cntlr_out ("Invalid enable: " ++ enable ++ "\r\n")])
      | some st =>
        let r := change_port_state port st (decide (is_device_already_inuse ports idx ≠ 0)) env
        (ports.set idx r.1, r.2.1)

/-- `port_tcp_fd_cleared`: the selector has let go of the connected socket. -/
def port_tcp_fd_cleared (port : port_info) : port_info × List Event :=
  ({ port with tcpfd := -1 }, [Event.closed_fd port.tcpfd, Event.run_shutdown_port2])

/-- `shutdown_port2` up to its call of `finish_shutdown_port`: the activity
timer is stopped and the close string (`closestr`, the answer of
`process_str_to_buf`) becomes `devstr`. The second component says whether
`finish_shutdown_port` runs at once (`true`) or after the close string has
been written to the device. -/
def shutdown_port2 (port : port_info) (closestr : Option sbuf) : port_info × Bool :=
  let port := { port with timer_armed := false, devstr := closestr }
  if port.devstr.isSome ∧ port.tcp_to_dev_state ≠ PORT_UNCONNECTED then
    ({ port with dev_read_enabled := false, dev_except_enabled := false,
                 dev_write_enabled := true }, false)
  else (port, true)

/-- Modelled from the spec: `buffer_reset` of buffer.c, which is not among the
sources: the buffer is emptied. -/
def buffer_reset (b : sbuf) : sbuf := { b with pos := 0, cursize := 0 }

/-- `switchout_port (eout, new_port, curr, prev)`: the port `new_port` takes
the list position of `curr` (index `idx`), its enable state, its listening
sockets and its accept waiter, then changes to its own enable state. -/
def switchout_port (ports : List port_info) (idx : Nat) (new_port curr : port_info)
    (env : startup_env) : List port_info × List Event :=
  let new_state := new_port.enabled
  let new_port := { new_port with
    enabled := curr.enabled, acceptfds := curr.acceptfds, nr_acceptfds := curr.nr_acceptfds,
    accept_waiter := curr.accept_waiter }
  let ports := ports.set idx new_port
  let r := change_port_state new_port new_state
    (decide (is_device_already_inuse ports idx ≠ 0)) env
  (ports.set idx r.1, r.2.1)

/-- `finish_shutdown_port` for the port at index `idx`, whose pending
configuration `port->new_config` is the argument `new_config`. The device is
shut down, `send_timer` stopped, buffers and counters reset; a stdio port ends
the process (`none`); a port marked as deleted is unlinked; a pending
configuration is switched in; finally the port is open for accepts again. -/
def finish_shutdown_port (ports : List port_info) (idx : Nat) (new_config : Option port_info)
    (env : startup_env) : Option (List port_info × List Event) :=
  match ports[idx]? with
  | none => some (ports, [])
  | some port =>
    let port := { port with
      dev_read_enabled := false, dev_write_enabled := false, dev_except_enabled := false,
      send_timer_armed := none }
    let port := { port with
      tcp_to_dev_state := PORT_UNCONNECTED,
      tcp_to_dev := buffer_reset port.tcp_to_dev,
      tcp_bytes_received := 0, tcp_bytes_sent := 0,
      banner := none, devstr := none,
      dev_to_tcp := buffer_reset port.dev_to_tcp,
      dev_bytes_received := 0, dev_bytes_sent := 0 }
    if port.is_stdio then none
    else if port.config_num = -1 then some (ports.eraseIdx idx, [])
    else
      match new_config with
      | some new_port =>
        let r := switchout_port (ports.set idx port) idx new_port port env
        match r.1[idx]? with
        | some np => some (r.1.set idx { np with dev_to_tcp_state := PORT_UNCONNECTED }, r.2)
        | none => some r
      | none => some (ports.set idx { port with dev_to_tcp_state := PORT_UNCONNECTED }, [])

/-! ## The control session: data, monitoring -/

/-- `INBUF_SIZE`, the size of the maximum input command. -/
def INBUF_SIZE : Int := 255

/-- The fields of `struct controller_info` that the modelled functions read
or write. `inbuf` has `INBUF_SIZE + 1` cells. The last three fields are a
record of what the session did, kept for the statements: the bytes handed to
`controller_output`, the lines handed to `process_input_line`, and the indices
of `inbuf` that were written. -/
structure controller_info where
  in_shutdown : Bool
  inbuf : List Nat
  inbuf_count : Int
  /-- the port (by its index in the port list) whose monitoring this session
  started, `none` for `NULL` -/
  monitor_port_id : Option Nat
  out : List Nat
  lines : List (List Nat)
  writes : List Int
deriving DecidableEq

/-- `data_monitor_start (cntlr, type, portspec)` for the session `cntlr`.
Returns the port list, the return value (the port, by index, or `none` for
`NULL`) and the messages for the session. -/
def data_monitor_start (ports : List port_info) (cntlr : Nat) (type portspec : String) :
    List port_info × Option Nat × List Event :=
  match find_port_by_num portspec true 0 ports with
  | none => (ports, none, [Event.cntlr_out ("Invalid port number: " ++ portspec ++ "\r\n")])
  | some idx =>
    match ports[idx]? with
    | none => (ports, none, [])
    | some port =>
      if port.tcp_monitor ≠ none ∨ port.dev_monitor ≠ none then
        (ports, some idx, [Event.cntlr_out "Port is already being monitored\r\n"])
      else if type = "tcp" then
        (ports.set idx { port with tcp_monitor := some cntlr }, some idx, [])
      else if type = "term" then
        (ports.set idx { port with dev_monitor := some cntlr }, some idx, [])
      else
        (ports, none, [Event.cntlr_out ("invalid monitor type: " ++ type ++ "\r\n")])

/-- The loop of `data_monitor_stop`: `while (curr) { if (curr == port) { ...
break; } }`, in which `curr` is not advanced. `none` when the fuel runs out. -/
def data_monitor_stop_loop (port : Nat) : Nat → Nat → List port_info → Option (List port_info)
  | 0, _, _ => none
  | fuel + 1, curr, ports =>
    match ports[curr]? with
    | none => some ports
    | some c =>
      if curr = port then
        some (ports.set curr { c with tcp_monitor := none, dev_monitor := none })
      else data_monitor_stop_loop port fuel curr ports

/-- `data_monitor_stop (cntlr, monitor_id)`: the walk starts at the head of
the port list. The loop gets `fuel` iterations; `none` when that is not
enough. -/
def data_monitor_stop (fuel : Nat) (ports : List port_info) (monitor_id : Nat) :
    Option (List port_info) :=
  data_monitor_stop_loop monitor_id fuel 0 ports

/-- The `monitor` command of `process_input_line` for the session `id`:
`tok` is the word after `monitor`, `str` the word after that. Returns the
session and the port list, `none` when `data_monitor_stop` does not come
back within `fuel` iterations. -/
def monitor_command (fuel : Nat) (cntlr : controller_info) (id : Nat) (ports : List port_info)
    (tok : Option String) (str : Option String) :
    Option (controller_info × List port_info × List Event) :=
  match tok with
  | none => some (cntlr, ports, [Event.cntlr_out "No monitor type given\r\n"])
  | some tok =>
    if tok = "stop" then
      match cntlr.monitor_port_id with
      | some mid =>
        match data_monitor_stop fuel ports mid with
        | some ports1 => some ({ cntlr with monitor_port_id := none }, ports1, [])
        | none => none
      | none => some (cntlr, ports, [])
    else if cntlr.monitor_port_id ≠ none then
      some (cntlr, ports, [Event.cntlr_out "Already monitoring a port\r\n"])
    else
      match str with
      | none => some (cntlr, ports, [Event.cntlr_out "No tcp port given\r\n"])
      | some str =>
        let r := data_monitor_start ports id tok str
        some ({ cntlr with monitor_port_id := r.2.1 }, r.1, r.2.2)

/-! ## The control session: the line editor -/

/-- The bytes of a C string literal. -/
def bytes (s : String) : List Nat := s.toList.map Char.toNat

/-- `cntlr->inbuf[j]`, read. -/
def inbuf_get (cntlr : controller_info) (j : Int) : Nat :=
  if 0 ≤ j then cntlr.inbuf.getD j.toNat 0 else 0

/-- `cntlr->inbuf[j] = v`. The index is recorded in `writes`. -/
def inbuf_set (cntlr : controller_info) (j : Int) (v : Nat) : controller_info :=
  { cntlr with
    inbuf := if 0 ≤ j then cntlr.inbuf.set j.toNat v else cntlr.inbuf,
    writes := cntlr.writes ++ [j] }

/-- The body of the two copy loops, `n` times: `inbuf[j] = inbuf[i]` with both
indices going up by one. -/
def inbuf_move : Nat → Int → Int → controller_info → controller_info
  | 0, _, _, cntlr => cntlr
  | n + 1, j, i, cntlr => inbuf_move n (j + 1) (i + 1) (inbuf_set cntlr j (inbuf_get cntlr i))

/-- `remove_chars (cntlr, pos, count)`: the loop
`for (j = pos-count+1; j < inbuf_count - count; j++) inbuf[j] = inbuf[j+count]`
runs `inbuf_count - count - (pos-count+1)` times when that is positive. Returns
the session and the new position `pos - count`. -/
def remove_chars (cntlr : controller_info) (pos count : Int) : controller_info × Int :=
  let j := pos - count + 1
  let cntlr := inbuf_move (cntlr.inbuf_count - count - j).toNat j (j + count) cntlr
  ({ cntlr with inbuf_count := cntlr.inbuf_count - count }, pos - count)

/-- `controller_outs` / `controller_output`: the bytes are handed to the
output of the session. -/
def controller_outs (cntlr : controller_info) (data : List Nat) : controller_info :=
  { cntlr with out := cntlr.out ++ data }

/-- The C string that starts at `inbuf[0]`. -/
def c_string (buf : List Nat) : List Nat := buf.takeWhile (fun b => b ≠ 0)

/-- A delimiter of `strtok_r (..., " \t", ...)`. -/
def is_blank (b : Nat) : Bool := b = 32 || b = 9

/-- The first token of a line, as `strtok_r` with the delimiters `" \t"`
yields it; empty when there is none. -/
def first_token (line : List Nat) : List Nat :=
  (line.dropWhile is_blank).takeWhile (fun b => !is_blank b)

/-- Whether `process_input_line` returns 1 on this line: the first token is
`exit` or `quit`. -/
def closes_session (line : List Nat) : Bool :=
  first_token line = bytes "exit" || first_token line = bytes "quit"

/-- `shutdown_controller` as far as the session record goes: the monitor is
dropped and `in_shutdown` set. -/
def shutdown_controller (cntlr : controller_info) : controller_info :=
  if cntlr.in_shutdown then cntlr
  else { cntlr with monitor_port_id := none, in_shutdown := true }

/-- `process_input_line` as far as the line editor goes: the line in `inbuf`
is recorded in `lines`; `exit` and `quit` shut the session down and return 1.
What the other commands do, and what any command prints, is not part of this
record. -/
def process_input_line (cntlr : controller_info) : controller_info × Bool :=
  let line := c_string cntlr.inbuf
  let cntlr := { cntlr with lines := cntlr.lines ++ [line] }
  if closes_session line then (shutdown_controller cntlr, true) else (cntlr, false)

/-- The label `inbuf_overflow` of `controller_read`. -/
def inbuf_overflow (cntlr : controller_info) : controller_info :=
  { controller_outs cntlr (bytes "Input line too long\r\n") with inbuf_count := 0 }

/-- The end of the carriage-return branch of `controller_read`, after
`process_input_line` has returned 0 at position `i`:
`i++; inbuf_count -= i; for (j = 0; j < inbuf_count; i++, j++) inbuf[j] = inbuf[i];`
copies the leftover data to the beginning of the buffer. -/
def copy_leftover (cntlr : controller_info) (i : Int) : controller_info :=
  let i := i + 1
  let cntlr := { cntlr with inbuf_count := cntlr.inbuf_count - i }
  inbuf_move cntlr.inbuf_count.toNat 0 i cntlr

/-- The loop `for (i = read_start; i < cntlr->inbuf_count; i++)` of
`controller_read`, entered at its test with the value `i`. `none` when the
fuel runs out. -/
def controller_read_loop : Nat → Int → controller_info → Option controller_info
  | 0, i, cntlr => if i < cntlr.inbuf_count then none else some cntlr
  | fuel + 1, i, cntlr =>
    if ¬ i < cntlr.inbuf_count then some cntlr
    else if inbuf_get cntlr i = 0 then
      let r := remove_chars cntlr i 1
      controller_read_loop fuel (r.2 + 1) r.1
    else if inbuf_get cntlr i = 10 then
      let r := remove_chars cntlr i 1
      controller_read_loop fuel (r.2 + 1) r.1
    else if inbuf_get cntlr i = 8 ∨ inbuf_get cntlr i = 127 then
      if i = 0 then
        let r := remove_chars cntlr i 1
        controller_read_loop fuel (r.2 + 1) r.1
      else
        let r := remove_chars cntlr i 2
        controller_read_loop fuel (r.2 + 1) (controller_outs r.1 (bytes "\x08 \x08"))
    else if inbuf_get cntlr i = 13 then
      let cntlr := controller_outs cntlr (bytes "\r\n")
      let cntlr := inbuf_set cntlr i 0
      let r := process_input_line cntlr
      if r.2 then some r.1
      else controller_read_loop fuel (-1 + 1) (copy_leftover r.1 i)
    else
      controller_read_loop fuel (i + 1) (controller_outs cntlr [inbuf_get cntlr i])

/-- What `process_telnet_data` (telnet.c, not among the sources) answers: the
data bytes it has stored, how many input bytes it has left unprocessed, and
the error flag of the telnet state. -/
structure telnet_result where
  data : List Nat
  bytesleft : Nat
  error : Bool

/-- The bytes `data` stored by `process_telnet_data` from `inbuf + start`
on. -/
def inbuf_store : List Nat → Int → controller_info → controller_info
  | [], _, cntlr => cntlr
  | b :: rest, start, cntlr => inbuf_store rest (start + 1) (inbuf_set cntlr start b)

/-- `controller_read` with the read error flag and the answer of
`process_telnet_data`. -/
def controller_read (fuel : Nat) (cntlr : controller_info) (readerr : Bool)
    (tn : telnet_result) : Option controller_info :=
  if cntlr.in_shutdown then some cntlr
  else if cntlr.inbuf_count = INBUF_SIZE then some (inbuf_overflow cntlr)
  else if readerr then some (shutdown_controller cntlr)
  else
    let read_start := cntlr.inbuf_count
    let cntlr := inbuf_store tn.data read_start cntlr
    if tn.error then some (shutdown_controller cntlr)
    else if tn.bytesleft ≠ 0 then some (inbuf_overflow cntlr)
    else
      let cntlr := { cntlr with inbuf_count := cntlr.inbuf_count + tn.data.length }
      controller_read_loop fuel read_start cntlr

/-- Modelled from the spec: `process_telnet_data` on a chunk without telnet
command, with room for `room` bytes: the bytes that fit are stored, the others
are left. -/
def telnet_plain (room : Int) (chunk : List Nat) : telnet_result :=
  { data := chunk.take room.toNat, bytesleft := chunk.length - room.toNat, error := false }

/-- The session fed with the chunks in order, each by one `controller_read`
without read error on data without telnet command. -/
def controller_session (fuel : Nat) : controller_info → List (List Nat) →
    Option controller_info
  | cntlr, [] => some cntlr
  | cntlr, chunk :: rest =>
    match controller_read fuel cntlr false
        (telnet_plain (INBUF_SIZE - cntlr.inbuf_count) chunk) with
    | some cntlr1 => controller_session fuel cntlr1 rest
    | none => none

/-! ## RFC 2217: `com_port_handler` -/

/-- What the device operations `io.f->...` (devio, not among the sources)
answer: each gets the value passed by reference and the port field passed by
reference, and returns what it leaves in them. -/
structure devio_env where
  /-- `baud_rate (&val, cisco, &bps)` -/
  baud_rate : Int → Bool → Int → Int × Int
  /-- `data_size (&ucval, &bpc)` -/
  data_size : Nat → Int → Nat × Int
  /-- `parity (&ucval, &bpc)` -/
  parity : Nat → Int → Nat × Int
  /-- `stop_size (&ucval, &bpc)` -/
  stop_size : Nat → Int → Nat × Int
  /-- `control (&ucval)` -/
  control : Nat → Nat
  /-- `flush (&val)` -/
  flush : Int → Int

/-- Modelled from the spec: `telnet_send_option` of telnet.c, which is not
among the sources: it frames and queues one suboption and triggers the
output-ready callback. -/
def telnet_send_option (port : port_info) (option : List Nat) : port_info × List Event :=
  (telnet_output_ready port, [Event.telnet_option option])

/-- The value of a C expression converted to `unsigned char`. -/
def uchar (x : Int) : Nat := (x % 256).toNat

/-- `x >> n` on a C `int`: the arithmetic shift. -/
def asr (x : Int) (n : Nat) : Int := x / 2 ^ n

/-- The big-endian assembly of `SET-BAUDRATE`:
`val = option[2] << 24; val |= option[3] << 16; val |= option[4] << 8;
val |= option[5];` as a C `int`. -/
def baud_val (option : List Nat) : Int :=
  int32 ((((option.getD 2 0 <<< 24) ||| (option.getD 3 0 <<< 16)) |||
    (option.getD 4 0 <<< 8)) ||| option.getD 5 0 : Nat)

/-- Case 1 of `com_port_handler`, `SET-BAUDRATE`. -/
def com_port_baud (port : port_info) (env : devio_env) (option : List Nat) :
    port_info × List Event :=
  let len := option.length
  if len ≠ 3 ∧ len < 6 then (port, [])
  else
    let cisco_ios_baud_rates := decide (len = 3)
    let val : Int := if len = 3 then option.getD 2 0 else baud_val option
    let r := env.baud_rate val cisco_ios_baud_rates port.bps
    let port := recalc_port_chardelay { port with bps := r.2 }
    let outopt := if cisco_ios_baud_rates then [44, 101, uchar r.1]
      else [44, 101, uchar (asr r.1 24), uchar (asr r.1 16), uchar (asr r.1 8), uchar r.1]
    let s := telnet_send_option port outopt
    (s.1, Event.dev_op "baud_rate" val :: s.2)

/-- The cases 2, 3 and 4 of `com_port_handler` (`SET-DATASIZE`,
`SET-PARITY`, `SET-STOPSIZE`), which differ in the device operation `op` and
in the reply code. -/
def com_port_set_bpc (port : port_info) (op : Nat → Int → Nat × Int) (name : String)
    (code : Nat) (option : List Nat) : port_info × List Event :=
  if option.length < 3 then (port, [])
  else
    let ucval := option.getD 2 0
    let r := op ucval port.bpc
    let port := recalc_port_chardelay { port with bpc := r.2 }
    let s := telnet_send_option port [44, code, r.1 % 256]
    (s.1, Event.dev_op name ucval :: s.2)

/-- `com_port_handler (cb_data, option, len)` with `len` the length of
`option`. `max_xmit` is `MAX_TELNET_CMD_XMIT_BUF` and `default_sig` the string
`rfc2217_signature`, both defined outside the sources. -/
def com_port_handler (port : port_info) (env : devio_env) (max_xmit : Nat)
    (default_sig : List Nat) (option : List Nat) : port_info × List Event :=
  let len := option.length
  if len < 2 then (port, [])
  else
    match option.getD 1 0 with
    | 0 =>
      let sig := match port.signaturestr with
        | some s => s
        | none => default_sig
      let sign_len := if sig.length > max_xmit - 2 then max_xmit - 2 else sig.length
      telnet_send_option port ([44, 100] ++ sig.take sign_len)
    | 1 => com_port_baud port env option
    | 2 => com_port_set_bpc port env.data_size "data_size" 102 option
    | 3 => com_port_set_bpc port env.parity "parity" 103 option
    | 4 => com_port_set_bpc port env.stop_size "stop_size" 104 option
    | 5 =>
      if len < 3 then (port, [])
      else
        let ucval := option.getD 2 0
        let s := telnet_send_option port [44, 105, env.control ucval % 256]
        (s.1, Event.dev_op "control" ucval :: s.2)
    | 8 =>
      let s := telnet_send_option port [44, 108]
      (s.1, Event.dev_op "flow_control" 1 :: s.2)
    | 9 =>
      let s := telnet_send_option port [44, 109]
      (s.1, Event.dev_op "flow_control" 0 :: s.2)
    | 10 =>
      if len < 3 then (port, [])
      else
        let port := { port with linestate_mask := option.getD 2 0 }
        telnet_send_option port [44, 110, port.linestate_mask]
    | 11 =>
      if len < 3 then (port, [])
      else
        let port := { port with modemstate_mask := option.getD 2 0 }
        telnet_send_option port [44, 111, port.modemstate_mask]
    | 12 =>
      if len < 3 then (port, [])
      else
        let val : Int := option.getD 2 0
        let s := telnet_send_option port [44, 112, uchar (env.flush val)]
        (s.1, Event.dev_op "flush" val :: s.2)
    | _ => (port, [])

/-! ## Sample states and helpers for the statements -/

/-- A connected port as `setup_tcp_port` leaves it: raw mode, 9600 bps, the
default character delay, buffers of `n` bytes, no closeon string, no trace. -/
def connected_port (n : Nat) : port_info :=
  { enabled := PORT_RAW, timeout := 0, timeout_left := 0, send_timer_running := false,
    chardelay := 2083, bps := 9600, bpc := 10, enable_chardelay := true,
    chardelay_scale := 20, chardelay_min := 1000, chardelay_max := 20000,
    send_time := ⟨0, 0⟩, portname := "2000", devname := "/dev/ttyS0", is_stdio := false,
    acceptfds := some [5], nr_acceptfds := 1, accept_waiter := 1, tcpfd := 7,
    tcp_bytes_received := 0,
    tcp_bytes_sent := 0, dev_bytes_received := 0, dev_bytes_sent := 0, banner := none,
    devstr := none, tcp_to_dev_state := PORT_WAITING_INPUT,
    tcp_to_dev := ⟨List.replicate n 0, 0, 0, n⟩, tcp_monitor := none,
    dev_to_tcp_state := PORT_WAITING_INPUT, dev_to_tcp := ⟨List.replicate n 0, 0, 0, n⟩,
    dev_monitor := none, config_num := 0, sending_tn_data := false, is_2217 := false,
    linestate_mask := 0, modemstate_mask := 255, last_modemstate := 0, allow_2217 := false,
    kickolduser_mode := false, signaturestr := none, closeon := none, closeon_pos := 0, closeon_len := 0,
    close_on_output_done := false, trace_read := ⟨false, false, none, -1⟩,
    trace_write := ⟨false, false, none, -1⟩, trace_both := ⟨false, false, none, -1⟩,
    tr := none, tw := none, tb := none, out_telnet_cmd := ⟨[], 0, 0, 0⟩,
    read_disabled := false, dev_read_enabled := true, dev_write_enabled := false,
    dev_except_enabled := true, tcp_read_enabled := true, tcp_write_enabled := false,
    tcp_except_enabled := true, timer_armed := true, send_timer_armed := none,
    tcp_write_handler := .handle_tcp_fd_write }

/-- The port after `k` consecutive ticks of the 1-Hz timer with nothing in
between; `modem j` is what `get_modem_state` answers in tick `j + 1`. -/
def ticks (modem : Nat → Option Nat) : Nat → port_info → port_info
  | 0, port => port
  | k + 1, port => (got_timeout (ticks modem k port) (modem k)).1

/-- The events of the `k`-th consecutive tick (`k ≥ 1`). -/
def tick_events (modem : Nat → Option Nat) (k : Nat) (port : port_info) : List Event :=
  (got_timeout (ticks modem (k - 1) port) (modem (k - 1))).2

/-- When the `k`-th tick (`k ≥ 1`) comes, in microseconds after the last
relayed byte, if the first tick comes `d` microseconds after that byte and
each tick re-arms the timer one second ahead. -/
def tick_time (d : Int) (k : Nat) : Int := d + ((k : Int) - 1) * 1000000

/-- A port with the closeon string "b", otherwise as `connected_port 4`. -/
def closeon_port : port_info :=
  { connected_port 4 with closeon := some [98], closeon_len := 1 }

/-- Two device reads in a row, the second 500 microseconds after the first
(at monotonic time 100 s), with `send_timer` not expiring in between; the
socket would block should a send be tried. -/
def two_reads (port : port_info) (first second : List Nat) : port_info :=
  (handle_dev_fd_read (handle_dev_fd_read port (.data first) ⟨100, 0⟩ .eagain).1
    (.data second) ⟨100, 500⟩ .eagain).1

/-- The bytes committed to the `dev_to_tcp` buffer for the peer. -/
def committed (port : port_info) : List Nat :=
  port.dev_to_tcp.buf.take port.dev_to_tcp.cursize

/-- A telnet-mode port with a buffer of 8 bytes, otherwise as
`connected_port`. -/
def telnet_port : port_info := { connected_port 8 with enabled := PORT_TELNET }

/-- A port configured with `chardelay-min=1000000` and
`chardelay-max=1000000`, so that `recalc_port_chardelay` gives it a character
delay of one second. -/
def slow_port : port_info :=
  recalc_port_chardelay
    { connected_port 4 with chardelay_min := 1000000, chardelay_max := 1000000 }

/-- A run of the pipeline of a raw port with a 2-byte buffer: the device
delivers byte 1, then 500 microseconds later byte 2, which fills the buffer,
and the socket takes one byte of the immediate send; then `send_timer`, armed
by the first read, expires and the socket takes one byte again. -/
def pacing_run : List pipe_step :=
  [ .dev_read (.data [1]) ⟨100, 0⟩ .eagain,
    .dev_read (.data [2]) ⟨100, 500⟩ (.count 1),
    .timer ⟨100, 2083⟩ (.count 1) ]

/-- The bytes of the `dev_sent` events, in order: what the device accepted. -/
def dev_sent_bytes : List Event → List Nat
  | [] => []
  | Event.dev_sent bytes :: rest => bytes ++ dev_sent_bytes rest
  | _ :: rest => dev_sent_bytes rest

/-- The number of bytes a device write ends up accepting: `k` for `k` bytes,
0 for would-block, after any number of interrupted attempts; `none` for an
error. -/
def write_result.accepted : write_result → Option Nat
  | .count n => some n
  | .eintr next => next.accepted
  | .eagain => some 0
  | .epipe => none
  | .error => none

/-- The exclusive-device predicate: no two distinct ports of the list with
equal `devname` both have `tcp_to_dev_state != PORT_UNCONNECTED`. -/
def exclusive_device (ports : List port_info) : Prop :=
  ∀ (i j : Nat) (p q : port_info), ports[i]? = some p → ports[j]? = some q → i ≠ j →
    p.devname = q.devname →
    p.tcp_to_dev_state = PORT_UNCONNECTED ∨ q.tcp_to_dev_state = PORT_UNCONNECTED

/-- The `j`-th index of `portv` in the cyclic order that starts at
`curr_port`. -/
def rotator.cyc (rot : rotator) (j : Nat) : Nat := (rot.curr_port + j) % rot.portc

/-- What `is_port_free` answers for the `j`-th name in the cyclic order. -/
def rotator.free_at (rot : rotator) (ports : List port_info) (j : Nat) :
    Option (Nat × port_info) :=
  is_port_free ports (rot.portv.getD (rot.cyc j) "")

/-- A port as `portconfig` puts it into the list (`memset`, `init_port_data`,
the enable state of the configuration line, `startup_port` when that state is
not off): a disabled port has no listening sockets and is unconnected, and a
port without listening sockets has `nr_acceptfds = 0`. -/
def fresh_port (p : port_info) : Prop :=
  (p.enabled = PORT_DISABLED →
    p.acceptfds = none ∧ p.tcp_to_dev_state = PORT_UNCONNECTED ∧
    p.dev_to_tcp_state = PORT_UNCONNECTED) ∧
  (p.acceptfds = none → p.nr_acceptfds = 0)

/-- The port lists reachable from a freshly configured list through accepts
on a port's own listener, rotator dispatch, `change_port_state` /
`setportenable`, and the steps of a shutdown. None of these operations sets a
pending configuration, so `finish_shutdown_port` runs without one. -/
inductive reachable : List port_info → Prop where
  | init (ports : List port_info) : (∀ p ∈ ports, fresh_port p) → reachable ports
  | accept (ports : List port_info) (idx : Nat) (env : accept_env) (reject_ok : Bool) :
      reachable ports → reachable (handle_accept_port_read ports idx env reject_ok).1
  | rotate (ports : List port_info) (fuel : Nat) (rot : rotator) (env : accept_env)
      (reject_ok : Bool) (r : rot_result) :
      reachable ports → handle_rot_port_read fuel rot ports env reject_ok = some r →
      reachable r.ports
  | change (ports : List port_info) (idx : Nat) (port : port_info) (state : Nat)
      (env : startup_env) :
      reachable ports → ports[idx]? = some port →
      reachable (ports.set idx
        (change_port_state port state (decide (is_device_already_inuse ports idx ≠ 0)) env).1)
  | enable (ports : List port_info) (portspec enable : String) (env : startup_env) :
      reachable ports → reachable (setportenable ports portspec enable env).1
  | shutdown (ports : List port_info) (idx : Nat) (port : port_info) (reason : String) :
      reachable ports → ports[idx]? = some port →
      reachable (ports.set idx (shutdown_port port reason).1)
  | fd_cleared (ports : List port_info) (idx : Nat) (port : port_info) :
      reachable ports → ports[idx]? = some port →
      reachable (ports.set idx (port_tcp_fd_cleared port).1)
  | shutdown2 (ports : List port_info) (idx : Nat) (port : port_info) (closestr : Option sbuf) :
      reachable ports → ports[idx]? = some port →
      reachable (ports.set idx (shutdown_port2 port closestr).1)
  | finish (ports : List port_info) (idx : Nat) (env : startup_env)
      (r : List port_info × List Event) :
      reachable ports → finish_shutdown_port ports idx none env = some r → reachable r.1

/-- An unconnected, enabled port with one listening socket, as `portconfig`
adds it for a configuration line in raw mode. -/
def listening_port : port_info :=
  { connected_port 4 with
    tcpfd := -1, tcp_to_dev_state := PORT_UNCONNECTED, dev_to_tcp_state := PORT_UNCONNECTED,
    dev_read_enabled := false, dev_except_enabled := false, tcp_read_enabled := false,
    tcp_except_enabled := false, timer_armed := false }

/-- A `setup_tcp_port` in which everything succeeds: the device at 9600 bps
and 10 bits per character, no banner, no open string, no trace file. -/
def setup_ok : setup_env :=
  { fcntl_ok := true, nodelay_ok := true, hosts_access_ok := true,
    dev_setup := some (9600, 10), banner := none, devstr := none,
    open_trace := fun _ => none }

/-- An accept that succeeds with the new socket 7. -/
def accept_ok : accept_env := { accept_fd := some 7, keepalive_ok := true, setup := setup_ok }

/-- A `startup_port` whose `open_socket` yields the listening socket 5. -/
def startup_ok : startup_env := { open_socket := .fds [5], setup := setup_ok }

/-- The port list after a client has connected to `listening_port` and the
control command `setportenable 2000 off` has been given. -/
def disabled_while_connected : List port_info :=
  (setportenable (handle_accept_port_read [listening_port] 0 accept_ok true).1
    "2000" "off" startup_ok).1

/-- Two port states agree on what the session handlers never write: the
names, the enable state, the listening sockets and the configuration
generation. -/
def same_static (a b : port_info) : Prop :=
  a.devname = b.devname ∧ a.portname = b.portname ∧ a.enabled = b.enabled ∧
  a.acceptfds = b.acceptfds ∧ a.nr_acceptfds = b.nr_acceptfds ∧ a.config_num = b.config_num ∧
  a.is_stdio = b.is_stdio

/-- Two unconnected ports, "2000" and "2001", on the same device. -/
def shared_device_ports : List port_info :=
  [listening_port, { listening_port with portname := "2001" }]

/-- The rotator over the ports "2000" and "2001" whose cursor stands at the
second name. -/
def sample_rotator : rotator := { curr_port := 1, portv := ["2000", "2001"], portc := 2 }

/-- What holds of every port in a reachable list: a disabled port has no
listening sockets, and a port without listening sockets has
`nr_acceptfds = 0`. -/
def listeners_ok (p : port_info) : Prop :=
  (p.enabled = PORT_DISABLED → p.acceptfds = none) ∧ (p.acceptfds = none → p.nr_acceptfds = 0)

/-- The port `listening_port` while a session on it is being torn down:
connected on the socket side, `dev_to_tcp_state` already `PORT_CLOSING`, with
kick-old-user mode on. -/
def closing_port : port_info :=
  { connected_port 4 with kickolduser_mode := true, dev_to_tcp_state := PORT_CLOSING }

/-- The port "2000", idle, whose device side is monitored by session 1. -/
def monitored_port : port_info := { listening_port with dev_monitor := some 1 }

/-- A control session that has just been accepted: nothing pending, no
monitor. -/
def new_controller : controller_info :=
  { in_shutdown := false, inbuf := List.replicate 256 0, inbuf_count := 0,
    monitor_port_id := none, out := [], lines := [], writes := [] }

/-- The suboptions of the telnet events, in order: what was queued with
`telnet_send_option`. -/
def telnet_replies : List Event → List (List Nat)
  | [] => []
  | Event.telnet_option bytes :: rest => bytes :: telnet_replies rest
  | _ :: rest => telnet_replies rest

/-- Whether a com-port suboption has a known command byte and is long
enough for it: `len >= 2` for 0, 8, 9; `len == 3` or `len >= 6` for 1;
`len >= 3` for 2, 3, 4, 5, 10, 11, 12. -/
def suboption_answered (option : List Nat) : Bool :=
  let c := option.getD 1 0
  let len := option.length
  decide (2 ≤ len) &&
    (decide (c = 0 ∨ c = 8 ∨ c = 9) ||
     (decide (c = 1) && decide (len = 3 ∨ 6 ≤ len)) ||
     (decide (c = 2 ∨ c = 3 ∨ c = 4 ∨ c = 5 ∨ c = 10 ∨ c = 11 ∨ c = 12) && decide (3 ≤ len)))

/-- The big-endian 4-byte encoding of `v` taken modulo 2^32. -/
def be_bytes (v : Int) : List Nat :=
  [((v % 4294967296) / 16777216 % 256).toNat, ((v % 4294967296) / 65536 % 256).toNat,
   ((v % 4294967296) / 256 % 256).toNat, (v % 4294967296 % 256).toNat]

/-- A device that accepts every setting unchanged and leaves `bps` and `bpc`
alone. -/
def devio_accepting : devio_env :=
  { baud_rate := fun val _ bps => (val, bps),
    data_size := fun v bpc => (v, bpc),
    parity := fun v bpc => (v, bpc),
    stop_size := fun v bpc => (v, bpc),
    control := fun v => v,
    flush := fun v => v }

/-! ## Reconfiguration: the port list with pending configurations -/

/-- Reference, in the words of the specification: the stream cut at each
carriage return. `cut_at_cr piece stream` are the pieces that a carriage return
ends, in order, the first one starting with the bytes `piece` seen before. -/
def cut_at_cr (piece : List Nat) : List Nat → List (List Nat)
  | [] => []
  | b :: rest => if b = 13 then piece :: cut_at_cr [] rest else cut_at_cr (piece ++ [b]) rest

/-- Reference: the bytes after the last carriage return, after `piece`. -/
def tail_piece (piece : List Nat) : List Nat → List Nat
  | [] => piece
  | b :: rest => if b = 13 then tail_piece [] rest else tail_piece (piece ++ [b]) rest

/-- Reference: one byte applied to the current line: 0x00 and `\n` are
dropped, `\b` and 0x7f delete the last retained character (nothing when the
line is empty), any other byte is retained. -/
def edit_byte (line : List Nat) (b : Nat) : List Nat :=
  if b = 0 ∨ b = 10 then line
  else if b = 8 ∨ b = 127 then line.dropLast
  else line ++ [b]

/-- Reference: the line that a piece of the stream gives. -/
def edit_piece (piece : List Nat) : List Nat := piece.foldl edit_byte []

/-- Reference: the lines of a stream: cut at each carriage return, each piece
edited. -/
def ref_lines (stream : List Nat) : List (List Nat) := (cut_at_cr [] stream).map edit_piece

/-- The lines up to and including the first one on which `process_input_line`
returns 1. -/
def until_closed : List (List Nat) → List (List Nat)
  | [] => []
  | l :: rest => if closes_session l then [l] else l :: until_closed rest

/-- No read of the chunks runs into `inbuf_overflow`, `seen` being the stream
before them: at each read fewer than 255 bytes are pending and the chunk fits
in the room left. -/
def no_overflow (seen : List Nat) : List (List Nat) → Prop
  | [] => True
  | chunk :: rest =>
    (edit_piece (tail_piece [] seen)).length < 255 ∧
    (edit_piece (tail_piece [] seen)).length + chunk.length ≤ 255 ∧
    no_overflow (seen ++ chunk) rest

/-- The state of the line editor seen from outside: the current line, the
lines handed over, the echo, and whether a line has closed the session. -/
structure editor where
  line : List Nat
  lines : List (List Nat)
  out : List Nat
  closed : Bool
deriving DecidableEq

/-- The line editor byte by byte, in one pass: what the loop of
`controller_read` is to compute on the bytes not yet looked at. -/
def edit_run (st : editor) : List Nat → editor
  | [] => st
  | b :: rest =>
    if b = 0 ∨ b = 10 then edit_run st rest
    else if b = 8 ∨ b = 127 then
      if st.line = [] then edit_run st rest
      else edit_run { st with line := st.line.dropLast, out := st.out ++ bytes "\x08 \x08" } rest
    else if b = 13 then
      if closes_session st.line then
        { st with lines := st.lines ++ [st.line], out := st.out ++ bytes "\r\n", closed := true }
      else
        edit_run { st with line := [], lines := st.lines ++ [st.line],
                           out := st.out ++ bytes "\r\n" } rest
    else edit_run { st with line := st.line ++ [b], out := st.out ++ [b] } rest

/-- The session `c1` shows what the editor state `st` says, `c0` being the
session before: same lines, same echo, shut down when closed, and otherwise the
current line pending at the start of `inbuf`. -/
def editor_agrees (c0 c1 : controller_info) (st : editor) : Prop :=
  c1.lines = st.lines ∧ c1.out = st.out ∧ c1.in_shutdown = (c0.in_shutdown || st.closed) ∧
  (st.closed = false →
    c1.inbuf_count = st.line.length ∧ c1.inbuf.take st.line.length = st.line)

/-- The bounds that a call keeps, `c0` being the session before:
`0 <= inbuf_count <= 255`, `inbuf` keeps its 256 cells, and every index
written is one of them. -/
def read_bounds (c0 c1 : controller_info) : Prop :=
  0 ≤ c1.inbuf_count ∧ c1.inbuf_count ≤ 255 ∧ c1.inbuf.length = 256 ∧
  ∀ w ∈ c1.writes, w ∈ c0.writes ∨ (0 ≤ w ∧ w < 256)

/-- A session with the five bytes "abcde" pending. -/
def abcde_session : controller_info :=
  { new_controller with inbuf := bytes "abcde" ++ List.replicate 251 0, inbuf_count := 5 }

/-- A session with 255 bytes pending. -/
def full_session : controller_info :=
  { new_controller with inbuf := List.replicate 256 97, inbuf_count := 255 }

/-! ## Modem control lines: `termios_get_set_dtr`, `termios_get_set_rts` -/

/-- The C `EINVAL`. -/
def EINVAL : Int := 22

/-- `termios_get_set_dtr (termio, &mctl, &ival)` of sergenio_termios.c. The
constants `TIOCM_DTR`, `SERGENIO_DTR_ON` and `SERGENIO_DTR_OFF` come from
headers outside the sources and are parameters. Returns the modem-control
word, `ival` and the return value. -/
def termios_get_set_dtr (TIOCM_DTR : Nat) (SERGENIO_DTR_ON SERGENIO_DTR_OFF : Int)
    (mctl : Nat) (ival : Int) : Nat × Int × Int :=
  if ival ≠ 0 then
    if ival = SERGENIO_DTR_ON then (mctl ||| TIOCM_DTR, ival, 0)
    else if ival = SERGENIO_DTR_OFF then (mctl &&& TIOCM_DTR, ival, 0)
    else (mctl, ival, EINVAL)
  else
    if mctl &&& TIOCM_DTR ≠ 0 then (mctl, SERGENIO_DTR_ON, 0)
    else (mctl, SERGENIO_DTR_OFF, 0)

/-- `termios_get_set_rts (termio, &mctl, &ival)`, with the constants
`TIOCM_RTS`, `SERGENIO_RTS_ON` and `SERGENIO_RTS_OFF` as parameters. -/
def termios_get_set_rts (TIOCM_RTS : Nat) (SERGENIO_RTS_ON SERGENIO_RTS_OFF : Int)
    (mctl : Nat) (ival : Int) : Nat × Int × Int :=
  if ival ≠ 0 then
    if ival = SERGENIO_RTS_ON then (mctl ||| TIOCM_RTS, ival, 0)
    else if ival = SERGENIO_RTS_OFF then (mctl &&& TIOCM_RTS, ival, 0)
    else (mctl, ival, EINVAL)
  else
    if mctl &&& TIOCM_RTS ≠ 0 then (mctl, SERGENIO_RTS_ON, 0)
    else (mctl, SERGENIO_RTS_OFF, 0)

/-! ## Removal of stale ports: `clear_old_port_config` -/

/-- `clear_old_port_config (curr_config)`: the walk over the port list. A
port of another generation is disabled; it is unlinked and freed when it is
idle, else marked with `config_num = -1`. `change_port_state` is called with
`PORT_DISABLED` only, so it never starts the port up and `env` is not
consulted. Returns the list and the events. -/
def clear_old_port_config (curr_config : Int) (env : startup_env) :
    List port_info → List port_info × List Event
  | [] => ([], [])
  | curr :: rest =>
    let t := clear_old_port_config curr_config env rest
    if curr.config_num ≠ curr_config then
      if curr.dev_to_tcp_state = PORT_UNCONNECTED then
        let r := change_port_state curr PORT_DISABLED false env
        (t.1, r.2.1 ++ t.2)
      else
        let r := change_port_state { curr with config_num := -1 } PORT_DISABLED false env
        (r.1 :: t.1, r.2.1 ++ t.2)
    else (curr :: t.1, t.2)

/-- Reference for the removal of stale ports: what becomes of one port. A
port of the generation `c` stays as it is; an idle port of another generation
goes; a port of another generation that is not idle stays, marked as deleted
and disabled, without its listening sockets. -/
def stale_port (c : Int) (p : port_info) : Option port_info :=
  if p.config_num = c then some p
  else if p.dev_to_tcp_state = PORT_UNCONNECTED then none
  else if p.enabled = PORT_DISABLED then some { p with config_num := -1 }
  else some { p with config_num := -1, enabled := PORT_DISABLED, acceptfds := none,
                     nr_acceptfds := if p.acceptfds.isSome then 0 else p.nr_acceptfds }

/-- The port "2001" of generation 7, idle. -/
def stale_idle_port : port_info := { listening_port with portname := "2001", config_num := 7 }

/-- The port "2002" of generation 7, with a session. -/
def stale_busy_port : port_info := { connected_port 4 with portname := "2002", config_num := 7 }

/-- A port list read from a configuration of generation 0 in which the lines
of the ports "2001" and "2002" are no longer present. -/
def stale_ports : List port_info := [stale_idle_port, listening_port, stale_busy_port]

/-! ## RFC 2217: `com_port_will` and the `remctl` option -/

/-- `com_port_will (cb_data)`: the peer has sent WILL for the com-port option.
`modem` is what `get_modem_state` answers (`none` for -1, in which case it has
stored nothing). Returns the port, the events and the return value. -/
def com_port_will (port : port_info) (modem : Option Nat) : port_info × List Event × Int :=
  if !port.allow_2217 then (port, [], 0)
  else
    let port := { port with is_2217 := true, linestate_mask := 0, modemstate_mask := 255,
                            last_modemstate := 0 }
    let data2 : Nat := match modem with
      | some m => m % 256
      | none => 0
    let port := match modem with
      | some _ => { port with last_modemstate := data2 }
      | none => port
    let s := telnet_send_option port [TN_OPT_COM_PORT, 107, data2]
    (s.1, s.2, 1)

/-- The RFC 2217 fields as `com_port_will` sets them on a port that allows
the option, `state` being the modem state it found. -/
def will_state (port : port_info) (state : Nat) : port_info :=
  { port with is_2217 := true, linestate_mask := 0, modemstate_mask := 255,
              last_modemstate := state }

/-- The first two branches of `myconfig (data, eout, pos)`, the callback that
the device configuration code calls for each option it does not know itself,
at configuration time and on `setportconfig` for a live port: `remctl` and
`-remctl`. The other options are not part of this model (`none`). -/
def myconfig (port : port_info) (pos : String) : Option port_info :=
  if pos = "remctl" then some { port with allow_2217 := true }
  else if pos = "-remctl" then some { port with allow_2217 := false }
  else none

/-- What can happen to the RFC 2217 state of a port during a session: a WILL
from the peer, or an option set on the live port. -/
inductive will_step where
  | will (modem : Option Nat)
  | config (pos : String)
deriving DecidableEq

/-- One such step. An option that `myconfig` does not model leaves the port
as it is. -/
def will_step.run (port : port_info) : will_step → port_info
  | .will modem => (com_port_will port modem).1
  | .config pos => (myconfig port pos).getD port

/-- The steps in order. -/
def will_run (port : port_info) (steps : List will_step) : port_info :=
  steps.foldl will_step.run port

/-- A port configured with `remctl`, connected in telnet mode. -/
def remctl_port : port_info := { telnet_port with allow_2217 := true }

/-! ## Samples for the trace sinks -/

/-- An `open` of the trace files that succeeds: fd 9 for the read sink, 10
for the write sink, 11 for the sink of both directions. -/
def setup_traced : setup_env :=
  { setup_ok with
    open_trace := fun sel => match sel with
      | .read => some 9
      | .write => some 10
      | .both => some 11 }

/-- A connected port configured with `tr=/tmp/t` and `tb=/tmp/t`. -/
def read_both_port : port_info :=
  { connected_port 4 with
    trace_read := ⟨false, false, some "/tmp/t", -1⟩,
    trace_both := ⟨false, false, some "/tmp/t", -1⟩ }

/-- A connected port configured with `tw=/tmp/t` and `tb=/tmp/t`. -/
def write_both_port : port_info :=
  { connected_port 4 with
    trace_write := ⟨false, false, some "/tmp/t", -1⟩,
    trace_both := ⟨false, false, some "/tmp/t", -1⟩ }

/-- The blocks of bytes handed to `do_trace` for the sink with this fd, in
order. -/
def traced_to (fd : Int) : List Event → List (List Nat)
  | [] => []
  | Event.trace fd1 bytes :: rest =>
    if fd1 = fd then bytes :: traced_to fd rest else traced_to fd rest
  | _ :: rest => traced_to fd rest

/-! ## The indices the scans of `handle_dev_fd_read` use -/

/-- The indices of `dev_to_tcp.buf` that the inner loop of the IAC doubling
reads (`buf[j]`) and writes (`buf[j+1]`), in order, with `j` the second
argument. -/
def iac_shift_touched (i : Nat) : Nat → List Nat
  | 0 => []
  | j + 1 => if j + 1 > i then (j + 1) :: (j + 2) :: iac_shift_touched i j else []

/-- The indices of `dev_to_tcp.buf` that the IAC doubling loop reads or
writes, in order: `buf[i]` of the test, the indices of the inner loop, and
`buf[i]` of the store after `i++`. The arguments are those of
`iac_double_loop`. -/
def iac_double_touched : Nat → Nat → Nat → List Nat → List Nat
  | 0, _, _, _ => []
  | fuel + 1, i, count, buf =>
    if i < count then
      if buf.getD i 0 = 255 then
        i :: (iac_shift_touched i count ++ (i + 1) ::
          iac_double_touched fuel (i + 2) (count + 1)
            ((iac_shift i count buf).set (i + 1) 255))
      else i :: iac_double_touched fuel (i + 1) count buf
    else []

/-- The indices of `closeon` that the closeon scan reads
(`closeon[closeon_pos]`), in order. The arguments are those of
`closeon_loop`. -/
def closeon_loop_indices (buf closeon : List Nat) (closeon_len count : Nat) :
    Nat → Nat → Nat → List Nat
  | 0, _, _ => []
  | fuel + 1, i, closeon_pos =>
    if i < count then
      closeon_pos ::
        (if buf.getD i 0 = closeon.getD closeon_pos 0 then
          if closeon_pos + 1 ≥ closeon_len then []
          else closeon_loop_indices buf closeon closeon_len count fuel (i + 1) (closeon_pos + 1)
        else closeon_loop_indices buf closeon closeon_len count fuel (i + 1) 0)
    else []

/-- The storage of `dev_to_tcp` and the `count` with which
`handle_dev_fd_read` reaches the label `do_send` when the device has `bytes`
available. -/
def dev_read_stored (port : port_info) (bytes : List Nat) : List Nat × Nat :=
  let curend := port.dev_to_tcp.cursize
  let room := if port.enabled = PORT_TELNET then (port.dev_to_tcp.maxsize - curend) / 2
    else port.dev_to_tcp.maxsize - curend
  let got := bytes.take room
  (store_at port.dev_to_tcp.buf curend got, got.length)

/-- The indices of `closeon` that `handle_dev_fd_read` reads when the device
has `bytes` available. -/
def dev_read_closeon_indices (port : port_info) (bytes : List Nat) : List Nat :=
  let st := dev_read_stored port bytes
  match port.closeon with
  | some closeon =>
    closeon_loop_indices st.1 closeon port.closeon_len st.2 st.2 0 port.closeon_pos
  | none => []

/-- The indices of `dev_to_tcp.buf` that the IAC doubling loop of
`handle_dev_fd_read` reads or writes when the device has `bytes` available. -/
def dev_read_iac_touched (port : port_info) (bytes : List Nat) : List Nat :=
  let st := dev_read_stored port bytes
  let count := match port.closeon with
    | some closeon =>
      (closeon_loop st.1 closeon port.closeon_len st.2 st.2 0 port.closeon_pos).1
    | none => st.2
  if port.enabled = PORT_TELNET then iac_double_touched count 0 count st.1 else []

/-- A telnet port with `dev_to_tcp` of two bytes, otherwise as
`connected_port 2`. -/
def telnet_port2 : port_info := { connected_port 2 with enabled := PORT_TELNET }

/-- The session of `closeon_port` in which the device delivered "b", the
closeon string, and `send_timer` expired with the socket taking the byte: the
port is closing. -/
def closeon_matched : port_info :=
  (send_timeout (handle_dev_fd_read closeon_port (.data [98]) ⟨100, 0⟩ .eagain).1
    (.count 1)).1

/-- The port list after the teardown of `closeon_matched` has run to its end:
`port_tcp_fd_cleared`, `shutdown_port2` without a close string,
`finish_shutdown_port` without a pending configuration. -/
def closeon_closed : List port_info :=
  match finish_shutdown_port
      [(shutdown_port2 (port_tcp_fd_cleared closeon_matched).1 none).1] 0 none startup_ok with
  | some r => r.1
  | none => []

/-- The port after the next client has connected to it. -/
def closeon_reconnected : port_info :=
  ((handle_accept_port_read closeon_closed 0 accept_ok true).1).headD closeon_port

/-! ## Template expansion: `process_str`, `process_str_to_str` -/

/-- The C `struct tm` that `localtime_r` fills. -/
structure tm where
  tm_sec : Int
  tm_min : Int
  tm_hour : Int
  tm_mday : Int
  tm_mon : Int
  tm_year : Int
  tm_wday : Int
  tm_yday : Int
deriving DecidableEq

/-- What the outside world answers during `process_str`: the text
`serparm_to_str` leaves in `str`, the return value of `getnameinfo` and the
text in the buffer `ip` after that call. -/
structure str_env where
  serparm : List Nat
  getnameinfo : Int
  ip : List Nat
deriving DecidableEq

/-- `isdigit`. -/
def isdigit (c : Nat) : Bool := decide (48 ≤ c ∧ c ≤ 57)

/-- `isxdigit`. -/
def isxdigit (c : Nat) : Bool :=
  decide ((48 ≤ c ∧ c ≤ 57) ∨ (65 ≤ c ∧ c ≤ 70) ∨ (97 ≤ c ∧ c ≤ 102))

/-- `from_hex_digit`. -/
def from_hex_digit (c : Nat) : Nat :=
  if 48 ≤ c ∧ c ≤ 57 then c - 48
  else if 65 ≤ c ∧ c ≤ 70 then c - 65 + 10
  else if 97 ≤ c ∧ c ≤ 102 then c - 97 + 10
  else 0

/-- The table `smonths`. -/
def smonths : List String :=
  ["Jan", "Feb", "Mar", "Apr", "May", "Jun", "Jul", "Aug", "Sep", "Oct", "Nov", "Dec"]

/-- The table `sdays`. -/
def sdays : List String := ["Sun", "Mon", "Tue", "Wed", "Thu", "Fri", "Sat"]

/-- The decimal digits of a natural number, as characters. -/
def dec_digits (n : Nat) : List Nat := (Nat.toDigits 10 n).map Char.toNat

/-- What `snprintf (d, size, "%d", v)` leaves in `d`: the decimal text of
`v`, cut to `size - 1` characters. -/
def snprintf_d (size : Nat) (v : Int) : List Nat :=
  (if v < 0 then 45 :: dec_digits (-v).toNat else dec_digits v.toNat).take (size - 1)

/-- The conversion `%N.Nd`: at least `prec` digits, padded with zeros, after
the sign. -/
def fmt_prec (prec : Nat) (v : Int) : List Nat :=
  let ds := dec_digits v.natAbs
  let ds := List.replicate (prec - ds.length) 48 ++ ds
  if v < 0 then 45 :: ds else ds

/-- What `snprintf (d, size, "%2.2d", v)` (or `"%6.6ld"` with `prec` 6)
leaves in `d`. -/
def snprintf_prec (size prec : Nat) (v : Int) : List Nat := (fmt_prec prec v).take (size - 1)

/-- `strrchr (devname, '/')` followed by `t++`, or the whole name when it
has no slash: the part of the name after its last slash. -/
def after_last_slash : List Nat → List Nat
  | [] => []
  | c :: rest =>
    if 47 ∈ rest then after_last_slash rest
    else if c = 47 then rest
    else c :: rest

/-- The characters that the cases of the `switch` in `process_str` other than
the octal and the hex case hand to `op`, in order, for the character `c` that
follows the backslash. -/
def escape_chars (port : port_info) (env : str_env) (time : tm) (tv : timeval)
    (isfilename : Bool) (c : Nat) : List Nat :=
  let seconds := snprintf_prec 10 2 time.tm_sec
  let serparms := env.serparm
  if c = 97 then [7]
  else if c = 98 then [8]
  else if c = 102 then [12]
  else if c = 110 then [10]
  else if c = 114 then [13]
  else if c = 116 then [9]
  else if c = 118 then [11]
  else if c = 92 then [92]
  else if c = 63 then [63]
  else if c = 39 then [39]
  else if c = 34 then [34]
  else if c = 100 then
    if isfilename then after_last_slash (bytes port.devname) else bytes port.devname
  else if c = 112 then bytes port.portname
  else if c = 115 then (if isfilename then seconds else serparms)
  else if c = 66 then serparms
  else if c = 89 then snprintf_d 10 (int32 (time.tm_year + 1900))
  else if c = 121 then snprintf_d 10 time.tm_yday
  else if c = 77 then
    (if time.tm_mon ≥ 12 then [63] else bytes (smonths.getD time.tm_mon.toNat ""))
  else if c = 109 then snprintf_d 10 time.tm_mon
  else if c = 65 then
    (if time.tm_wday ≥ 7 then [63] else bytes (sdays.getD time.tm_wday.toNat ""))
  else if c = 68 then snprintf_d 10 time.tm_mday
  else if c = 72 then snprintf_prec 10 2 time.tm_hour
  else if c = 104 then
    snprintf_prec 10 2
      (if time.tm_hour = 0 then 12
       else if time.tm_hour > 12 then time.tm_hour - 12 else time.tm_hour)
  else if c = 105 then snprintf_prec 10 2 time.tm_min
  else if c = 83 then seconds
  else if c = 113 then [if time.tm_hour < 12 then 97 else 112, 109]
  else if c = 80 then [if time.tm_hour < 12 then 65 else 80, 77]
  else if c = 84 then
    (fmt_prec 2 time.tm_hour ++ [58] ++ fmt_prec 2 time.tm_min ++ [58] ++
      fmt_prec 2 time.tm_sec).take 9
  else if c = 101 then snprintf_d 30 tv.tv_sec
  else if c = 85 then snprintf_prec 10 6 tv.tv_usec
  else if c = 73 then (if env.getnameinfo = 0 then [] else env.ip)
  else [c]

/-- The `while (*s)` loop of `process_str`: the template `s` (the characters
before its terminating NUL) is walked once, and every character of the
expansion is handed to `op` together with `data`; the result is the final
`data`. After a backslash, an octal digit starts the octal case and `x` the
hex case; these two hand a value to `op` only where the source does, namely
when the template ends inside the escape. Every round of the loop consumes at
least one character; the fuel bounds the number of rounds. -/
def process_str_loop {δ : Type} (port : port_info) (env : str_env) (time : tm) (tv : timeval)
    (op : δ → Nat → δ) (isfilename : Bool) : Nat → List Nat → δ → δ
  | 0, _, data => data
  | _ + 1, [], data => data
  | fuel + 1, c :: s, data =>
    if c ≠ 92 then process_str_loop port env time tv op isfilename fuel s (op data c)
    else
      match s with
      | [] => data
      | e :: s1 =>
        if 48 ≤ e ∧ e ≤ 55 then
          -- `val = (*s) - '0'; s++;`
          match s1 with
          | [] => op data (e - 48)
          | c2 :: s2 =>
            if !isdigit c2 then process_str_loop port env time tv op isfilename fuel s1 data
            else
              -- `val = (val * 8) + (*s) - '0'; s++;`
              match s2 with
              | [] => op data (uchar (((e - 48) * 8 + c2 - 48 : Nat) : Int))
              | c3 :: s3 =>
                if !isdigit c3 then process_str_loop port env time tv op isfilename fuel s2 data
                else
                  -- `val = (val * 8) + (*s) - '0'; break;` and then `s++`
                  process_str_loop port env time tv op isfilename fuel s3 data
        else if e = 120 then
          -- `s++;`
          match s1 with
          | [] => data
          | c2 :: s2 =>
            if !isxdigit c2 then process_str_loop port env time tv op isfilename fuel s1 data
            else
              -- `val = from_hex_digit (*s); s++;`
              match s2 with
              | [] => op data (from_hex_digit c2)
              | c3 :: s3 =>
                if !isdigit c3 then process_str_loop port env time tv op isfilename fuel s2 data
                else
                  -- `val = (val * 16) + from_hex_digit (*s); break;` and then `s++`
                  process_str_loop port env time tv op isfilename fuel s3 data
        else
          process_str_loop port env time tv op isfilename fuel s1
            ((escape_chars port env time tv isfilename e).foldl op data)

/-- `process_str (port, time, tv, s, op, data, isfilename)`: the loop with as
many rounds as the template has characters, which lets it run to its end. -/
def process_str {δ : Type} (port : port_info) (env : str_env) (time : tm) (tv : timeval)
    (op : δ → Nat → δ) (isfilename : Bool) (s : List Nat) (data : δ) : δ :=
  process_str_loop port env time tv op isfilename s.length s data

/-- `count_op`: `(*idata)++` on an `unsigned int`. -/
def count_op (idata : Nat) (_c : Nat) : Nat := uint32 (idata + 1)

/-- The C `struct bufop_data`, with the allocated cells of `str`, and a
record of the indices of `str` that were written, kept for the statements. -/
structure bufop_data where
  pos : Nat
  str : List Nat
  writes : List Nat
deriving DecidableEq

/-- `buffer_op`: `bufop->str[bufop->pos] = c; (bufop->pos)++;`. -/
def buffer_op (bufop : bufop_data) (c : Nat) : bufop_data :=
  { pos := uint32 (bufop.pos + 1), str := bufop.str.set bufop.pos c,
    writes := bufop.writes ++ [bufop.pos] }

/-- What `process_str_to_str` gives back: the string with its allocated
size, the length stored through `lenrv` (when that pointer is given), and the
final `bufop` and `len`. -/
structure str_result where
  bufop : bufop_data
  alloc : Nat
  len : Nat
  lenrv : Option Nat
deriving DecidableEq

/-- `process_str_to_str (port, str, tv, lenrv, isfilename)`, with `time` the
answer of `localtime_r`, `want_len` whether `lenrv` is not `NULL`, and
`malloc_ok` whether `malloc` succeeds; `none` is the `NULL` result. -/
def process_str_to_str (port : port_info) (env : str_env) (time : tm) (tv : timeval)
    (str : List Nat) (want_len : Bool) (isfilename : Bool) (malloc_ok : Bool) :
    Option str_result :=
  let len := process_str port env time tv count_op isfilename str 0
  let len := if !want_len then uint32 (len + 1) else len
  let alloc := if len = 0 then 1 else len
  if !malloc_ok then none
  else
    let bufop : bufop_data := { pos := 0, str := List.replicate alloc 0, writes := [] }
    let bufop := process_str port env time tv buffer_op isfilename str bufop
    if want_len then some { bufop := bufop, alloc := alloc, len := len, lenrv := some len }
    else
      some { bufop := { bufop with str := bufop.str.set bufop.pos 0,
                                   writes := bufop.writes ++ [bufop.pos] },
             alloc := alloc, len := len, lenrv := none }

/-- The expansion of a template: the characters `process_str` hands to `op`,
in order. -/
def expansion (port : port_info) (env : str_env) (time : tm) (tv : timeval)
    (isfilename : Bool) (s : List Nat) : List Nat :=
  process_str port env time tv (fun (l : List Nat) c => l ++ [c]) isfilename s []

/-- A time context: Friday 30 October 2026, 13:05:09 and 42 microseconds. -/
def sample_tm : tm :=
  { tm_sec := 9, tm_min := 5, tm_hour := 13, tm_mday := 30, tm_mon := 9, tm_year := 126,
    tm_wday := 5, tm_yday := 302 }

/-- The time of `sample_tm` as a `timeval`. -/
def sample_tv : timeval := ⟨1793365509, 42⟩

/-- A device at 9600N81 and a peer whose address lookup fails leaving "?" in
the buffer. -/
def sample_str_env : str_env := { serparm := bytes "9600N81", getnameinfo := -1, ip := [63] }

/-! ## Backpressure on the device-to-socket side -/

/-- Backpressure is on: the socket's write-ready handler is enabled, the
device read handler is disabled, and the state is
`PORT_WAITING_OUTPUT_CLEAR`. -/
@[reducible] def backpressure_on (port : port_info) : Prop :=
  port.tcp_write_enabled = true ∧ port.dev_read_enabled = false ∧
    port.dev_to_tcp_state = PORT_WAITING_OUTPUT_CLEAR

/-- Backpressure is off: the device read handler is enabled, the socket's
write-ready handler is disabled, and the state is `PORT_WAITING_INPUT`. -/
@[reducible] def backpressure_off (port : port_info) : Prop :=
  port.dev_read_enabled = true ∧ port.tcp_write_enabled = false ∧
    port.dev_to_tcp_state = PORT_WAITING_INPUT

/-- The data waits for `send_timer`: the timer is armed and the handlers and
the state are those of `before`. -/
@[reducible] def waits_for_send_timer (before port : port_info) : Prop :=
  port.send_timer_armed.isSome = true ∧ port.send_timer_running = true ∧
    port.tcp_write_enabled = before.tcp_write_enabled ∧
    port.dev_read_enabled = before.dev_read_enabled ∧
    port.dev_to_tcp_state = before.dev_to_tcp_state

/-- The port after the device delivered one byte to `connected_port 4`, which
has the default character delay. -/
def delayed_byte_port : port_info :=
  (handle_dev_fd_read (connected_port 4) (.data [1]) ⟨100, 0⟩ .eagain).1

/-- The first part of `dev_read_do_send`: closeon scan, tracing, byte
counter, IAC doubling and the commit of the new `cursize`. Returns the port
and the trace events. -/
def dev_read_commit (port : port_info) (count : Nat) : port_info × List Event :=
  let scan := match port.closeon with
    | some closeon =>
      closeon_loop port.dev_to_tcp.buf closeon port.closeon_len count count 0 port.closeon_pos
    | none => (count, port.closeon_pos, false)
  let count := scan.1
  let port := { port with
    closeon_pos := scan.2.1,
    close_on_output_done := if scan.2.2 then true else port.close_on_output_done }
  let traced := port.dev_to_tcp.buf.take count
  let ev := do_trace port port.tr traced ++ do_trace port port.tb traced
  let port := { port with dev_bytes_received := uint32 (port.dev_bytes_received + count) }
  let dbl := if port.enabled = PORT_TELNET then
      iac_double_loop count 0 count port.dev_to_tcp.buf
    else (port.dev_to_tcp.buf, count)
  let count := dbl.2
  let port := { port with
    dev_to_tcp := { port.dev_to_tcp with
      buf := dbl.1, cursize := port.dev_to_tcp.cursize + count } }
  (port, ev)

/-- The second part of `dev_read_do_send`: the immediate send or the arming
of `send_timer`, for the port and the events of the first part. -/
def dev_read_dispatch (port : port_info) (ev : List Event) (send_now : Bool)
    (now : timeval) (wr : write_result) : port_info × List Event :=
  if send_now ∨ port.dev_to_tcp.cursize = port.dev_to_tcp.maxsize ∨ port.chardelay = 0 then
    let r := dev_read_send_it port wr
    (r.1, ev ++ r.2)
  else
    let port := if port.send_timer_running then
        { port with send_timer_armed := none }
      else
        { port with send_time := add_usec_to_timeval now port.chardelay_max }
    let delay := sub_timeval_us port.send_time now
    if delay > port.chardelay then
      ({ port with send_timer_armed := some (add_usec_to_timeval now port.chardelay),
                   send_timer_running := true }, ev)
    else if delay < 0 then
      let r := dev_read_send_it { port with send_timer_running := false } wr
      (r.1, ev ++ r.2)
    else
      ({ port with send_timer_armed := some (add_usec_to_timeval now delay),
                   send_timer_running := true }, ev)

/-- What the backpressure invariant looks at: `dev_to_tcp.cursize`, the
`cursize` of the telnet command buffer, whether the device read handler and
the socket write handler are enabled, and `dev_to_tcp_state`. -/
def handler_view (port : port_info) : Nat × Nat × Bool × Bool × Nat :=
  (port.dev_to_tcp.cursize, port.out_telnet_cmd.cursize, port.dev_read_enabled,
   port.tcp_write_enabled, port.dev_to_tcp_state)

/-- The handlers and the state the backpressure invariant looks at are those
of `before`. -/
@[reducible] def same_handlers (before port : port_info) : Prop :=
  port.tcp_write_enabled = before.tcp_write_enabled ∧
    port.dev_read_enabled = before.dev_read_enabled ∧
    port.dev_to_tcp_state = before.dev_to_tcp_state

/-- A banner of two bytes, "hi", as `process_str_to_buf` returns it. -/
def banner_hi : sbuf := ⟨[104, 105], 0, 2, 2⟩

/-- The raw port "2000" after a client has connected to it, with the banner
"hi" waiting to be written. -/
def banner_port : port_info :=
  ((handle_accept_port_read [listening_port] 0
    { accept_ok with setup := { setup_ok with banner := some banner_hi } } true).1).headD
    listening_port

/-! ## Samples for the inactivity timeout -/

/-- A connected port with `timeout` 2 and the default character delay, right
after `reset_timer`. -/
def timeout_port : port_info := reset_timer { connected_port 4 with timeout := 2 }

/-- The port `timeout_port` after the first tick and a device read of one
byte, which waits in `dev_to_tcp` for `send_timer`. -/
def timeout_read_port : port_info :=
  (handle_dev_fd_read (got_timeout timeout_port none).1 (.data [1]) ⟨100, 0⟩ .eagain).1

/-- The port `timeout_read_port` after `send_timer` has expired and the socket
has taken the byte. -/
def timer_relayed_port : port_info := (send_timeout timeout_read_port (.count 1)).1

/-- The same tick and device read on a port without character delay, where
the byte is sent at once and the socket takes it. -/
def direct_relayed_port : port_info :=
  (handle_dev_fd_read (got_timeout { timeout_port with chardelay := 0 } none).1 (.data [1])
    ⟨100, 0⟩ (.count 1)).1

/-- The port at index `idx` of the list carries a session: its
`tcp_to_dev_state` is not `PORT_UNCONNECTED`. -/
def connected_at (idx : Nat) (ports : List port_info) : Prop :=
  ∃ q, ports[idx]? = some q ∧ q.tcp_to_dev_state ≠ PORT_UNCONNECTED

/-! # Theorems -/

/-! ## Character-delay computation (C10) -/

theorem int32_of_fits (x : Int) (h0 : 0 ≤ x) (h1 : x < 2147483648) : int32 x = x := by
  unfold int32
  omega

/-- C10: with character delay enabled, `bps > 0`, non-negative `bpc`,
`chardelay_scale`, `chardelay_min`, and `bpc * 100000 * chardelay_scale`
within a 32-bit int, `recalc_port_chardelay` sets `chardelay` to
`max (chardelay_min, floor (bpc * 100000 * chardelay_scale / bps))` and
changes no other field of the port. -/
theorem recalc_port_chardelay_spec (port : port_info)
    (hen : port.enable_chardelay = true) (hbps : 0 < port.bps) (hbpc : 0 ≤ port.bpc)
    (hscale : 0 ≤ port.chardelay_scale) (_hmin : 0 ≤ port.chardelay_min)
    (hfit : port.bpc * 100000 * port.chardelay_scale < 2147483648) :
    recalc_port_chardelay port =
      { port with chardelay :=
          (max port.chardelay_min (port.bpc * 100000 * port.chardelay_scale / port.bps)) } := by
  have hprod : int32 (int32 (port.bpc * 100000) * port.chardelay_scale)
      = port.bpc * 100000 * port.chardelay_scale := by
    rcases eq_or_lt_of_le hscale with h0 | hpos
    · rw [← h0]; simp [int32]
    · have h1 : port.bpc * 100000 ≤ port.bpc * 100000 * port.chardelay_scale := by
        have : 0 ≤ port.bpc * 100000 := by positivity
        nlinarith
      rw [int32_of_fits (port.bpc * 100000) (by positivity) (by omega)]
      exact int32_of_fits _ (by positivity) hfit
  have hdiv : Int.tdiv (port.bpc * 100000 * port.chardelay_scale) port.bps
      = port.bpc * 100000 * port.chardelay_scale / port.bps :=
    Int.tdiv_eq_ediv (by positivity) (le_of_lt hbps)
  unfold recalc_port_chardelay
  simp only [hen, hprod, hdiv, Bool.not_true, Bool.false_eq_true, if_false]
  by_cases hlt : port.bpc * 100000 * port.chardelay_scale / port.bps < port.chardelay_min
  · simp [hlt, max_eq_left (le_of_lt hlt)]
  · simp [hlt, max_eq_right (not_lt.mp hlt)]

theorem recalc_port_chardelay_spec_witness :
    recalc_port_chardelay (connected_port 4) =
      { connected_port 4 with chardelay :=
          (max (connected_port 4).chardelay_min
            ((connected_port 4).bpc * 100000 * (connected_port 4).chardelay_scale
              / (connected_port 4).bps)) } :=
  recalc_port_chardelay_spec (connected_port 4) rfl (by decide) (by decide) (by decide)
    (by decide) (by decide)

/-! ## Inactivity timeout (C8) -/

theorem got_timeout_closing (port : port_info) (modem : Option Nat)
    (h : port.dev_to_tcp_state = PORT_CLOSING) : got_timeout port modem = (port, []) := by
  simp [got_timeout, h]

theorem telnet_output_ready_fields (port : port_info) :
    (telnet_output_ready port).timeout = port.timeout ∧
    (telnet_output_ready port).timeout_left = port.timeout_left ∧
    (telnet_output_ready port).dev_to_tcp_state = port.dev_to_tcp_state := by
  unfold telnet_output_ready
  split_ifs <;> simp

theorem got_timeout_counting (port : port_info) (modem : Option Nat)
    (hs : port.dev_to_tcp_state ≠ PORT_CLOSING) (ht : port.timeout ≠ 0)
    (hl : 1 ≤ port.timeout_left) :
    (got_timeout port modem).1.timeout = port.timeout ∧
    (got_timeout port modem).1.timeout_left = port.timeout_left - 1 ∧
    (got_timeout port modem).1.dev_to_tcp_state = port.dev_to_tcp_state ∧
    (got_timeout port modem).1.timer_armed = true ∧
    Event.timer_rearmed ∈ (got_timeout port modem).2 ∧
    ∀ reason, Event.footer reason ∉ (got_timeout port modem).2 := by
  have hnl : ¬ (port.timeout_left - 1 < 0) := by omega
  unfold got_timeout
  simp only [hs, ht, if_false, ne_eq, not_false_eq_true, if_true, hnl, and_false]
  cases h2 : port.is_2217 <;> cases hm : modem <;> simp
  split_ifs <;> simp [telnet_output_ready_fields]

theorem got_timeout_expiry (port : port_info) (modem : Option Nat)
    (hs : port.dev_to_tcp_state ≠ PORT_CLOSING) (ht : port.timeout ≠ 0)
    (hl : port.timeout_left = 0) :
    (got_timeout port modem).1.dev_to_tcp_state = PORT_CLOSING ∧
    Event.footer "timeout" ∈ (got_timeout port modem).2 := by
  unfold got_timeout
  simp [hs, ht, hl, shutdown_port]

theorem got_timeout_disabled (port : port_info) (modem : Option Nat)
    (ht : port.timeout = 0) :
    (got_timeout port modem).1.timeout = 0 ∧
    ∀ reason, Event.footer reason ∉ (got_timeout port modem).2 := by
  unfold got_timeout
  by_cases hs : port.dev_to_tcp_state = PORT_CLOSING
  · simp [hs, ht]
  · simp only [hs, ht, if_false, ne_eq, not_true_eq_false, false_and]
    cases h2 : port.is_2217 <;> cases hm : modem <;> simp [ht]
    split_ifs <;> simp [telnet_output_ready_fields, ht]

theorem ticks_counting (port : port_info) (modem : Nat → Option Nat)
    (hT : 0 < port.timeout) (hl : port.timeout_left = port.timeout)
    (hs : port.dev_to_tcp_state ≠ PORT_CLOSING) (k : Nat) (hk : (k : Int) ≤ port.timeout) :
    (ticks modem k port).timeout = port.timeout ∧
    (ticks modem k port).timeout_left = port.timeout - k ∧
    (ticks modem k port).dev_to_tcp_state = port.dev_to_tcp_state := by
  induction k with
  | zero => simp [ticks, hl]
  | succ n ih =>
    have hn : (n : Int) ≤ port.timeout := by push_cast at hk; omega
    obtain ⟨h1, h2, h3⟩ := ih hn
    have hc := got_timeout_counting (ticks modem n port) (modem n) (by rw [h3]; exact hs)
      (by rw [h1]; omega) (by rw [h2]; push_cast at hk; omega)
    simp only [ticks]
    refine ⟨by rw [hc.1, h1], ?_, by rw [hc.2.2.1, h3]⟩
    rw [hc.2.1, h2]; push_cast; ring

theorem ticks_expired (port : port_info) (modem : Nat → Option Nat)
    (hT : 0 < port.timeout) (hl : port.timeout_left = port.timeout)
    (hs : port.dev_to_tcp_state ≠ PORT_CLOSING) (k : Nat) (hk : port.timeout < (k : Int)) :
    (ticks modem k port).dev_to_tcp_state = PORT_CLOSING := by
  induction k with
  | zero => simp at hk; omega
  | succ n ih =>
    simp only [ticks]
    by_cases hn : port.timeout < (n : Int)
    · rw [got_timeout_closing _ _ (ih hn)]; exact ih hn
    · have hle : (n : Int) ≤ port.timeout := not_lt.mp hn
      obtain ⟨h1, h2, h3⟩ := ticks_counting port modem hT hl hs n hle
      have heq : (n : Int) = port.timeout := by push_cast at hk; omega
      exact (got_timeout_expiry _ _ (by rw [h3]; exact hs) (by rw [h1]; omega)
        (by rw [h2]; omega)).1

theorem ticks_disabled (port : port_info) (modem : Nat → Option Nat)
    (ht : port.timeout = 0) (k : Nat) : (ticks modem k port).timeout = 0 := by
  induction k with
  | zero => simpa [ticks] using ht
  | succ n ih => simpa [ticks] using (got_timeout_disabled _ (modem n) ih).1

/-- The tick count of the inactivity timer: starting from
`timeout = timeout_left = T > 0` on a port that is not closing, and with nothing but 1-Hz ticks, the `k`-th tick initiates
`shutdown_port ("timeout")` exactly when `k = T + 1`; the ticks `1..T` only
count `timeout_left` down to `T - k`, leave the state alone and re-arm the
timer without any shutdown; with ticks one second apart and the first one at
most a second after the last byte, the shutdown tick comes between `T` and
`T + 1` seconds after that byte. With `timeout = 0` no tick initiates a
shutdown. -/
theorem inactivity_timeout (port : port_info) (modem : Nat → Option Nat) :
    (0 < port.timeout → port.timeout_left = port.timeout →
      port.dev_to_tcp_state ≠ PORT_CLOSING →
      ∀ k : Nat, 1 ≤ k →
        (Event.footer "timeout" ∈ tick_events modem k port ↔ (k : Int) = port.timeout + 1) ∧
        ((k : Int) ≤ port.timeout →
          (ticks modem k port).timeout_left = port.timeout - k ∧
          (ticks modem k port).dev_to_tcp_state = port.dev_to_tcp_state ∧
          (ticks modem k port).timer_armed = true ∧
          Event.timer_rearmed ∈ tick_events modem k port ∧
          ∀ reason, Event.footer reason ∉ tick_events modem k port) ∧
        ((k : Int) = port.timeout + 1 →
          (ticks modem k port).dev_to_tcp_state = PORT_CLOSING ∧
          ∀ d : Int, 0 ≤ d → d ≤ 1000000 →
            port.timeout * 1000000 ≤ tick_time d k ∧
            tick_time d k ≤ (port.timeout + 1) * 1000000)) ∧
    (port.timeout = 0 →
      ∀ k : Nat, 1 ≤ k → ∀ reason, Event.footer reason ∉ tick_events modem k port) := by
  refine ⟨?_, ?_⟩
  · intro hT hl hs k hk
    obtain ⟨n, rfl⟩ : ∃ n, k = n + 1 := ⟨k - 1, by omega⟩
    have hev : tick_events modem (n + 1) port = (got_timeout (ticks modem n port) (modem n)).2 := by
      simp [tick_events]
    have hst : ticks modem (n + 1) port = (got_timeout (ticks modem n port) (modem n)).1 := rfl
    rcases lt_trichotomy ((n : Int) + 1) (port.timeout + 1) with hlt | heq | hgt
    · -- a counting tick
      obtain ⟨h1, h2, h3⟩ := ticks_counting port modem hT hl hs n (by omega)
      have hc := got_timeout_counting (ticks modem n port) (modem n) (by rw [h3]; exact hs)
        (by rw [h1]; omega) (by rw [h2]; omega)
      refine ⟨⟨fun h => absurd h (by rw [hev]; exact hc.2.2.2.2.2 _),
        fun h => by push_cast at h; omega⟩, fun _ => ?_, fun h => by push_cast at h; omega⟩
      rw [hev, hst]
      refine ⟨?_, by rw [hc.2.2.1, h3], hc.2.2.2.1, hc.2.2.2.2.1, hc.2.2.2.2.2⟩
      rw [hc.2.1, h2]; push_cast; ring
    · -- the tick that times out
      obtain ⟨h1, h2, h3⟩ := ticks_counting port modem hT hl hs n (by omega)
      have he := got_timeout_expiry (ticks modem n port) (modem n) (by rw [h3]; exact hs)
        (by rw [h1]; omega) (by rw [h2]; omega)
      refine ⟨⟨fun _ => by push_cast; omega, fun _ => by rw [hev]; exact he.2⟩,
        fun h => by push_cast at h; omega, fun _ => ⟨by rw [hst]; exact he.1, ?_⟩⟩
      intro d hd0 hd1
      unfold tick_time
      push_cast
      constructor <;> nlinarith
    · -- the port is closing already
      have hcl := ticks_expired port modem hT hl hs n (by omega)
      refine ⟨⟨fun h => ?_, fun h => by push_cast at h; omega⟩,
        fun h => by push_cast at h; omega, fun h => by push_cast at h; omega⟩
      rw [hev, got_timeout_closing _ _ hcl] at h
      simp at h
  · intro ht k _ reason
    unfold tick_events
    exact (got_timeout_disabled _ _ (ticks_disabled port modem ht (k - 1))).2 reason

theorem inactivity_timeout_witness :
    (Event.footer "timeout" ∈
        tick_events (fun _ => none) 3 { connected_port 4 with timeout := 2, timeout_left := 2 }
      ↔ ((3 : Nat) : Int) = ({ connected_port 4 with timeout := 2, timeout_left := 2 } : port_info).timeout + 1) ∧
    (∀ reason, Event.footer reason ∉ tick_events (fun _ => none) 5 (connected_port 4)) :=
  ⟨((inactivity_timeout { connected_port 4 with timeout := 2, timeout_left := 2 }
      (fun _ => none)).1 (by decide) rfl (by decide) 3 (by decide)).1,
   (inactivity_timeout (connected_port 4) (fun _ => none)).2 rfl 5 (by decide)⟩

/-! ## Closeon (C1) -/

/-- C1, the code at the failing input: with closeon "b" and the device
delivering "a" and then "b" in a second read while "a" still waits in the
buffer, the scan looks at the buffered "a" again, so "ab" is committed but
`close_on_output_done` stays false. With closeon "b" delivered first and "c"
in a later read, "c" is committed behind the match. With closeon "ab" and the
single read "aabc" into an empty buffer the match is missed too and all four
bytes are committed. -/
theorem closeon_missed_at_failing_input :
    (committed (two_reads closeon_port [97] [98]) = [97, 98] ∧
      (two_reads closeon_port [97] [98]).close_on_output_done = false) ∧
    (committed (two_reads closeon_port [98] [99]) = [98, 99] ∧
      (two_reads closeon_port [98] [99]).close_on_output_done = true) ∧
    (committed (handle_dev_fd_read
        { connected_port 8 with closeon := some [97, 98], closeon_len := 2 }
        (.data [97, 97, 98, 99]) ⟨100, 0⟩ .eagain).1 = [97, 97, 98, 99] ∧
      (handle_dev_fd_read
        { connected_port 8 with closeon := some [97, 98], closeon_len := 2 }
        (.data [97, 97, 98, 99]) ⟨100, 0⟩ .eagain).1.close_on_output_done = false) := by
  decide

/-! ## Telnet IAC doubling (C2) -/

/-- C2, the code at the failing input: in telnet mode with the byte 65
still buffered, a device read of the single byte 255 leaves the buffer
holding 65, 255 with `cursize = 2`: the doubling loop ran over the old byte
at index 0, and the 255 was not doubled. -/
theorem iac_not_doubled_at_failing_input :
    committed (two_reads telnet_port [65] [255]) = [65, 255] ∧
    (two_reads telnet_port [65] [255]).dev_to_tcp.cursize = 2 ∧
    committed (two_reads telnet_port [65] [255]) ≠ [65, 255, 255] := by
  decide

/-! ## No reordering under pacing (C4) -/

/-- C4, the code at the failing input: in the run `pacing_run` every step is
possible, the device delivered 1, 2 and the socket accepted 1, 1: the byte 1
was sent twice. -/
theorem pacing_run_sends_twice :
    (pipe_run ⟨connected_port 2, [], []⟩ pacing_run).map (fun s => (s.dev_in, s.sock_out))
      = some ([1, 2], [1, 1]) ∧
    ¬ ([1, 1] : List Nat) <+: [1, 2] := by
  decide

/-! ## Character-delay bound (C9) -/

/-- C9, the code at the failing input: with `chardelay = chardelay_max =
1000000` (from `chardelay-min` and `chardelay-max` of one second) and a first
byte read at `t0 = 100 s`, `send_time` becomes
`{101, 1000000}`, that is 102 s, and the deadline armed on `send_timer` is
102 s as well, a second later than `t0 + chardelay_max = 101 s`. -/
theorem chardelay_deadline_late_at_failing_input :
    slow_port.chardelay = 1000000 ∧
    (handle_dev_fd_read slow_port (.data [65]) ⟨100, 0⟩ .eagain).1.send_time = ⟨101, 1000000⟩ ∧
    (handle_dev_fd_read slow_port (.data [65]) ⟨100, 0⟩ .eagain).1.send_timer_armed
      = some ⟨101, 1000000⟩ ∧
    (⟨101, 1000000⟩ : timeval).usecs = 102000000 ∧
    (⟨100, 0⟩ : timeval).usecs + slow_port.chardelay_max = 101000000 := by
  decide

/-! ## Byte fidelity, socket to device (C3) -/

theorem store_at_length (B : List Nat) : ∀ (buf : List Nat) (off : Nat),
    (store_at buf off B).length = buf.length := by
  induction B with
  | nil => intro buf off; rfl
  | cons b bs ih => intro buf off; simp [store_at, ih]

theorem store_at_eq (B : List Nat) : ∀ (buf : List Nat) (off : Nat),
    off + B.length ≤ buf.length →
    store_at buf off B = buf.take off ++ B ++ buf.drop (off + B.length) := by
  induction B with
  | nil => intro buf off _; simp [store_at]
  | cons b bs ih =>
    intro buf off h
    simp only [List.length_cons] at h
    have hlt : off < buf.length := by omega
    simp only [store_at]
    rw [ih (buf.set off b) (off + 1) (by simp; omega)]
    rw [List.set_eq_take_append_cons_drop]
    simp only [hlt, if_true]
    have h1 : (List.take off buf ++ b :: List.drop (off + 1) buf).take (off + 1)
        = List.take off buf ++ [b] := by
      rw [List.take_append_eq_append_take]
      simp [List.length_take, Nat.min_eq_left (le_of_lt hlt)]
    have h2 : (List.take off buf ++ b :: List.drop (off + 1) buf).drop (off + 1 + bs.length)
        = List.drop (off + (bs.length + 1)) buf := by
      rw [List.drop_append_eq_append_drop]
      simp [List.length_take, Nat.min_eq_left (le_of_lt hlt)]
      have : off + 1 + bs.length - off = (bs.length) + 1 := by omega
      rw [this, List.drop_succ_cons, List.drop_drop]
      have e1 : List.drop (off + 1 + bs.length) (List.take off buf) = [] := by
        apply List.drop_eq_nil_of_le; simp; omega
      rw [e1]
      simp; congr 1; omega
    rw [h1, h2]
    simp [List.length_cons]

theorem store_at_zero_take (B buf : List Nat) (h : B.length ≤ buf.length) :
    (store_at buf 0 B).take B.length = B := by
  rw [store_at_eq B buf 0 (by omega)]
  simp

theorem tcp_read_dev_write_spec (wr : write_result) : ∀ (port : port_info) (B : List Nat) (k : Nat),
    port.tcp_to_dev.buf.take port.tcp_to_dev.cursize = B →
    port.tcp_to_dev.pos = 0 → port.tcp_to_dev.cursize = B.length →
    port.tcp_to_dev_state = PORT_WAITING_INPUT → 0 < B.length →
    wr.accepted = some k → k ≤ B.length →
    dev_sent_bytes (tcp_read_dev_write port wr).2 = B.take k ∧
    (tcp_read_dev_write port wr).1.tcp_to_dev.pending = B.drop k ∧
    (tcp_read_dev_write port wr).1.tcp_to_dev.cursize = B.length - k ∧
    (tcp_read_dev_write port wr).1.tcp_to_dev.pos = (if k < B.length then k else 0) ∧
    ((tcp_read_dev_write port wr).1.tcp_to_dev_state = PORT_WAITING_OUTPUT_CLEAR
      ↔ k < B.length) := by
  induction wr with
  | eintr next ih =>
    intro port B k hB hpos hcur hst hlen hk hkB
    simp only [tcp_read_dev_write]
    exact ih port B k hB hpos hcur hst hlen (by simpa [write_result.accepted] using hk) hkB
  | eagain =>
    intro port B k hB hpos hcur hst hlen hk hkB
    simp only [write_result.accepted, Option.some.injEq] at hk
    subst hk
    have hpend : port.tcp_to_dev.pending = B := by
      simp [sbuf.pending, hpos, hB]
    simp [tcp_read_dev_write, reset_timer, dev_sent_bytes, hpend, hcur, hpos, hlen]
  | epipe => intro port B k _ _ _ _ _ hk; simp [write_result.accepted] at hk
  | error => intro port B k _ _ _ _ _ hk; simp [write_result.accepted] at hk
  | count n =>
    intro port B k hB hpos hcur hst _ hk hkB
    simp only [write_result.accepted, Option.some.injEq] at hk
    subst hk
    have hmin : min n port.tcp_to_dev.cursize = n := by rw [hcur]; exact Nat.min_eq_left hkB
    by_cases hlt : n < B.length
    · have hne : ¬ (port.tcp_to_dev.cursize - n = 0) := by rw [hcur]; omega
      simp only [tcp_read_dev_write, hmin, hne, ne_eq, not_false_eq_true, if_true, reset_timer,
        dev_sent_bytes, List.append_nil, hB, sbuf.pending, hlt]
      refine ⟨trivial, ?_, by rw [hcur], trivial, by simp⟩
      have hl : (List.take B.length port.tcp_to_dev.buf).length = B.length := by
        rw [← hcur, hB, hcur]
      rw [hcur, ← hB, hcur, List.drop_take, hl]
    · have heq : n = B.length := by omega
      have hz : port.tcp_to_dev.cursize - n = 0 := by rw [hcur]; omega
      simp only [tcp_read_dev_write, hmin, hz, ne_eq, not_true_eq_false, if_false, reset_timer,
        dev_sent_bytes, List.append_nil, hB, sbuf.pending, hlt]
      refine ⟨trivial, ?_, by omega, hpos, ?_⟩
      · simp [heq]
      · simp [hst, PORT_WAITING_INPUT, PORT_WAITING_OUTPUT_CLEAR]

/-- C3 as stated fails where the device takes the whole read: for the
one-byte read `[1]` with `k = 1` byte accepted the buffer ends with
`pos = 0`, not `pos = k`. -/
theorem tcp_read_pos_not_k_counterexample :
    (handle_tcp_fd_read (connected_port 4) (.data [1]) (fun b => (b, false))
        (.count 1)).1.tcp_to_dev.pos = 0 ∧
    ¬ ((handle_tcp_fd_read (connected_port 4) (.data [1]) (fun b => (b, false))
          (.count 1)).1.tcp_to_dev.pos = 1 ∧
       (handle_tcp_fd_read (connected_port 4) (.data [1]) (fun b => (b, false))
          (.count 1)).1.tcp_to_dev.cursize = 1 - 1) := by
  decide

/-- C3, amended: in raw mode, for a non-empty read `B` from the socket
(`|B| ≤ maxsize`, the port waiting for input) and a device write that ends up
accepting `k ≤ |B|` bytes (would-block counting as 0), the device has received
exactly `B[0..k)`, the pending region of `tcp_to_dev` is exactly `B[k..)` with
`cursize = |B| - k`, `pos` is `k` when `k < |B|` and 0 when `k = |B|`, the
state becomes `WaitingOutputClear` iff `k < |B|`, and the accepted bytes
followed by the pending region are `B`. -/
theorem tcp_read_byte_fidelity (port : port_info) (B : List Nat)
    (tn : List Nat → List Nat × Bool) (wr : write_result) (k : Nat)
    (hraw : port.enabled ≠ PORT_TELNET)
    (hstate : port.tcp_to_dev_state = PORT_WAITING_INPUT)
    (hbuf : port.tcp_to_dev.buf.length = port.tcp_to_dev.maxsize)
    (hne : B ≠ []) (hlen : B.length ≤ port.tcp_to_dev.maxsize)
    (hk : wr.accepted = some k) (hkB : k ≤ B.length) :
    dev_sent_bytes (handle_tcp_fd_read port (.data B) tn wr).2 = B.take k ∧
    (handle_tcp_fd_read port (.data B) tn wr).1.tcp_to_dev.pending = B.drop k ∧
    (handle_tcp_fd_read port (.data B) tn wr).1.tcp_to_dev.cursize = B.length - k ∧
    (handle_tcp_fd_read port (.data B) tn wr).1.tcp_to_dev.pos
      = (if k < B.length then k else 0) ∧
    ((handle_tcp_fd_read port (.data B) tn wr).1.tcp_to_dev_state = PORT_WAITING_OUTPUT_CLEAR
      ↔ k < B.length) ∧
    dev_sent_bytes (handle_tcp_fd_read port (.data B) tn wr).2
      ++ (handle_tcp_fd_read port (.data B) tn wr).1.tcp_to_dev.pending = B := by
  have hpos : 0 < B.length := List.length_pos.mpr hne
  have htake : List.take port.tcp_to_dev.maxsize B = B := List.take_of_length_le hlen
  have hsent : ∀ (p : port_info) (l1 l2 l3 : List Event),
      (∀ e ∈ l1 ++ l2 ++ l3, ∀ b, e ≠ Event.dev_sent b) →
      dev_sent_bytes (l1 ++ l2 ++ l3 ++ (tcp_read_dev_write p wr).2)
        = dev_sent_bytes (tcp_read_dev_write p wr).2 := by
    intro p l1 l2 l3 h
    generalize l1 ++ l2 ++ l3 = l at h
    induction l with
    | nil => rfl
    | cons e rest ih =>
      have he := h e (by simp)
      have := ih (fun e' he' => h e' (by simp [he']))
      cases e <;> simp_all [dev_sent_bytes]
  have key := tcp_read_dev_write_spec wr
    { port with
      tcp_to_dev := { port.tcp_to_dev with
        buf := store_at port.tcp_to_dev.buf 0 B, cursize := B.length, pos := 0 },
      tcp_bytes_received := uint32 (port.tcp_bytes_received + B.length) } B k
    (by simpa using store_at_zero_take B port.tcp_to_dev.buf (by omega)) rfl rfl hstate hpos hk hkB
  have hunfold : handle_tcp_fd_read port (.data B) tn wr =
      tcp_read_relay { port with
        tcp_to_dev := { port.tcp_to_dev with
          buf := store_at port.tcp_to_dev.buf 0 B, cursize := B.length, pos := 0 },
        tcp_bytes_received := uint32 (port.tcp_bytes_received + B.length) } wr := by
    simp [handle_tcp_fd_read, htake, hraw, Nat.ne_of_gt hpos]
  rw [hunfold]
  simp only [tcp_read_relay]
  rw [hsent _ _ _ _ (by
    intro e he b
    simp only [do_trace, List.mem_append] at he
    rcases he with (he | he) | he
    · split_ifs at he <;> simp_all
    · split at he <;> simp_all
    · split at he <;> simp_all)]
  obtain ⟨h1, h2, h3, h4, h5⟩ := key
  refine ⟨h1, h2, h3, h4, h5, ?_⟩
  rw [h1, h2, List.take_append_drop]

theorem tcp_read_byte_fidelity_witness :
    dev_sent_bytes (handle_tcp_fd_read (connected_port 4) (.data [1, 2, 3])
        (fun b => (b, false)) (.eintr (.count 2))).2 = [1, 2, 3].take 2 ∧
    (handle_tcp_fd_read (connected_port 4) (.data [1, 2, 3])
        (fun b => (b, false)) (.eintr (.count 2))).1.tcp_to_dev.pending = [1, 2, 3].drop 2 :=
  ⟨(tcp_read_byte_fidelity (connected_port 4) [1, 2, 3] (fun b => (b, false))
      (.eintr (.count 2)) 2 (by decide) rfl rfl (by decide) (by decide) rfl (by decide)).1,
   (tcp_read_byte_fidelity (connected_port 4) [1, 2, 3] (fun b => (b, false))
      (.eintr (.count 2)) 2 (by decide) rfl rfl (by decide) (by decide) rfl (by decide)).2.1⟩

/-! ## What the session handlers leave alone -/

theorem same_static_refl (a : port_info) : same_static a a := by
  simp [same_static]

theorem same_static_trans {a b c : port_info} (h1 : same_static a b) (h2 : same_static b c) :
    same_static a c := by
  obtain ⟨a1, a2, a3, a4, a5, a6, a7⟩ := h1
  obtain ⟨b1, b2, b3, b4, b5, b6, b7⟩ := h2
  exact ⟨a1.trans b1, a2.trans b2, a3.trans b3, a4.trans b4, a5.trans b5, a6.trans b6,
    a7.trans b7⟩

theorem shutdown_port_static (port : port_info) (reason : String) :
    same_static (shutdown_port port reason).1 port ∧
    (shutdown_port port reason).1.tcp_to_dev_state = port.tcp_to_dev_state := by
  unfold shutdown_port
  split_ifs <;> simp [same_static]

theorem recalc_port_chardelay_static (port : port_info) :
    same_static (recalc_port_chardelay port) port ∧
    (recalc_port_chardelay port).tcp_to_dev_state = port.tcp_to_dev_state := by
  unfold recalc_port_chardelay
  dsimp only
  split_ifs <;> simp [same_static]

theorem open_trace_file_static (port : port_info) (sel : trace_sel) (env : setup_env) :
    same_static (open_trace_file port sel env).1 port ∧
    (open_trace_file port sel env).1.tcp_to_dev_state = port.tcp_to_dev_state := by
  unfold open_trace_file
  cases env.open_trace sel <;> cases sel <;> simp [same_static, port_info.set_trace]

theorem setup_trace_static (port : port_info) (env : setup_env) :
    same_static (setup_trace port env) port ∧
    (setup_trace port env).tcp_to_dev_state = port.tcp_to_dev_state := by
  have h1 : ∀ p, same_static (setup_trace_tw p env) p ∧
      (setup_trace_tw p env).tcp_to_dev_state = p.tcp_to_dev_state := by
    intro p
    have h := open_trace_file_static { p with tw := none } .write env
    unfold setup_trace_tw
    dsimp only
    split_ifs
    · simpa [same_static] using h
    · simp [same_static]
  have h2 : ∀ p, same_static (setup_trace_tr p env) p ∧
      (setup_trace_tr p env).tcp_to_dev_state = p.tcp_to_dev_state := by
    intro p
    have h := open_trace_file_static { p with tr := none } .read env
    unfold setup_trace_tr
    dsimp only
    split_ifs
    · simp [same_static]
    · simpa [same_static] using h
    · simp [same_static]
  have h3 : ∀ p, same_static (setup_trace_tb p env) p ∧
      (setup_trace_tb p env).tcp_to_dev_state = p.tcp_to_dev_state := by
    intro p
    have h := open_trace_file_static { p with tb := none } .both env
    unfold setup_trace_tb
    dsimp only
    split_ifs
    · simp [same_static]
    · simp [same_static]
    · simpa [same_static] using h
    · simp [same_static]
  unfold setup_trace
  exact ⟨same_static_trans (h3 _).1 (same_static_trans (h2 _).1 (h1 _).1),
    by rw [(h3 _).2, (h2 _).2, (h1 _).2]⟩

theorem setup_tcp_port_handlers_static (port : port_info) (env : setup_env) :
    same_static (setup_tcp_port_handlers port env) port := by
  unfold setup_tcp_port_handlers
  dsimp only
  split_ifs <;> simp [same_static]

theorem setup_tcp_port_static (port : port_info) (env : setup_env) :
    same_static (setup_tcp_port port env).1 port := by
  unfold setup_tcp_port setup_failed
  split_ifs
  · simp [same_static]
  · simp [same_static]
  · simp [same_static]
  · split
    · simp [same_static]
    · rename_i bps bpc _
      have h1 := (recalc_port_chardelay_static { port with bps := bps, bpc := bpc }).1
      have h2 := setup_tcp_port_handlers_static
        (recalc_port_chardelay { port with bps := bps, bpc := bpc }) env
      have h3 := (setup_trace_static (setup_tcp_port_handlers
        (recalc_port_chardelay { port with bps := bps, bpc := bpc }) env) env).1
      have h := same_static_trans h3 (same_static_trans h2 h1)
      simpa [same_static, reset_timer] using h

theorem handle_port_accept_static (port : port_info) (env : accept_env) :
    same_static (handle_port_accept port env).1 port := by
  unfold handle_port_accept
  split
  · simp [same_static]
  · split_ifs
    · simp [same_static]
    · exact same_static_trans (setup_tcp_port_static _ _) (by simp [same_static])

/-! ## Exclusive device (C5) -/

theorem device_inuse_from_spec (cp : Nat) (dev : String) (l : List port_info) :
    ∀ start : Nat,
    (device_inuse_from cp dev start l = 1 ↔
      ∃ j q, l[j]? = some q ∧ start + j ≠ cp ∧ q.devname = dev ∧
        q.tcp_to_dev_state ≠ PORT_UNCONNECTED) ∧
    (device_inuse_from cp dev start l = 0 ∨ device_inuse_from cp dev start l = 1) := by
  induction l with
  | nil => intro start; simp [device_inuse_from]
  | cons p rest ih =>
    intro start
    unfold device_inuse_from
    by_cases hc : start ≠ cp ∧ p.devname = dev ∧ p.tcp_to_dev_state ≠ PORT_UNCONNECTED
    · rw [if_pos hc]
      exact ⟨⟨fun _ => ⟨0, p, by simp, by simpa using hc.1, hc.2.1, hc.2.2⟩, fun _ => rfl⟩,
        Or.inr rfl⟩
    · rw [if_neg hc]
      refine ⟨⟨fun h => ?_, fun h => ?_⟩, (ih (start + 1)).2⟩
      · obtain ⟨j, q, h1, h2, h3, h4⟩ := ((ih (start + 1)).1).1 h
        exact ⟨j + 1, q, by simpa using h1, by omega, h3, h4⟩
      · obtain ⟨j, q, h1, h2, h3, h4⟩ := h
        cases j with
        | zero =>
          simp only [List.getElem?_cons_zero, Option.some.injEq] at h1
          subst h1
          exact absurd ⟨by simpa using h2, h3, h4⟩ hc
        | succ j' =>
          exact ((ih (start + 1)).1).2 ⟨j', q, by simpa using h1, by omega, h3, h4⟩

theorem is_device_already_inuse_spec (ports : List port_info) (idx : Nat) (p : port_info)
    (hp : ports[idx]? = some p) :
    (is_device_already_inuse ports idx = 1 ↔
      ∃ j q, j ≠ idx ∧ ports[j]? = some q ∧ q.devname = p.devname ∧
        q.tcp_to_dev_state ≠ PORT_UNCONNECTED) ∧
    (is_device_already_inuse ports idx = 0 ∨ is_device_already_inuse ports idx = 1) := by
  unfold is_device_already_inuse
  rw [hp]
  have h := device_inuse_from_spec idx p.devname ports 0
  refine ⟨h.1.trans ⟨?_, ?_⟩, h.2⟩
  · rintro ⟨j, q, h1, h2, h3, h4⟩
    exact ⟨j, q, by omega, h1, h3, h4⟩
  · rintro ⟨j, q, h1, h2, h3, h4⟩
    exact ⟨j, q, h2, by omega, h3, h4⟩

theorem exclusive_device_set (ports : List port_info) (idx : Nat) (p p1 : port_info)
    (h : exclusive_device ports) (hp : ports[idx]? = some p) (hdev : p1.devname = p.devname)
    (hconn : p1.tcp_to_dev_state ≠ PORT_UNCONNECTED →
      p.tcp_to_dev_state ≠ PORT_UNCONNECTED ∨ is_device_already_inuse ports idx = 0) :
    exclusive_device (ports.set idx p1) := by
  have hlt : idx < ports.length := by
    rcases Nat.lt_or_ge idx ports.length with h1 | h1
    · exact h1
    · rw [List.getElem?_eq_none h1] at hp; cases hp
  have hspec := is_device_already_inuse_spec ports idx p hp
  -- the new node against any other node
  have key : ∀ (j : Nat) (q : port_info), ports[j]? = some q → j ≠ idx →
      p1.devname = q.devname →
      p1.tcp_to_dev_state = PORT_UNCONNECTED ∨ q.tcp_to_dev_state = PORT_UNCONNECTED := by
    intro j q hq hne hd
    by_cases h1 : p1.tcp_to_dev_state = PORT_UNCONNECTED
    · exact Or.inl h1
    · right
      rcases hconn h1 with h2 | h2
      · rcases h idx j p q hp hq (Ne.symm hne) (hdev ▸ hd) with h3 | h3
        · exact absurd h3 h2
        · exact h3
      · by_contra h3
        have : is_device_already_inuse ports idx = 1 :=
          hspec.1.2 ⟨j, q, hne, hq, by rw [← hd, hdev], h3⟩
        rw [h2] at this
        exact absurd this (by decide)
  intro i j a b ha hb hij hd
  rw [List.getElem?_set] at ha hb
  by_cases hi : idx = i
  · subst hi
    simp only [if_true, hlt] at ha
    have hj : ¬ idx = j := hij
    simp only [hj, if_false] at hb
    cases ha
    exact key j b hb (Ne.symm hij) hd
  · simp only [hi, if_false] at ha
    by_cases hj : idx = j
    · subst hj
      simp only [if_true, hlt] at hb
      cases hb
      exact (key i a ha (fun h => hi h.symm) hd.symm).symm
    · simp only [hj, if_false] at hb
      exact h i j a b ha hb hij hd

theorem port_free_from_spec (ports : List port_info) (name : String) (l : List port_info) :
    ∀ (start i : Nat) (p : port_info), port_free_from ports name start l = some (i, p) →
      ∃ j, i = start + j ∧ l[j]? = some p ∧ p.portname = name ∧
        p.tcp_to_dev_state = PORT_UNCONNECTED ∧ is_device_already_inuse ports i = 0 := by
  induction l with
  | nil => intro start i p h; simp [port_free_from] at h
  | cons a rest ih =>
    intro start i p h
    unfold port_free_from at h
    split_ifs at h with hc
    · simp only [Option.some.injEq, Prod.mk.injEq] at h
      obtain ⟨rfl, rfl⟩ := h
      exact ⟨0, rfl, by simp, hc.1, hc.2.1, hc.2.2⟩
    · obtain ⟨j, h1, h2, h3⟩ := ih (start + 1) i p h
      exact ⟨j + 1, by omega, by simpa using h2, h3⟩

theorem is_port_free_spec (ports : List port_info) (name : String) (i : Nat) (p : port_info)
    (h : is_port_free ports name = some (i, p)) :
    ports[i]? = some p ∧ p.portname = name ∧ p.tcp_to_dev_state = PORT_UNCONNECTED ∧
      is_device_already_inuse ports i = 0 := by
  obtain ⟨j, h1, h2, h3⟩ := port_free_from_spec ports name ports 0 i p h
  have : i = j := by omega
  subst this
  exact ⟨h2, h3⟩

theorem rot_loop_found (ports : List port_info) (rot : rotator) :
    ∀ (fuel i : Nat) (seen : List Nat) (p : Nat) (port : port_info) (i1 : Nat) (ex : List Nat),
      rot_loop ports rot fuel i seen = some (some ((p, port), i1), ex) →
      ∃ name, is_port_free ports name = some (p, port) := by
  intro fuel
  induction fuel with
  | zero => intro i seen p port i1 ex h; simp [rot_loop] at h
  | succ n ih =>
    intro i seen p port i1 ex h
    unfold rot_loop at h
    dsimp only at h
    split at h
    · rename_i q hq
      simp only [Option.some.injEq, Prod.mk.injEq] at h
      obtain ⟨⟨⟨rfl, rfl⟩, -⟩, -⟩ := h
      exact ⟨_, hq⟩
    · split_ifs at h
      all_goals first
        | exact ih _ _ p port i1 ex h
        | simp at h

/-- C5: the exclusive-device predicate is preserved by every accept step:
by `handle_accept_port_read` on any port and by `handle_rot_port_read` on any
rotator, whatever `accept` and `setup_tcp_port` answer; and
`is_device_already_inuse (p)` returns 1 exactly when some other port of the
list has `p`'s `devname` and `tcp_to_dev_state != PORT_UNCONNECTED`, and 0
otherwise. -/
theorem exclusive_device_preserved (ports : List port_info) (h : exclusive_device ports) :
    (∀ (idx : Nat) (env : accept_env) (reject_ok : Bool),
      exclusive_device (handle_accept_port_read ports idx env reject_ok).1) ∧
    (∀ (fuel : Nat) (rot : rotator) (env : accept_env) (reject_ok : Bool) (r : rot_result),
      handle_rot_port_read fuel rot ports env reject_ok = some r → exclusive_device r.ports) ∧
    (∀ (idx : Nat) (p : port_info), ports[idx]? = some p →
      (is_device_already_inuse ports idx = 1 ↔
        ∃ j q, j ≠ idx ∧ ports[j]? = some q ∧ q.devname = p.devname ∧
          q.tcp_to_dev_state ≠ PORT_UNCONNECTED) ∧
      (is_device_already_inuse ports idx = 0 ∨ is_device_already_inuse ports idx = 1)) := by
  refine ⟨?_, ?_, fun idx p hp => is_device_already_inuse_spec ports idx p hp⟩
  · intro idx env reject_ok
    unfold handle_accept_port_read
    cases hp : ports[idx]? with
    | none => exact h
    | some port =>
      dsimp only
      by_cases h1 : port.enabled = PORT_DISABLED
      · rw [if_pos h1]; exact h
      · rw [if_neg h1]
        by_cases h2 : port.tcp_to_dev_state ≠ PORT_UNCONNECTED ∧ port.kickolduser_mode = true
        · rw [if_pos h2]
          exact exclusive_device_set ports idx port _ h hp (shutdown_port_static _ _).1.1
            (fun _ => Or.inl h2.1)
        · rw [if_neg h2]
          by_cases h3 : port.tcp_to_dev_state ≠ PORT_UNCONNECTED
          · rw [if_pos h3]; exact h
          · rw [if_neg h3]
            by_cases h4 : is_device_already_inuse ports idx ≠ 0
            · rw [if_pos h4]; exact h
            · rw [if_neg h4]
              exact exclusive_device_set ports idx port _ h hp
                (handle_port_accept_static _ _).1 (fun _ => Or.inr (by simpa using h4))
  · intro fuel rot env reject_ok r hr
    unfold handle_rot_port_read at hr
    split at hr
    · cases hr
    · rename_i p port i seen hloop
      simp only [Option.some.injEq] at hr
      subst hr
      obtain ⟨name, hfree⟩ := rot_loop_found ports rot fuel _ _ p port i seen hloop
      obtain ⟨h1, -, -, h4⟩ := is_port_free_spec ports name p port hfree
      exact exclusive_device_set ports p port _ h h1 (handle_port_accept_static _ _).1
        (fun _ => Or.inr h4)
    · simp only [Option.some.injEq] at hr
      subst hr
      exact h

theorem exclusive_device_preserved_witness :
    exclusive_device shared_device_ports ∧
    exclusive_device (handle_accept_port_read shared_device_ports 0 accept_ok true).1 :=
  have hex : exclusive_device shared_device_ports := by
    intro i j p q hp _ _ _
    left
    have hmem : p ∈ shared_device_ports := List.getElem?_mem hp
    simp only [shared_device_ports, List.mem_cons, List.mem_singleton, List.not_mem_nil,
      or_false] at hmem
    rcases hmem with rfl | rfl <;> rfl
  ⟨hex, (exclusive_device_preserved shared_device_ports hex).1 0 accept_ok true⟩

/-! ## Rotator selection (C7) -/

theorem rotator_cyc_zero (rot : rotator) (hc : rot.curr_port < rot.portc) :
    rot.cyc 0 = rot.curr_port := by
  simp [rotator.cyc, Nat.mod_eq_of_lt hc]

theorem rotator_cyc_lt (rot : rotator) (hn : 0 < rot.portc) (j : Nat) :
    rot.cyc j < rot.portc := Nat.mod_lt _ hn

theorem rotator_cyc_succ (rot : rotator) (hn : 0 < rot.portc) (j : Nat) :
    (if rot.cyc j + 1 ≥ rot.portc then 0 else rot.cyc j + 1) = rot.cyc (j + 1) := by
  have hlt := rotator_cyc_lt rot hn j
  have hs : rot.cyc (j + 1) = (rot.cyc j + 1) % rot.portc := by
    unfold rotator.cyc
    rw [Nat.mod_add_mod, Nat.add_assoc]
  rw [hs]
  split_ifs with h
  · have : rot.cyc j + 1 = rot.portc := by omega
    rw [this, Nat.mod_self]
  · rw [Nat.mod_eq_of_lt (by omega)]

theorem rotator_cyc_back (rot : rotator) (hc : rot.curr_port < rot.portc) (j : Nat)
    (hj : j < rot.portc) : rot.cyc (j + 1) = rot.curr_port ↔ j + 1 = rot.portc := by
  unfold rotator.cyc
  constructor
  · intro h
    have h1 : rot.curr_port + (j + 1) ≡ rot.curr_port + 0 [MOD rot.portc] := by
      unfold Nat.ModEq
      rw [h, Nat.add_zero, Nat.mod_eq_of_lt hc]
    have h2 : (j + 1) % rot.portc = 0 := by
      have := Nat.ModEq.add_left_cancel' rot.curr_port h1
      unfold Nat.ModEq at this
      simpa using this
    have h3 := Nat.le_of_dvd (by omega) (Nat.dvd_of_mod_eq_zero h2)
    omega
  · intro h
    rw [h, Nat.add_mod_right, Nat.mod_eq_of_lt hc]

theorem rotator_cyc_inj (rot : rotator) (a b : Nat) (ha : a < rot.portc) (hb : b < rot.portc)
    (h : rot.cyc a = rot.cyc b) : a = b := by
  unfold rotator.cyc at h
  have h1 : rot.curr_port + a ≡ rot.curr_port + b [MOD rot.portc] := h
  exact Nat.ModEq.eq_of_lt_of_lt (Nat.ModEq.add_left_cancel' rot.curr_port h1) ha hb

theorem rot_loop_none (ports : List port_info) (rot : rotator) (hn : 0 < rot.portc)
    (hc : rot.curr_port < rot.portc) :
    ∀ (fuel j : Nat) (seen : List Nat), j + fuel = rot.portc → 0 < fuel →
      (∀ m, j ≤ m → m < rot.portc → rot.free_at ports m = none) →
      rot_loop ports rot fuel (rot.cyc j) seen
        = some (none, seen ++ (List.range' j fuel).map rot.cyc) := by
  intro fuel
  induction fuel with
  | zero => intro j seen _ h; omega
  | succ f ih =>
    intro j seen hsum _ hfree
    have hj : j < rot.portc := by omega
    have h0 : is_port_free ports (rot.portv.getD (rot.cyc j) "") = none :=
      hfree j (le_refl _) hj
    unfold rot_loop
    simp only [h0, rotator_cyc_succ rot hn j]
    by_cases hback : rot.cyc (j + 1) = rot.curr_port
    · have hf : f = 0 := by
        have := (rotator_cyc_back rot hc j hj).1 hback
        omega
      subst hf
      simp [hback, List.range']
    · have hf : 0 < f := by
        by_contra h0f
        have : j + 1 = rot.portc := by omega
        exact hback ((rotator_cyc_back rot hc j hj).2 this)
      rw [if_pos hback, ih (j + 1) (seen ++ [rot.cyc j]) (by omega) hf
        (fun m hm hm2 => hfree m (by omega) hm2)]
      simp [List.range']

theorem rot_loop_some (ports : List port_info) (rot : rotator) (hn : 0 < rot.portc)
    (hc : rot.curr_port < rot.portc) (m : Nat) (q : Nat × port_info) (hm : m < rot.portc)
    (hq : rot.free_at ports m = some q) :
    ∀ (fuel j : Nat) (seen : List Nat), j + fuel = rot.portc → j ≤ m →
      (∀ m', j ≤ m' → m' < m → rot.free_at ports m' = none) →
      rot_loop ports rot fuel (rot.cyc j) seen
        = some (some (q, rot.cyc (m + 1)), seen ++ (List.range' j (m - j + 1)).map rot.cyc) := by
  intro fuel
  induction fuel with
  | zero => intro j seen h1 h2; omega
  | succ f ih =>
    intro j seen hsum hjm hfree
    unfold rot_loop
    by_cases hjm2 : j = m
    · subst hjm2
      have h0 : is_port_free ports (rot.portv.getD (rot.cyc j) "") = some q := hq
      simp only [h0, rotator_cyc_succ rot hn j]
      simp [List.range']
    · have hj : j < rot.portc := by omega
      have h0 : is_port_free ports (rot.portv.getD (rot.cyc j) "") = none :=
        hfree j (le_refl _) (by omega)
      have hback : rot.cyc (j + 1) ≠ rot.curr_port := by
        intro h
        have := (rotator_cyc_back rot hc j hj).1 h
        omega
      simp only [h0, rotator_cyc_succ rot hn j]
      rw [if_pos hback, ih (j + 1) (seen ++ [rot.cyc j]) (by omega) (by omega)
        (fun m' h1 h2 => hfree m' (by omega) h2)]
      have : m - j + 1 = (m - (j + 1) + 1) + 1 := by omega
      rw [this]
      simp [List.range']

theorem rotator_examined_nodup (rot : rotator) (k : Nat) (hk : k ≤ rot.portc) :
    ((List.range k).map rot.cyc).Nodup := by
  apply List.Nodup.map_on _ (List.nodup_range k)
  intro a ha b hb h
  rw [List.mem_range] at ha hb
  exact rotator_cyc_inj rot a b (by omega) (by omega) h

/-- C7: for a rotator with `portc > 0` and `0 <= curr_port < portc`,
`handle_rot_port_read` terminates within `portc` iterations and examines the
names `portv[curr_port]`, `portv[curr_port + 1]`, ... cyclically, each index
at most once. If the `m`-th name in that order is the first for which
`is_port_free` finds a port, the accept is dispatched to that port
(`handle_port_accept`), `curr_port` becomes the index after it modulo `portc`,
and exactly the first `m + 1` indices were examined. If no name yields a free
port, the rotator and every port are unchanged and the connection is rejected
with "No free port found\r\n". -/
theorem rotator_selection (rot : rotator) (ports : List port_info) (env : accept_env)
    (reject_ok : Bool) (hn : 0 < rot.portc) (hc : rot.curr_port < rot.portc) :
    ∃ r, handle_rot_port_read rot.portc rot ports env reject_ok = some r ∧
      r.examined.Nodup ∧
      (∃ k, k ≤ rot.portc ∧ r.examined = (List.range k).map rot.cyc) ∧
      (∀ (m : Nat) (q : Nat × port_info), m < rot.portc → rot.free_at ports m = some q →
        (∀ m', m' < m → rot.free_at ports m' = none) →
        r.dispatched = some q.1 ∧
        r.rot = { rot with curr_port := (rot.cyc m + 1) % rot.portc } ∧
        r.ports = ports.set q.1 (handle_port_accept q.2 env).1 ∧
        r.events = (handle_port_accept q.2 env).2 ∧
        r.examined = (List.range (m + 1)).map rot.cyc) ∧
      ((∀ m, m < rot.portc → rot.free_at ports m = none) →
        r.rot = rot ∧ r.ports = ports ∧ r.dispatched = none ∧
        r.events = (if reject_ok then [Event.rejected "No free port found\r\n"] else []) ∧
        r.examined = (List.range rot.portc).map rot.cyc) := by
  have hsucc : ∀ m, rot.cyc (m + 1) = (rot.cyc m + 1) % rot.portc := by
    intro m
    unfold rotator.cyc
    rw [Nat.mod_add_mod, Nat.add_assoc]
  by_cases hex : ∃ m, m < rot.portc ∧ rot.free_at ports m ≠ none
  · -- some name yields a free port: take the first
    have hm := Nat.find_spec hex
    have hmin : ∀ m', m' < Nat.find hex → rot.free_at ports m' = none := by
      intro m' hlt
      have := Nat.find_min hex hlt
      by_contra hne
      exact this ⟨by omega, hne⟩
    obtain ⟨q, hq⟩ := Option.ne_none_iff_exists'.mp hm.2
    have hloop := rot_loop_some ports rot hn hc (Nat.find hex) q hm.1 hq rot.portc 0 []
      (by omega) (Nat.zero_le _) (fun m' _ h => hmin m' h)
    rw [rotator_cyc_zero rot hc] at hloop
    simp only [Nat.sub_zero, List.nil_append, ← List.range_eq_range'] at hloop
    refine ⟨_, by simp only [handle_rot_port_read, hloop]; rfl, ?_, ?_, ?_, ?_⟩
    · exact rotator_examined_nodup rot _ (by omega)
    · exact ⟨Nat.find hex + 1, by omega, rfl⟩
    · intro m q2 hm2 hq2 hfirst
      have heq : m = Nat.find hex := by
        rcases lt_trichotomy m (Nat.find hex) with h | h | h
        · have := hmin m h; rw [hq2] at this; cases this
        · exact h
        · have := hfirst _ h; rw [hq] at this; cases this
      subst heq
      rw [hq] at hq2
      cases hq2
      exact ⟨rfl, by rw [hsucc], rfl, rfl, rfl⟩
    · intro hall
      exact absurd (hall _ hm.1) hm.2
  · -- no name yields a free port
    have hall : ∀ m, m < rot.portc → rot.free_at ports m = none := by
      intro m hm
      by_contra hne
      exact hex ⟨m, hm, hne⟩
    have hloop := rot_loop_none ports rot hn hc rot.portc 0 [] (by omega) hn
      (fun m _ h => hall m h)
    rw [rotator_cyc_zero rot hc] at hloop
    simp only [List.nil_append, ← List.range_eq_range'] at hloop
    refine ⟨_, by simp only [handle_rot_port_read, hloop]; rfl, ?_, ?_, ?_, ?_⟩
    · exact rotator_examined_nodup rot _ (le_refl _)
    · exact ⟨rot.portc, le_refl _, rfl⟩
    · intro m q hm hq _
      rw [hall m hm] at hq
      cases hq
    · intro _
      exact ⟨rfl, rfl, rfl, rfl, rfl⟩

theorem rotator_selection_witness :
    ∃ r, handle_rot_port_read sample_rotator.portc sample_rotator shared_device_ports
        accept_ok true = some r ∧ r.examined.Nodup :=
  let ⟨r, h1, h2, _⟩ := rotator_selection sample_rotator shared_device_ports accept_ok true
    (by decide) (by decide)
  ⟨r, h1, h2⟩

/-! ## Disabled ports (C6) -/

theorem listeners_ok_of_static {a b : port_info} (h : same_static a b) (hb : listeners_ok b) :
    listeners_ok a := by
  obtain ⟨-, -, h3, h4, h5, -, -⟩ := h
  unfold listeners_ok at *
  rw [h3, h4, h5]
  exact hb

theorem listeners_ok_set (ports : List port_info) (idx : Nat) (p1 : port_info)
    (h : ∀ p ∈ ports, listeners_ok p) (h1 : listeners_ok p1) :
    ∀ p ∈ ports.set idx p1, listeners_ok p := by
  intro p hp
  rcases List.mem_or_eq_of_mem_set hp with hm | rfl
  · exact h p hm
  · exact h1

theorem startup_port_listeners (port : port_info) (inuse : Bool) (env : startup_env)
    (h0 : port.nr_acceptfds = 0) :
    (startup_port port inuse env).1.acceptfds = none →
      (startup_port port inuse env).1.nr_acceptfds = 0 := by
  unfold startup_port
  by_cases hs : port.is_stdio = true
  · rw [if_pos hs]
    by_cases hi : inuse = true
    · rw [if_pos hi]; exact fun _ => h0
    · rw [if_neg hi]
      have hst := setup_tcp_port_static { port with acceptfds := none, tcpfd := 0 } env.setup
      obtain ⟨-, -, -, -, h5, -, -⟩ := hst
      dsimp only
      split_ifs <;> exact fun _ => by rw [h5]; exact h0
  · rw [if_neg hs]
    cases env.open_socket <;> simp [h0]

theorem change_port_state_listeners (port : port_info) (state : Nat) (inuse : Bool)
    (env : startup_env) (h : listeners_ok port) :
    listeners_ok (change_port_state port state inuse env).1 := by
  unfold change_port_state
  by_cases h1 : port.enabled = state
  · rw [if_pos h1]; exact h
  · rw [if_neg h1]
    by_cases h2 : state = PORT_DISABLED
    · rw [if_pos h2]
      dsimp only
      cases hfd : port.acceptfds with
      | none => dsimp only; exact ⟨fun _ => rfl, fun _ => h.2 hfd⟩
      | some l => dsimp only; exact ⟨fun _ => rfl, fun _ => rfl⟩
    · rw [if_neg h2]
      by_cases h3 : port.enabled = PORT_DISABLED
      · rw [if_pos h3]
        refine ⟨fun hd => absurd hd h2, ?_⟩
        exact startup_port_listeners { port with read_disabled := decide (state = PORT_RAWLP) }
          inuse env (h.2 (h.1 h3))
      · rw [if_neg h3]; exact h

theorem handle_accept_port_read_cases (ports : List port_info) (idx : Nat) (env : accept_env)
    (reject_ok : Bool) :
    (handle_accept_port_read ports idx env reject_ok).1 = ports ∨
    ∃ port p1, ports[idx]? = some port ∧ same_static p1 port ∧
      (handle_accept_port_read ports idx env reject_ok).1 = ports.set idx p1 := by
  unfold handle_accept_port_read
  cases hp : ports[idx]? with
  | none => exact Or.inl rfl
  | some port =>
    dsimp only
    by_cases h1 : port.enabled = PORT_DISABLED
    · rw [if_pos h1]; exact Or.inl rfl
    · rw [if_neg h1]
      by_cases h2 : port.tcp_to_dev_state ≠ PORT_UNCONNECTED ∧ port.kickolduser_mode = true
      · rw [if_pos h2]
        exact Or.inr ⟨port, _, rfl, (shutdown_port_static _ _).1, rfl⟩
      · rw [if_neg h2]
        by_cases h3 : port.tcp_to_dev_state ≠ PORT_UNCONNECTED
        · rw [if_pos h3]; exact Or.inl rfl
        · rw [if_neg h3]
          by_cases h4 : is_device_already_inuse ports idx ≠ 0
          · rw [if_pos h4]; exact Or.inl rfl
          · rw [if_neg h4]
            exact Or.inr ⟨port, _, rfl, handle_port_accept_static _ _, rfl⟩

theorem reachable_listeners_ok (ports : List port_info) (h : reachable ports) :
    ∀ p ∈ ports, listeners_ok p := by
  induction h with
  | init ports hf =>
    intro p hp
    exact ⟨fun hd => ((hf p hp).1 hd).1, (hf p hp).2⟩
  | accept ports idx env reject_ok _ ih =>
    rcases handle_accept_port_read_cases ports idx env reject_ok with h1 | ⟨port, p1, hp, hs, h1⟩
    · rw [h1]; exact ih
    · rw [h1]
      exact listeners_ok_set ports idx _ ih
        (listeners_ok_of_static hs (ih port (List.getElem?_mem hp)))
  | rotate ports fuel rot env reject_ok r _ hr ih =>
    unfold handle_rot_port_read at hr
    split at hr
    · cases hr
    · rename_i p port i seen hloop
      simp only [Option.some.injEq] at hr
      subst hr
      obtain ⟨name, hfree⟩ := rot_loop_found ports rot fuel _ _ p port i seen hloop
      obtain ⟨h1, -⟩ := is_port_free_spec ports name p port hfree
      exact listeners_ok_set ports p _ ih
        (listeners_ok_of_static (handle_port_accept_static _ _) (ih port (List.getElem?_mem h1)))
    · simp only [Option.some.injEq] at hr
      subst hr
      exact ih
  | change ports idx port state env _ hp ih =>
    exact listeners_ok_set ports idx _ ih
      (change_port_state_listeners port state _ env (ih port (List.getElem?_mem hp)))
  | enable ports portspec enable env _ ih =>
    unfold setportenable
    split
    · exact ih
    · rename_i idx _
      cases hp : ports[idx]? with
      | none => exact ih
      | some port =>
        dsimp only
        split
        · exact ih
        · exact listeners_ok_set ports idx _ ih
            (change_port_state_listeners port _ _ env (ih port (List.getElem?_mem hp)))
  | shutdown ports idx port reason _ hp ih =>
    exact listeners_ok_set ports idx _ ih
      (listeners_ok_of_static (shutdown_port_static _ _).1 (ih port (List.getElem?_mem hp)))
  | fd_cleared ports idx port _ hp ih =>
    exact listeners_ok_set ports idx _ ih
      (listeners_ok_of_static (by simp [port_tcp_fd_cleared, same_static])
        (ih port (List.getElem?_mem hp)))
  | shutdown2 ports idx port closestr _ hp ih =>
    refine listeners_ok_set ports idx _ ih
      (listeners_ok_of_static ?_ (ih port (List.getElem?_mem hp)))
    unfold shutdown_port2
    dsimp only
    split_ifs <;> simp [same_static]
  | finish ports idx env r _ hr ih =>
    unfold finish_shutdown_port at hr
    cases hp : ports[idx]? with
    | none =>
      rw [hp] at hr
      simp only [Option.some.injEq] at hr
      subst hr
      exact ih
    | some port =>
      rw [hp] at hr
      have hport := ih port (List.getElem?_mem hp)
      dsimp only at hr
      split_ifs at hr
      · simp only [Option.some.injEq] at hr
        subst hr
        exact fun p hm => ih p (List.mem_of_mem_eraseIdx hm)
      · simp only [Option.some.injEq] at hr
        subst hr
        exact listeners_ok_set ports idx _ ih
          (listeners_ok_of_static (by simp [same_static, buffer_reset]) hport)

/-- C6 as stated fails: after a client has connected to an enabled port and
`setportenable ... off` has been given, the port is disabled, has no
listening sockets any more, and still carries the connected session. -/
theorem disabled_port_connected_counterexample :
    reachable disabled_while_connected ∧
    disabled_while_connected.map (fun p => (p.enabled, p.acceptfds, p.tcp_to_dev_state))
      = [(PORT_DISABLED, none, PORT_WAITING_INPUT)] ∧
    PORT_WAITING_INPUT ≠ PORT_UNCONNECTED := by
  refine ⟨?_, by decide, by decide⟩
  refine reachable.enable _ "2000" "off" startup_ok
    (reachable.accept [listening_port] 0 accept_ok true (reachable.init _ ?_))
  intro p hp
  simp only [List.mem_singleton] at hp
  subst hp
  exact ⟨fun h => absurd h (by decide), fun h => absurd h (by decide)⟩

/-! ## A session lasts until `finish_shutdown_port` (C6) -/

theorem setup_tcp_port_handlers_tcp_state (port : port_info) (env : setup_env) :
    (setup_tcp_port_handlers port env).tcp_to_dev_state = PORT_WAITING_INPUT := by
  unfold setup_tcp_port_handlers
  dsimp only
  split_ifs <;> rfl

/-- The function `setup_tcp_port` leaves `tcp_to_dev_state` alone when it
fails and sets it to `PORT_WAITING_INPUT` when it succeeds. -/
theorem setup_tcp_port_tcp_state (port : port_info) (env : setup_env) :
    (setup_tcp_port port env).1.tcp_to_dev_state = port.tcp_to_dev_state ∨
    (setup_tcp_port port env).1.tcp_to_dev_state = PORT_WAITING_INPUT := by
  unfold setup_tcp_port setup_failed
  split_ifs
  · exact Or.inl rfl
  · exact Or.inl rfl
  · exact Or.inl rfl
  · split
    · exact Or.inl rfl
    · rename_i bps bpc _
      refine Or.inr ?_
      have h3 := (setup_trace_static (setup_tcp_port_handlers
        (recalc_port_chardelay { port with bps := bps, bpc := bpc }) env) env).2
      have h2 := setup_tcp_port_handlers_tcp_state
        (recalc_port_chardelay { port with bps := bps, bpc := bpc }) env
      simpa [reset_timer, h3] using h2

theorem shutdown_port_tcp_state (port : port_info) (reason : String) :
    (shutdown_port port reason).1.tcp_to_dev_state = port.tcp_to_dev_state := by
  unfold shutdown_port
  split_ifs <;> rfl

theorem shutdown_port2_tcp_state (port : port_info) (closestr : Option sbuf) :
    (shutdown_port2 port closestr).1.tcp_to_dev_state = port.tcp_to_dev_state := by
  unfold shutdown_port2
  dsimp only
  split_ifs <;> rfl

/-- Disabling a port leaves its session alone. -/
theorem change_port_state_disabled_session (port : port_info) (inuse : Bool)
    (env : startup_env) :
    (change_port_state port PORT_DISABLED inuse env).1.tcp_to_dev_state
      = port.tcp_to_dev_state ∧
    (change_port_state port PORT_DISABLED inuse env).1.dev_to_tcp_state
      = port.dev_to_tcp_state ∧
    (change_port_state port PORT_DISABLED inuse env).1.tcpfd = port.tcpfd := by
  unfold change_port_state
  by_cases h1 : port.enabled = PORT_DISABLED
  · rw [if_pos h1]; exact ⟨rfl, rfl, rfl⟩
  · rw [if_neg h1, if_pos rfl]
    dsimp only
    cases port.acceptfds <;> exact ⟨rfl, rfl, rfl⟩

/-- No change of the enable state disconnects a connected port. -/
theorem change_port_state_connected (port : port_info) (state : Nat) (inuse : Bool)
    (env : startup_env) (h : port.tcp_to_dev_state ≠ PORT_UNCONNECTED) :
    (change_port_state port state inuse env).1.tcp_to_dev_state ≠ PORT_UNCONNECTED := by
  unfold change_port_state
  by_cases h1 : port.enabled = state
  · rw [if_pos h1]; exact h
  · rw [if_neg h1]
    by_cases h2 : state = PORT_DISABLED
    · rw [if_pos h2]
      dsimp only
      cases port.acceptfds <;> exact h
    · rw [if_neg h2]
      by_cases h3 : port.enabled = PORT_DISABLED
      · rw [if_pos h3]
        dsimp only
        unfold startup_port
        dsimp only
        by_cases h4 : port.is_stdio = true
        · rw [if_pos h4]
          cases inuse with
          | true => exact h
          | false =>
            simp only [Bool.false_eq_true, if_false]
            have hs := setup_tcp_port_tcp_state
              { port with read_disabled := decide (state = PORT_RAWLP), acceptfds := none,
                          tcpfd := 0 } env.setup
            split_ifs
            all_goals
              dsimp only
              rcases hs with hs | hs
              · rw [hs]; exact h
              · rw [hs]; decide
        · rw [if_neg h4]
          cases env.open_socket <;> exact h
      · rw [if_neg h3]; exact h

/-- Replacing the port at one index by a port that is connected if it is the
port looked at keeps that port connected. -/
theorem connected_at_set (ports : List port_info) (idx j : Nat) (p1 : port_info)
    (h : connected_at idx ports) (h1 : j = idx → p1.tcp_to_dev_state ≠ PORT_UNCONNECTED) :
    connected_at idx (ports.set j p1) := by
  obtain ⟨q, hq, hc⟩ := h
  unfold connected_at
  rw [List.getElem?_set]
  by_cases hj : j = idx
  · rw [if_pos hj]
    have hlt : j < ports.length := by
      rw [hj]
      by_contra hc
      rw [List.getElem?_eq_none (by omega)] at hq
      exact absurd hq (by simp)
    rw [if_pos hlt]
    exact ⟨p1, rfl, h1 hj⟩
  · rw [if_neg hj]
    exact ⟨q, hq, hc⟩

/-- A connection request on any listener leaves a connected port connected. -/
theorem handle_accept_port_read_connected (ports : List port_info) (idx : Nat)
    (h : connected_at idx ports) (j : Nat) (env : accept_env) (reject_ok : Bool) :
    connected_at idx (handle_accept_port_read ports j env reject_ok).1 := by
  unfold handle_accept_port_read
  cases hp : ports[j]? with
  | none => exact h
  | some port =>
    dsimp only
    by_cases h1 : port.enabled = PORT_DISABLED
    · rw [if_pos h1]; exact h
    · rw [if_neg h1]
      by_cases h2 : port.tcp_to_dev_state ≠ PORT_UNCONNECTED ∧ port.kickolduser_mode = true
      · rw [if_pos h2]
        exact connected_at_set ports idx j _ h
          (fun _ => by rw [shutdown_port_tcp_state]; exact h2.1)
      · rw [if_neg h2]
        by_cases h3 : port.tcp_to_dev_state ≠ PORT_UNCONNECTED
        · rw [if_pos h3]; exact h
        · rw [if_neg h3]
          by_cases h4 : is_device_already_inuse ports j ≠ 0
          · rw [if_pos h4]; exact h
          · rw [if_neg h4]
            refine connected_at_set ports idx j _ h (fun hj => ?_)
            obtain ⟨q, hq, hc⟩ := h
            rw [hj, hq] at hp
            simp only [Option.some.injEq] at hp
            rw [hp] at hc
            exact absurd hc h3

/-- A connection request on a rotator leaves a connected port connected. -/
theorem handle_rot_port_read_connected (ports : List port_info) (idx : Nat)
    (h : connected_at idx ports) (fuel : Nat) (rot : rotator) (env : accept_env)
    (reject_ok : Bool) (r : rot_result)
    (hr : handle_rot_port_read fuel rot ports env reject_ok = some r) :
    connected_at idx r.ports := by
  unfold handle_rot_port_read at hr
  split at hr
  · cases hr
  · rename_i p port i seen hloop
    simp only [Option.some.injEq] at hr
    subst hr
    obtain ⟨name, hfree⟩ := rot_loop_found ports rot fuel _ _ p port i seen hloop
    obtain ⟨h1, -, h3, -⟩ := is_port_free_spec ports name p port hfree
    refine connected_at_set ports idx p _ h (fun hj => ?_)
    obtain ⟨q, hq, hc⟩ := h
    rw [hj, hq] at h1
    simp only [Option.some.injEq] at h1
    rw [h1] at hc
    exact absurd h3 hc
  · simp only [Option.some.injEq] at hr
    subst hr
    exact h

/-- The control command `setportenable` leaves a connected port connected. -/
theorem setportenable_connected (ports : List port_info) (idx : Nat)
    (h : connected_at idx ports) (portspec enable : String) (env : startup_env) :
    connected_at idx (setportenable ports portspec enable env).1 := by
  unfold setportenable
  split
  · exact h
  · rename_i j _
    cases hp : ports[j]? with
    | none => exact h
    | some port =>
      dsimp only
      split
      · exact h
      · refine connected_at_set ports idx j _ h (fun hj => ?_)
        obtain ⟨q, hq, hc⟩ := h
        rw [hj, hq] at hp
        simp only [Option.some.injEq] at hp
        rw [← hp]
        exact change_port_state_connected q _ _ env hc

/-- C6, amended: in every port list reachable from a freshly configured one
through accepts on a port's own listener, rotator dispatch,
`change_port_state` / `setportenable` and the steps of a shutdown, a port with
`enabled == PORT_DISABLED` has no listening sockets (`acceptfds == NULL`,
`nr_acceptfds == 0`), and a connection request on its own listener is dropped
and changes nothing, so it does not connect the port. Disabling only stops
accepts: `change_port_state (PORT_DISABLED)` leaves `tcp_to_dev_state`,
`dev_to_tcp_state` and the connected socket of any port as they are; and a
port of the list that is connected stays connected through every operation
short of `finish_shutdown_port`: an accept on any listener, a rotator
dispatch, `change_port_state` and `setportenable` with any state,
`shutdown_port`, `port_tcp_fd_cleared` and `shutdown_port2`. -/
theorem disabled_port_no_listeners (ports : List port_info) (h : reachable ports) :
    (∀ p ∈ ports, p.enabled = PORT_DISABLED → p.acceptfds = none ∧ p.nr_acceptfds = 0) ∧
    (∀ (idx : Nat) (p : port_info) (env : accept_env) (reject_ok : Bool),
      ports[idx]? = some p → p.enabled = PORT_DISABLED →
      handle_accept_port_read ports idx env reject_ok = (ports, [])) ∧
    (∀ (p : port_info) (inuse : Bool) (env : startup_env),
      (change_port_state p PORT_DISABLED inuse env).1.tcp_to_dev_state = p.tcp_to_dev_state ∧
      (change_port_state p PORT_DISABLED inuse env).1.dev_to_tcp_state = p.dev_to_tcp_state ∧
      (change_port_state p PORT_DISABLED inuse env).1.tcpfd = p.tcpfd) ∧
    (∀ idx : Nat, connected_at idx ports →
      (∀ (j : Nat) (env : accept_env) (reject_ok : Bool),
        connected_at idx (handle_accept_port_read ports j env reject_ok).1) ∧
      (∀ (fuel : Nat) (rot : rotator) (env : accept_env) (reject_ok : Bool) (r : rot_result),
        handle_rot_port_read fuel rot ports env reject_ok = some r →
        connected_at idx r.ports) ∧
      (∀ (j : Nat) (port : port_info) (state : Nat) (env : startup_env),
        ports[j]? = some port →
        connected_at idx (ports.set j
          (change_port_state port state (decide (is_device_already_inuse ports j ≠ 0))
            env).1)) ∧
      (∀ (portspec enable : String) (env : startup_env),
        connected_at idx (setportenable ports portspec enable env).1) ∧
      (∀ (j : Nat) (port : port_info) (reason : String), ports[j]? = some port →
        connected_at idx (ports.set j (shutdown_port port reason).1)) ∧
      (∀ (j : Nat) (port : port_info), ports[j]? = some port →
        connected_at idx (ports.set j (port_tcp_fd_cleared port).1)) ∧
      (∀ (j : Nat) (port : port_info) (closestr : Option sbuf), ports[j]? = some port →
        connected_at idx (ports.set j (shutdown_port2 port closestr).1))) := by
  have hsame : ∀ (idx j : Nat) (port : port_info), connected_at idx ports →
      ports[j]? = some port → j = idx → port.tcp_to_dev_state ≠ PORT_UNCONNECTED := by
    intro idx j port hc hp hj
    obtain ⟨q, hq, hcq⟩ := hc
    rw [hj, hq] at hp
    simp only [Option.some.injEq] at hp
    rw [← hp]
    exact hcq
  refine ⟨fun p hp hd => ?_, fun idx p env reject_ok hp hd => ?_,
    fun p inuse env => change_port_state_disabled_session p inuse env,
    fun idx hc => ⟨fun j env reject_ok => handle_accept_port_read_connected ports idx hc j env
        reject_ok,
      fun fuel rot env reject_ok r hr =>
        handle_rot_port_read_connected ports idx hc fuel rot env reject_ok r hr,
      fun j port state env hp => connected_at_set ports idx j _ hc (fun hj =>
        change_port_state_connected port state _ env (hsame idx j port hc hp hj)),
      fun portspec enable env => setportenable_connected ports idx hc portspec enable env,
      fun j port reason hp => connected_at_set ports idx j _ hc (fun hj => by
        rw [shutdown_port_tcp_state]; exact hsame idx j port hc hp hj),
      fun j port hp => connected_at_set ports idx j _ hc (fun hj =>
        hsame idx j port hc hp hj),
      fun j port closestr hp => connected_at_set ports idx j _ hc (fun hj => by
        rw [shutdown_port2_tcp_state]; exact hsame idx j port hc hp hj)⟩⟩
  · have hl := reachable_listeners_ok ports h p hp
    exact ⟨hl.1 hd, hl.2 (hl.1 hd)⟩
  · unfold handle_accept_port_read
    rw [hp]
    dsimp only
    rw [if_pos hd]

theorem disabled_port_no_listeners_witness :
    (∀ p ∈ disabled_while_connected,
      p.enabled = PORT_DISABLED → p.acceptfds = none ∧ p.nr_acceptfds = 0) ∧
    (∀ (idx : Nat) (p : port_info) (env : accept_env) (reject_ok : Bool),
      disabled_while_connected[idx]? = some p → p.enabled = PORT_DISABLED →
      handle_accept_port_read disabled_while_connected idx env reject_ok
        = (disabled_while_connected, [])) ∧
    connected_at 0 (setportenable disabled_while_connected "2000" "raw" startup_ok).1 ∧
    connected_at 0 (handle_accept_port_read disabled_while_connected 0 accept_ok true).1 :=
  have hall := disabled_port_no_listeners disabled_while_connected
    (reachable.enable _ "2000" "off" startup_ok
      (reachable.accept [listening_port] 0 accept_ok true
        (reachable.init _ (by
          intro p hp
          simp only [List.mem_singleton] at hp
          subst hp
          exact ⟨fun h => absurd h (by decide), fun h => absurd h (by decide)⟩))))
  have hconn : connected_at 0 disabled_while_connected :=
    ⟨disabled_while_connected.headD listening_port, by decide, by decide⟩
  ⟨hall.1, hall.2.1, (hall.2.2.2 0 hconn).2.2.2.1 "2000" "raw" startup_ok,
    (hall.2.2.2 0 hconn).1 0 accept_ok true⟩

/-! ## Shutdown idempotence (C11) -/

theorem list_set_same (ports : List port_info) (idx : Nat) (port : port_info)
    (h : ports[idx]? = some port) : ports.set idx port = ports := by
  apply List.ext_getElem?
  intro j
  rw [List.getElem?_set]
  split_ifs with h1 h2
  · subst h1; exact h.symm
  · subst h1
    rw [List.getElem?_eq_none (by omega)]
  · rfl

/-- C11: `shutdown_port` on a port that is already closing changes nothing
and schedules nothing. On any other port it sets `dev_to_tcp_state` to
`PORT_CLOSING`, closes the three trace fds, clears `tr`, `tw`, `tb`, changes no
other field, and starts the teardown exactly once (through the socket's
handlers when there is a socket, through the runner otherwise). A second
`shutdown_port` with any reason changes nothing and schedules nothing, and so
does a connection request on the port's listener in kick-old-user mode while
the first session is closing. -/
theorem shutdown_port_idempotent (port : port_info) (r1 r2 : String) :
    (port.dev_to_tcp_state = PORT_CLOSING → shutdown_port port r1 = (port, [])) ∧
    (port.dev_to_tcp_state ≠ PORT_CLOSING →
      (shutdown_port port r1).1 =
        { port with
          trace_write := { port.trace_write with fd := -1 },
          trace_read := { port.trace_read with fd := -1 },
          trace_both := { port.trace_both with fd := -1 },
          tw := none, tr := none, tb := none, dev_to_tcp_state := PORT_CLOSING } ∧
      (shutdown_port port r1).2 =
        [Event.footer r1,
         if port.tcpfd ≠ -1 then Event.clear_fd_handlers port.tcpfd
         else Event.run_shutdown_port2]) ∧
    shutdown_port (shutdown_port port r1).1 r2 = ((shutdown_port port r1).1, []) ∧
    (∀ (ports : List port_info) (idx : Nat) (env : accept_env) (reject_ok : Bool),
      ports[idx]? = some port → port.enabled ≠ PORT_DISABLED →
      port.tcp_to_dev_state ≠ PORT_UNCONNECTED → port.kickolduser_mode = true →
      port.dev_to_tcp_state = PORT_CLOSING →
      handle_accept_port_read ports idx env reject_ok = (ports, [])) := by
  refine ⟨fun h => by simp [shutdown_port, h], fun h => by simp [shutdown_port, h], ?_, ?_⟩
  · by_cases h : port.dev_to_tcp_state = PORT_CLOSING
    · simp [shutdown_port, h]
    · simp [shutdown_port, h]
  · intro ports idx env reject_ok hp hen hconn hkick hclosing
    unfold handle_accept_port_read
    rw [hp]
    dsimp only
    rw [if_neg hen, if_pos ⟨hconn, hkick⟩]
    simp only [shutdown_port, hclosing, if_true]
    rw [list_set_same ports idx port hp]

theorem shutdown_port_idempotent_witness :
    shutdown_port closing_port "kicked off" = (closing_port, []) ∧
    (shutdown_port (connected_port 4) "timeout").2 =
      [Event.footer "timeout",
       if (connected_port 4).tcpfd ≠ -1 then Event.clear_fd_handlers (connected_port 4).tcpfd
       else Event.run_shutdown_port2] ∧
    handle_accept_port_read [closing_port] 0 accept_ok true = ([closing_port], []) :=
  ⟨(shutdown_port_idempotent closing_port "kicked off" "x").1 rfl,
   ((shutdown_port_idempotent (connected_port 4) "timeout" "x").2.1 (by decide)).2,
   (shutdown_port_idempotent closing_port "a" "b").2.2.2 [closing_port] 0 accept_ok true rfl
     (by decide) (by decide) rfl rfl⟩

/-! ## Enable-mode change (C14) -/

/-- C14, the code at the failing input: for the idle port "2000" in raw mode,
`change_port_state (port, PORT_TELNET)` returns 0 and leaves `enabled` at
`PORT_RAW`; so does `setportenable 2000 telnet`; and a telnet-mode port
switched in for it by `switchout_port` ends in raw mode. -/
theorem enable_mode_not_changed_at_failing_input :
    (change_port_state listening_port PORT_TELNET false startup_ok).2.2 = 0 ∧
    (change_port_state listening_port PORT_TELNET false startup_ok).1.enabled = PORT_RAW ∧
    (setportenable [listening_port] "2000" "telnet" startup_ok).1.map (fun p => p.enabled)
      = [PORT_RAW] ∧
    (switchout_port [listening_port] 0 { listening_port with enabled := PORT_TELNET }
        listening_port startup_ok).1.map (fun p => p.enabled) = [PORT_RAW] ∧
    PORT_RAW ≠ PORT_TELNET := by
  decide

/-! ## Monitor start and stop (C17, C18) -/

/-- C17, the code at the failing input: with the port "2000" monitored by
session 1, `monitor tcp 2000` from session 2 does not start a monitor (the
slots are unchanged) but `data_monitor_start` returns the port, so session 2
records it as its `monitor_port_id`; its later `monitor stop` clears the
`dev_monitor` of session 1. -/
theorem monitor_start_returns_port_at_failing_input :
    data_monitor_start [monitored_port] 2 "tcp" "2000"
      = ([monitored_port], some 0, [Event.cntlr_out "Port is already being monitored\r\n"]) ∧
    (monitor_command 1 new_controller 2 [monitored_port] (some "tcp") (some "2000")).map
        (fun r => (r.1.monitor_port_id, r.2.1.map (fun p => (p.tcp_monitor, p.dev_monitor))))
      = some (some 0, [(none, some 1)]) ∧
    (monitor_command 1 { new_controller with monitor_port_id := some 0 } 2 [monitored_port]
        (some "stop") none).map
        (fun r => (r.1.monitor_port_id, r.2.1.map (fun p => (p.tcp_monitor, p.dev_monitor))))
      = some (none, [(none, none)]) := by
  decide

/-- C18, the code at the failing input: with two ports in the list,
`data_monitor_stop` for the second one never comes back, whatever the number
of iterations allowed, because the walk stays on the head of the list; the
same holds for an id that is not in the list at all. -/
theorem monitor_stop_hangs_at_failing_input :
    (∀ fuel : Nat, data_monitor_stop fuel shared_device_ports 1 = none) ∧
    (∀ fuel : Nat, data_monitor_stop fuel shared_device_ports 7 = none) ∧
    (data_monitor_stop 1 shared_device_ports 0).map
        (fun l => l.map (fun p => (p.tcp_monitor, p.dev_monitor)))
      = some [(none, none), (none, none)] := by
  refine ⟨fun fuel => ?_, fun fuel => ?_, by decide⟩
  · unfold data_monitor_stop
    induction fuel with
    | zero => rfl
    | succ n ih =>
      unfold data_monitor_stop_loop
      simpa [shared_device_ports] using ih
  · unfold data_monitor_stop
    induction fuel with
    | zero => rfl
    | succ n ih =>
      unfold data_monitor_stop_loop
      simpa [shared_device_ports] using ih

/-! ## RFC 2217 replies (C19, C20) -/

theorem or_bytes_eq (b0 b1 b2 b3 : Nat) (h1 : b1 < 256) (h2 : b2 < 256)
    (h3 : b3 < 256) :
    (((b0 <<< 24) ||| (b1 <<< 16)) ||| (b2 <<< 8)) ||| b3
      = b0 * 16777216 + b1 * 65536 + b2 * 256 + b3 := by
  simp only [Nat.shiftLeft_eq]
  have e1 : b0 * 2 ^ 24 ||| b1 * 2 ^ 16 = b0 * 16777216 + b1 * 65536 := by
    have := Nat.mul_add_lt_is_or (i := 24) (b := b1 * 2 ^ 16) (by omega) b0
    rw [Nat.mul_comm b0, ← this]; omega
  have e2 : (b0 * 16777216 + b1 * 65536) ||| b2 * 2 ^ 8
      = b0 * 16777216 + b1 * 65536 + b2 * 256 := by
    have := Nat.mul_add_lt_is_or (i := 16) (b := b2 * 2 ^ 8) (by omega) (b0 * 256 + b1)
    have e : b0 * 16777216 + b1 * 65536 = 2 ^ 16 * (b0 * 256 + b1) := by omega
    rw [e, ← this]; omega
  have e3 : (b0 * 16777216 + b1 * 65536 + b2 * 256) ||| b3
      = b0 * 16777216 + b1 * 65536 + b2 * 256 + b3 := by
    have := Nat.mul_add_lt_is_or (i := 8) (b := b3) (by omega) (b0 * 65536 + b1 * 256 + b2)
    have e : b0 * 16777216 + b1 * 65536 + b2 * 256 = 2 ^ 8 * (b0 * 65536 + b1 * 256 + b2) := by
      omega
    rw [e, ← this]
  rw [e1, e2, e3]

theorem getD_lt_of_bytes (option : List Nat) (hbytes : ∀ b ∈ option, b < 256) (i : Nat) :
    option.getD i 0 < 256 := by
  rw [List.getD_eq_getElem?_getD]
  cases h : option[i]? with
  | none => simp
  | some b => simpa using hbytes b (List.getElem?_mem h)

theorem baud_val_eq (option : List Nat) (hbytes : ∀ b ∈ option, b < 256) :
    baud_val option = int32 ((option.getD 2 0 * 16777216 + option.getD 3 0 * 65536
      + option.getD 4 0 * 256 + option.getD 5 0 : Nat) : Int) := by
  unfold baud_val
  rw [or_bytes_eq _ _ _ _ (getD_lt_of_bytes option hbytes 3) (getD_lt_of_bytes option hbytes 4)
    (getD_lt_of_bytes option hbytes 5)]

theorem be_bytes_asr (v : Int) :
    [uchar (asr v 24), uchar (asr v 16), uchar (asr v 8), uchar v] = be_bytes v := by
  unfold be_bytes uchar asr
  have e1 : v / 2 ^ 24 % 256 = v % 4294967296 / 16777216 % 256 := by omega
  have e2 : v / 2 ^ 16 % 256 = v % 4294967296 / 65536 % 256 := by omega
  have e3 : v / 2 ^ 8 % 256 = v % 4294967296 / 256 % 256 := by omega
  have e4 : v % 256 = v % 4294967296 % 256 := by omega
  rw [e1, e2, e3, e4]

theorem com_port_baud_long (port : port_info) (env : devio_env) (option : List Nat)
    (hlen : 6 ≤ option.length) :
    com_port_baud port env option =
      (telnet_output_ready (recalc_port_chardelay
          { port with bps := (env.baud_rate (baud_val option) false port.bps).2 }),
       [Event.dev_op "baud_rate" (baud_val option),
        Event.telnet_option (44 :: 101 ::
          be_bytes (env.baud_rate (baud_val option) false port.bps).1)]) := by
  unfold com_port_baud
  have h3 : option.length ≠ 3 := by omega
  have h6 : ¬ (option.length ≠ 3 ∧ option.length < 6) := by omega
  simp only [h6, h3, if_false, decide_False, telnet_send_option, ← be_bytes_asr]
  rfl

theorem com_port_baud_cisco (port : port_info) (env : devio_env) (option : List Nat)
    (hlen : option.length = 3) :
    com_port_baud port env option =
      (telnet_output_ready (recalc_port_chardelay
          { port with bps := (env.baud_rate (option.getD 2 0) true port.bps).2 }),
       [Event.dev_op "baud_rate" (option.getD 2 0),
        Event.telnet_option [44, 101, uchar (env.baud_rate (option.getD 2 0) true port.bps).1]])
    := by
  unfold com_port_baud
  have h6 : ¬ (option.length ≠ 3 ∧ option.length < 6) := by omega
  simp only [h6, hlen, if_false, if_true, decide_True, telnet_send_option]
  rfl

theorem com_port_handler_baud (port : port_info) (env : devio_env) (max_xmit : Nat)
    (default_sig option : List Nat) (hc : option.getD 1 0 = 1) (hlen : 2 ≤ option.length) :
    com_port_handler port env max_xmit default_sig option = com_port_baud port env option := by
  unfold com_port_handler
  have h2 : ¬ option.length < 2 := by omega
  simp only [h2, if_false, hc]

theorem com_port_set_bpc_replies (port : port_info) (op : Nat → Int → Nat × Int)
    (name : String) (code : Nat) (option : List Nat) (hlen : 3 ≤ option.length) :
    telnet_replies (com_port_set_bpc port op name code option).2
      = [[44, code, (op (option.getD 2 0) port.bpc).1 % 256]] := by
  unfold com_port_set_bpc
  have h : ¬ option.length < 3 := by omega
  simp only [h, if_false, telnet_send_option, telnet_replies]

theorem com_port_set_bpc_short (port : port_info) (op : Nat → Int → Nat × Int)
    (name : String) (code : Nat) (option : List Nat) (hlen : option.length < 3) :
    com_port_set_bpc port op name code option = (port, []) := by
  unfold com_port_set_bpc
  simp only [hlen, if_true]

theorem com_port_baud_replies (port : port_info) (env : devio_env) (option : List Nat)
    (hlen : option.length = 3 ∨ 6 ≤ option.length) :
    ∃ rest, telnet_replies (com_port_baud port env option).2 = [44 :: 101 :: rest] := by
  rcases hlen with h | h
  · rw [com_port_baud_cisco port env option h]
    exact ⟨_, rfl⟩
  · rw [com_port_baud_long port env option h]
    exact ⟨_, rfl⟩

theorem com_port_baud_short (port : port_info) (env : devio_env) (option : List Nat)
    (hlen : option.length ≠ 3 ∧ option.length < 6) :
    com_port_baud port env option = (port, []) := by
  unfold com_port_baud
  simp only [hlen, if_true, ne_eq, not_false_eq_true, and_self]

theorem telnet_send_option_linestate_mask (port : port_info) (option : List Nat) :
    (telnet_send_option port option).1.linestate_mask = port.linestate_mask := by
  unfold telnet_send_option telnet_output_ready
  dsimp only
  split_ifs <;> rfl

theorem telnet_send_option_modemstate_mask (port : port_info) (option : List Nat) :
    (telnet_send_option port option).1.modemstate_mask = port.modemstate_mask := by
  unfold telnet_send_option telnet_output_ready
  dsimp only
  split_ifs <;> rfl

/-- C19: for a com-port suboption with command byte `c = option[1]` that is
one of 0, 1, 2, 3, 4, 5, 8, 9, 10, 11, 12 and long enough (`len >= 2` for 0, 8,
9; `len == 3` or `len >= 6` for 1; `len >= 3` for the others),
`com_port_handler` queues exactly one reply suboption, whose first two bytes
are 44 and `c + 100`; for 10 and 11 the reply is 44, `c + 100` and the
requested mask, and `linestate_mask` / `modemstate_mask` is set to that mask.
For every other suboption (another `c`, `len < 2`, too short) it queues
nothing and returns the port unchanged. -/
theorem com_port_handler_replies (port : port_info) (env : devio_env) (max_xmit : Nat)
    (default_sig option : List Nat) :
    (suboption_answered option = true →
      ∃ rest, telnet_replies (com_port_handler port env max_xmit default_sig option).2
        = [44 :: (option.getD 1 0 + 100) :: rest]) ∧
    (suboption_answered option = true → option.getD 1 0 = 10 →
      telnet_replies (com_port_handler port env max_xmit default_sig option).2
        = [[44, 110, option.getD 2 0]] ∧
      (com_port_handler port env max_xmit default_sig option).1.linestate_mask
        = option.getD 2 0) ∧
    (suboption_answered option = true → option.getD 1 0 = 11 →
      telnet_replies (com_port_handler port env max_xmit default_sig option).2
        = [[44, 111, option.getD 2 0]] ∧
      (com_port_handler port env max_xmit default_sig option).1.modemstate_mask
        = option.getD 2 0) ∧
    (suboption_answered option = false →
      com_port_handler port env max_xmit default_sig option = (port, [])) := by
  refine ⟨?_, ?_, ?_, ?_⟩
  · intro h
    simp only [suboption_answered, Bool.and_eq_true, Bool.or_eq_true, decide_eq_true_eq] at h
    obtain ⟨h2, h⟩ := h
    have hn : ¬ option.length < 2 := by omega
    unfold com_port_handler
    simp only [hn, if_false]
    rcases h with (h | h) | h
    · rcases h with h | h | h <;> rw [h] <;> exact ⟨_, rfl⟩
    · rw [h.1]
      exact com_port_baud_replies port env option h.2
    · obtain ⟨hcs, hl⟩ := h
      have h3 : ¬ option.length < 3 := by omega
      rcases hcs with h | h | h | h | h | h | h <;> rw [h] <;> dsimp only
      · exact ⟨_, com_port_set_bpc_replies port _ _ _ option hl⟩
      · exact ⟨_, com_port_set_bpc_replies port _ _ _ option hl⟩
      · exact ⟨_, com_port_set_bpc_replies port _ _ _ option hl⟩
      · rw [if_neg h3]; exact ⟨_, rfl⟩
      · rw [if_neg h3]; exact ⟨_, rfl⟩
      · rw [if_neg h3]; exact ⟨_, rfl⟩
      · rw [if_neg h3]; exact ⟨_, rfl⟩
  · intro h hc
    simp only [suboption_answered, hc, Bool.and_eq_true, Bool.or_eq_true,
      decide_eq_true_eq] at h
    have h3 : ¬ option.length < 3 := by omega
    have hn : ¬ option.length < 2 := by omega
    unfold com_port_handler
    simp only [hn, if_false, hc, h3]
    exact ⟨rfl, telnet_send_option_linestate_mask _ _⟩
  · intro h hc
    simp only [suboption_answered, hc, Bool.and_eq_true, Bool.or_eq_true,
      decide_eq_true_eq] at h
    have h3 : ¬ option.length < 3 := by omega
    have hn : ¬ option.length < 2 := by omega
    unfold com_port_handler
    simp only [hn, if_false, hc, h3]
    exact ⟨rfl, telnet_send_option_modemstate_mask _ _⟩
  · intro h
    unfold com_port_handler
    by_cases hn : option.length < 2
    · simp only [hn, if_true]
    · simp only [hn, if_false]
      have h2 : 2 ≤ option.length := by omega
      simp only [suboption_answered, h2, decide_True, Bool.true_and, Bool.or_eq_false_iff,
        Bool.and_eq_false_iff, decide_eq_false_iff_not] at h
      obtain ⟨⟨h089, h1⟩, hrest⟩ := h
      split
      · rename_i hc; exact absurd (Or.inl hc) h089
      · rename_i hc
        rcases h1 with h1 | h1
        · exact absurd hc h1
        · exact com_port_baud_short port env option (by omega)
      · rename_i hc
        rcases hrest with hr | hr
        · exact absurd (by omega) hr
        · exact com_port_set_bpc_short port _ _ _ option (by omega)
      · rename_i hc
        rcases hrest with hr | hr
        · exact absurd (by omega) hr
        · exact com_port_set_bpc_short port _ _ _ option (by omega)
      · rename_i hc
        rcases hrest with hr | hr
        · exact absurd (by omega) hr
        · exact com_port_set_bpc_short port _ _ _ option (by omega)
      · rename_i hc
        rcases hrest with hr | hr
        · exact absurd (by omega) hr
        · rw [if_pos (by omega)]
      · rename_i hc; exact absurd (Or.inr (Or.inl hc)) h089
      · rename_i hc; exact absurd (Or.inr (Or.inr hc)) h089
      · rename_i hc
        rcases hrest with hr | hr
        · exact absurd (by omega) hr
        · rw [if_pos (by omega)]
      · rename_i hc
        rcases hrest with hr | hr
        · exact absurd (by omega) hr
        · rw [if_pos (by omega)]
      · rename_i hc
        rcases hrest with hr | hr
        · exact absurd (by omega) hr
        · rw [if_pos (by omega)]
      · rfl

theorem com_port_handler_replies_witness :
    (∃ rest, telnet_replies (com_port_handler telnet_port devio_accepting 256 [115, 50, 110]
        [44, 5, 8]).2 = [44 :: (List.getD [44, 5, 8] 1 0 + 100) :: rest]) ∧
    (telnet_replies (com_port_handler telnet_port devio_accepting 256 [115, 50, 110]
        [44, 10, 17]).2 = [[44, 110, List.getD [44, 10, 17] 2 0]] ∧
      (com_port_handler telnet_port devio_accepting 256 [115, 50, 110]
        [44, 10, 17]).1.linestate_mask = List.getD [44, 10, 17] 2 0) ∧
    com_port_handler telnet_port devio_accepting 256 [115, 50, 110] [44, 7, 1]
      = (telnet_port, []) :=
  ⟨(com_port_handler_replies telnet_port devio_accepting 256 [115, 50, 110] [44, 5, 8]).1
      (by decide),
   (com_port_handler_replies telnet_port devio_accepting 256 [115, 50, 110] [44, 10, 17]).2.1
      (by decide) (by decide),
   (com_port_handler_replies telnet_port devio_accepting 256 [115, 50, 110] [44, 7, 1]).2.2.2
      (by decide)⟩

theorem be_bytes_int32 (a b c d : Nat) (ha : a < 256) (hb : b < 256) (hc : c < 256)
    (hd : d < 256) :
    be_bytes (int32 ((a * 16777216 + b * 65536 + c * 256 + d : Nat) : Int)) = [a, b, c, d] := by
  unfold be_bytes int32
  simp only [List.cons.injEq, and_true]
  refine ⟨?_, ?_, ?_, ?_⟩ <;> omega

theorem int32_mod_bytes (a b c d : Nat) (ha : a < 256) (hb : b < 256) (hc : c < 256)
    (hd : d < 256) :
    int32 ((a * 16777216 + b * 65536 + c * 256 + d : Nat) : Int) % 2 ^ 32
      = ((a * 2 ^ 24 + b * 2 ^ 16 + c * 2 ^ 8 + d : Nat) : Int) := by
  unfold int32
  push_cast
  omega

/-- C20: for a `SET-BAUDRATE` suboption of six bytes or more with payload
bytes `b0 b1 b2 b3`, the value handed to the device is
`b0*2^24 + b1*2^16 + b2*2^8 + b3` as a C `int`, which is that number modulo
2^32; the reply is 44, 101 and the big-endian four-byte encoding of the value
the device reports back; when the device reports the value it was given, the
reply payload is `b0 b1 b2 b3`, whatever `b0` is. A three-byte suboption is
handed to the device as the one-byte Cisco form and answered with the three
bytes 44, 101 and the low byte of the device's answer. -/
theorem set_baudrate_encoding (port : port_info) (env : devio_env) (max_xmit : Nat)
    (default_sig option : List Nat) (hc : option.getD 1 0 = 1)
    (hbytes : ∀ b ∈ option, b < 256) :
    (6 ≤ option.length →
      baud_val option = int32 ((option.getD 2 0 * 2 ^ 24 + option.getD 3 0 * 2 ^ 16
        + option.getD 4 0 * 2 ^ 8 + option.getD 5 0 : Nat) : Int) ∧
      baud_val option % 2 ^ 32 = ((option.getD 2 0 * 2 ^ 24 + option.getD 3 0 * 2 ^ 16
        + option.getD 4 0 * 2 ^ 8 + option.getD 5 0 : Nat) : Int) ∧
      (com_port_handler port env max_xmit default_sig option).2 =
        [Event.dev_op "baud_rate" (baud_val option),
         Event.telnet_option (44 :: 101 ::
           be_bytes (env.baud_rate (baud_val option) false port.bps).1)] ∧
      ((env.baud_rate (baud_val option) false port.bps).1 = baud_val option →
        telnet_replies (com_port_handler port env max_xmit default_sig option).2 =
          [[44, 101, option.getD 2 0, option.getD 3 0, option.getD 4 0, option.getD 5 0]])) ∧
    (option.length = 3 →
      (com_port_handler port env max_xmit default_sig option).2 =
        [Event.dev_op "baud_rate" (option.getD 2 0),
         Event.telnet_option
           [44, 101, uchar (env.baud_rate (option.getD 2 0) true port.bps).1]]) := by
  have b2 := getD_lt_of_bytes option hbytes 2
  have b3 := getD_lt_of_bytes option hbytes 3
  have b4 := getD_lt_of_bytes option hbytes 4
  have b5 := getD_lt_of_bytes option hbytes 5
  have hv := baud_val_eq option hbytes
  constructor
  · intro hlen
    rw [com_port_handler_baud port env max_xmit default_sig option hc (by omega),
      com_port_baud_long port env option hlen]
    refine ⟨?_, ?_, rfl, ?_⟩
    · rw [hv]; norm_num
    · rw [hv]; exact int32_mod_bytes _ _ _ _ b2 b3 b4 b5
    · intro hsame
      rw [hsame]
      simp only [telnet_replies]
      rw [hv, be_bytes_int32 _ _ _ _ b2 b3 b4 b5]
  · intro hlen
    rw [com_port_handler_baud port env max_xmit default_sig option hc (by omega),
      com_port_baud_cisco port env option hlen]

theorem set_baudrate_encoding_witness :
    telnet_replies (com_port_handler telnet_port devio_accepting 256 [] [44, 1, 0, 0, 75, 0]).2
      = [[44, 101, List.getD [44, 1, 0, 0, 75, 0] 2 0, List.getD [44, 1, 0, 0, 75, 0] 3 0,
          List.getD [44, 1, 0, 0, 75, 0] 4 0, List.getD [44, 1, 0, 0, 75, 0] 5 0]] ∧
    telnet_replies (com_port_handler telnet_port devio_accepting 256 [] [44, 1, 200, 1, 2, 3]).2
      = [[44, 101, List.getD [44, 1, 200, 1, 2, 3] 2 0, List.getD [44, 1, 200, 1, 2, 3] 3 0,
          List.getD [44, 1, 200, 1, 2, 3] 4 0, List.getD [44, 1, 200, 1, 2, 3] 5 0]] ∧
    (com_port_handler telnet_port devio_accepting 256 [] [44, 1, 7]).2 =
      [Event.dev_op "baud_rate" (List.getD [44, 1, 7] 2 0),
       Event.telnet_option [44, 101,
         uchar (devio_accepting.baud_rate (List.getD [44, 1, 7] 2 0) true telnet_port.bps).1]] :=
  ⟨((set_baudrate_encoding telnet_port devio_accepting 256 [] [44, 1, 0, 0, 75, 0] rfl
      (by decide)).1 (by decide)).2.2.2 (by simp only [devio_accepting]),
   ((set_baudrate_encoding telnet_port devio_accepting 256 [] [44, 1, 200, 1, 2, 3] rfl
      (by decide)).1 (by decide)).2.2.2 (by simp only [devio_accepting]),
   (set_baudrate_encoding telnet_port devio_accepting 256 [] [44, 1, 7] rfl
      (by decide)).2 rfl⟩

/-! ## Reconfiguration and the idle transition (C12, C13) -/

theorem switchout_port_fst (ports : List port_info) (idx : Nat) (new_port curr : port_info)
    (env : startup_env) :
    ∃ inuse, (switchout_port ports idx new_port curr env).1 =
      ports.set idx (change_port_state
        { new_port with enabled := curr.enabled, acceptfds := curr.acceptfds,
                        nr_acceptfds := curr.nr_acceptfds,
                        accept_waiter := curr.accept_waiter }
        new_port.enabled inuse env).1 := by
  unfold switchout_port
  dsimp only
  exact ⟨_, by rw [List.set_set]⟩

theorem move_list (l : List Nat) (j i n : Nat) (hji : j < i) (hlen : i + (n + 1) ≤ l.length) :
    (l.set j (l.getD i 0)).take (j + 1) ++ ((l.set j (l.getD i 0)).drop (i + 1)).take n
        ++ (l.set j (l.getD i 0)).drop (j + 1 + n)
      = l.take j ++ (l.drop i).take (n + 1) ++ l.drop (j + (n + 1)) := by
  have hj : j < l.length := by omega
  have hi : i < l.length := by omega
  rw [List.drop_set_of_lt _ _ (by omega : j < i + 1), List.drop_set_of_lt _ _ (by omega : j < j + 1 + n)]
  rw [List.set_eq_take_append_cons_drop, if_pos hj]
  rw [List.take_append_eq_append_take]
  simp only [List.length_take, Nat.min_eq_left (Nat.le_of_lt hj)]
  rw [List.take_of_length_le (by simp)]
  have e1 : j + 1 - j = 1 := by omega
  rw [e1]
  simp only [List.take_succ_cons, List.take_zero]
  have e2 : (l.drop i).take (n + 1) = l.getD i 0 :: (l.drop (i + 1)).take n := by
    rw [List.drop_eq_getElem_cons hi, List.take_succ_cons]
    congr 1
    simp [List.getD_eq_getElem?_getD, hi]
  rw [e2]
  simp [Nat.add_assoc, Nat.add_comm 1 n]


theorem inbuf_get_nat (c : controller_info) (i : Nat) :
    inbuf_get c (i : Int) = c.inbuf.getD i 0 := by
  simp [inbuf_get]

theorem inbuf_set_nat (c : controller_info) (j : Nat) (v : Nat) :
    inbuf_set c (j : Int) v =
      { c with inbuf := c.inbuf.set j v, writes := c.writes ++ [(j : Int)] } := by
  simp [inbuf_set]

theorem inbuf_move_eq (n j i : Nat) (c : controller_info) (hji : j < i)
    (hlen : i + n ≤ c.inbuf.length) :
    inbuf_move n (j : Int) (i : Int) c =
      { c with
        inbuf := c.inbuf.take j ++ (c.inbuf.drop i).take n ++ c.inbuf.drop (j + n),
        writes := c.writes ++ (List.range n).map (fun k => ((j + k : Nat) : Int)) } := by
  induction n generalizing j i c with
  | zero =>
    simp [inbuf_move]
  | succ n ih =>
    unfold inbuf_move
    rw [inbuf_get_nat, inbuf_set_nat]
    have e1 : ((j : Int) + 1) = ((j + 1 : Nat) : Int) := by push_cast; rfl
    have e2 : ((i : Int) + 1) = ((i + 1 : Nat) : Int) := by push_cast; rfl
    rw [e1, e2, ih (j + 1) (i + 1) _ (by omega) (by simp; omega)]
    dsimp only
    rw [move_list c.inbuf j i n hji hlen]
    congr 1
    rw [List.range_succ_eq_map, List.map_cons, List.map_map, List.append_assoc]
    congr 1
    simp only [List.singleton_append, Nat.add_zero, List.cons.injEq, true_and]
    apply List.map_congr_left
    intro k _
    simp only [Function.comp]
    congr 1
    omega


theorem remove_chars_eq (c : controller_info) (pos count n : Nat) (hc : 1 ≤ count)
    (hpc : count ≤ pos + 1) (hn : c.inbuf_count = (n : Int)) (hpn : pos < n)
    (hlen : n ≤ c.inbuf.length) :
    remove_chars c (pos : Int) (count : Int) =
      ({ c with
         inbuf := c.inbuf.take (pos + 1 - count) ++ (c.inbuf.drop (pos + 1)).take (n - pos - 1)
           ++ c.inbuf.drop (n - count),
         inbuf_count := ((n - count : Nat) : Int),
         writes := c.writes ++
           (List.range (n - pos - 1)).map (fun k => ((pos + 1 - count + k : Nat) : Int)) },
       (pos : Int) - count) := by
  unfold remove_chars
  dsimp only
  have e1 : (pos : Int) - count + 1 = ((pos + 1 - count : Nat) : Int) := by omega
  have e2 : ((pos + 1 - count : Nat) : Int) + count = ((pos + 1 : Nat) : Int) := by omega
  have e3 : (c.inbuf_count - count - ((pos + 1 - count : Nat) : Int)).toNat = n - pos - 1 := by
    rw [hn]; omega
  rw [e1, e2, e3, inbuf_move_eq _ _ _ _ (by omega) (by omega)]
  dsimp only
  have e4 : pos + 1 - count + (n - pos - 1) = n - count := by omega
  have e5 : (n : Int) - count = ((n - count : Nat) : Int) := by omega
  rw [e4, hn, e5]

theorem remove_chars_pending (c : controller_info) (pos count n : Nat) (hc : 1 ≤ count)
    (hpc : count ≤ pos + 1) (hn : c.inbuf_count = (n : Int)) (hpn : pos < n)
    (hlen : n ≤ c.inbuf.length) :
    (remove_chars c (pos : Int) (count : Int)).1.inbuf.take (n - count) =
      (c.inbuf.take n).take (pos + 1 - count) ++ (c.inbuf.take n).drop (pos + 1) := by
  rw [remove_chars_eq c pos count n hc hpc hn hpn hlen]
  dsimp only
  rw [List.take_take, List.drop_take, Nat.min_eq_left (by omega)]
  have hl : (c.inbuf.take (pos + 1 - count)
      ++ (c.inbuf.drop (pos + 1)).take (n - pos - 1)).length = n - count := by
    simp only [List.length_append, List.length_take, List.length_drop]
    omega
  rw [List.take_left' hl]
  rfl


theorem getD_of_take_eq (l : List Nat) (n : Nat) (cur rest : List Nat) (b : Nat)
    (h : l.take n = cur ++ b :: rest) : l.getD cur.length 0 = b := by
  have h1 : (l.take n)[cur.length]? = some b := by
    rw [h, List.getElem?_append_right (Nat.le_refl _)]
    simp
  have h2 : l[cur.length]? = some b := by
    rw [List.getElem?_take] at h1
    split_ifs at h1
    exact h1
  rw [List.getD_eq_getElem?_getD, h2]
  rfl

theorem c_string_set (l cur : List Nat) (i : Nat) (hi : i < l.length) (hcur : l.take i = cur)
    (hnz : ∀ b ∈ cur, b ≠ 0) : c_string (l.set i 0) = cur := by
  unfold c_string
  rw [List.set_eq_take_append_cons_drop, if_pos hi, hcur]
  rw [List.takeWhile_append_of_pos]
  · simp
  · intro b hb
    simpa using hnz b hb

theorem read_bounds_refl (c : controller_info) (h0 : 0 ≤ c.inbuf_count)
    (h1 : c.inbuf_count ≤ 255) (hl : c.inbuf.length = 256) : read_bounds c c :=
  ⟨h0, h1, hl, fun _ hw => Or.inl hw⟩

theorem read_bounds_step (c c1 c2 : controller_info)
    (hw : ∀ w ∈ c1.writes, w ∈ c.writes ∨ (0 ≤ w ∧ w < 256)) (h : read_bounds c1 c2) :
    read_bounds c c2 := by
  obtain ⟨h0, h1, hl, h2⟩ := h
  refine ⟨h0, h1, hl, fun w hw2 => ?_⟩
  rcases h2 w hw2 with h3 | h3
  · exact hw w h3
  · exact Or.inr h3

theorem editor_agrees_step (c c1 c2 : controller_info) (st : editor)
    (hs : c1.in_shutdown = c.in_shutdown) (h : editor_agrees c1 c2 st) :
    editor_agrees c c2 st := by
  obtain ⟨h1, h2, h3, h4⟩ := h
  exact ⟨h1, h2, by rw [h3, hs], h4⟩

theorem writes_range_ok (ws : List Int) (a m : Nat) (ha : a + m ≤ 256) :
    ∀ w ∈ ws ++ (List.range m).map (fun k => ((a + k : Nat) : Int)),
      w ∈ ws ∨ (0 ≤ w ∧ w < 256) := by
  intro w hw
  rw [List.mem_append] at hw
  rcases hw with hw | hw
  · exact Or.inl hw
  · right
    rw [List.mem_map] at hw
    obtain ⟨k, hk, rfl⟩ := hw
    rw [List.mem_range] at hk
    omega


theorem take_drop_pending (cur rest : List Nat) (b : Nat) (k : Nat) (hk : k ≤ cur.length) :
    (cur ++ b :: rest).take k ++ (cur ++ b :: rest).drop (cur.length + 1) = cur.take k ++ rest := by
  rw [List.take_append_of_le_length hk]
  have e : cur ++ b :: rest = (cur ++ [b]) ++ rest := by simp
  rw [e, List.drop_left' (by simp)]

/-- One pending byte at the cursor is dropped by `remove_chars (i, count)` with
`count` 1 (the byte itself) or 2 (the byte and the one before it): the state
after it, as the loop lemma needs it. -/
theorem remove_chars_step (c : controller_info) (cur rest : List Nat) (b : Nat) (count : Nat)
    (hc : 1 ≤ count) (hpc : count ≤ cur.length + 1) (hlen : c.inbuf.length = 256)
    (hcount : c.inbuf_count = ((cur.length + (rest.length + 1) : Nat) : Int))
    (hle : cur.length + (rest.length + 1) ≤ 255)
    (htake : c.inbuf.take (cur.length + (rest.length + 1)) = cur ++ b :: rest) :
    (remove_chars c (cur.length : Int) (count : Int)).2 + 1
        = (((cur.take (cur.length + 1 - count)).length : Nat) : Int) ∧
    (remove_chars c (cur.length : Int) (count : Int)).1.inbuf.length = 256 ∧
    (remove_chars c (cur.length : Int) (count : Int)).1.inbuf_count
        = (((cur.take (cur.length + 1 - count)).length + rest.length : Nat) : Int) ∧
    (remove_chars c (cur.length : Int) (count : Int)).1.inbuf.take
        ((cur.take (cur.length + 1 - count)).length + rest.length)
        = cur.take (cur.length + 1 - count) ++ rest ∧
    (remove_chars c (cur.length : Int) (count : Int)).1.lines = c.lines ∧
    (remove_chars c (cur.length : Int) (count : Int)).1.out = c.out ∧
    (remove_chars c (cur.length : Int) (count : Int)).1.in_shutdown = c.in_shutdown ∧
    (∀ w ∈ (remove_chars c (cur.length : Int) (count : Int)).1.writes,
      w ∈ c.writes ∨ (0 ≤ w ∧ w < 256)) := by
  have hl : (cur.take (cur.length + 1 - count)).length = cur.length + 1 - count := by
    rw [List.length_take]; omega
  have hp := remove_chars_pending c cur.length count (cur.length + (rest.length + 1)) hc hpc
    hcount (by omega) (by omega)
  rw [htake, take_drop_pending cur rest b _ (by omega)] at hp
  have he := remove_chars_eq c cur.length count (cur.length + (rest.length + 1)) hc hpc
    hcount (by omega) (by omega)
  have hn : (cur.take (cur.length + 1 - count)).length + rest.length
      = cur.length + (rest.length + 1) - count := by rw [hl]; omega
  refine ⟨?_, ?_, ?_, ?_, ?_, ?_, ?_, ?_⟩
  · rw [he, hl]; dsimp only; omega
  · rw [he]
    dsimp only
    simp only [List.length_append, List.length_take, List.length_drop, hlen]
    omega
  · rw [he, hn]
  · rw [hn]; exact hp
  · rw [he]
  · rw [he]
  · rw [he]
  · rw [he]
    dsimp only
    exact writes_range_ok c.writes _ _ (by omega)


theorem copy_leftover_eq (c : controller_info) (i m : Nat)
    (hcount : c.inbuf_count = ((i + (m + 1) : Nat) : Int)) (hlen : i + (m + 1) ≤ c.inbuf.length) :
    copy_leftover c (i : Int) =
      { c with
        inbuf := (c.inbuf.drop (i + 1)).take m ++ c.inbuf.drop m,
        inbuf_count := (m : Int),
        writes := c.writes ++ (List.range m).map (fun k => ((0 + k : Nat) : Int)) } := by
  unfold copy_leftover
  dsimp only
  have e1 : (i : Int) + 1 = ((i + 1 : Nat) : Int) := by push_cast; rfl
  have e2 : c.inbuf_count - ((i + 1 : Nat) : Int) = (m : Int) := by rw [hcount]; omega
  have e3 : (0 : Int) = ((0 : Nat) : Int) := rfl
  rw [e1, e2, Int.toNat_ofNat, e3, inbuf_move_eq m 0 (i + 1) _ (by omega) (by simpa using by omega)]
  simp


theorem controller_read_loop_refines (rest : List Nat) :
    ∀ (fuel : Nat) (c : controller_info) (cur : List Nat),
      rest.length ≤ fuel → c.inbuf.length = 256 →
      c.inbuf_count = ((cur.length + rest.length : Nat) : Int) →
      cur.length + rest.length ≤ 255 →
      c.inbuf.take (cur.length + rest.length) = cur ++ rest →
      ∃ c1, controller_read_loop fuel (cur.length : Int) c = some c1 ∧
        read_bounds c c1 ∧
        ((∀ x ∈ cur, x ≠ 0) →
          editor_agrees c c1 (edit_run ⟨cur, c.lines, c.out, false⟩ rest)) := by
  induction rest with
  | nil =>
    intro fuel c cur _ hlen hcount hle htake
    have hnot : ¬ ((cur.length : Int) < c.inbuf_count) := by rw [hcount]; simp
    refine ⟨c, ?_, read_bounds_refl c (by rw [hcount]; omega) (by rw [hcount]; omega) hlen, ?_⟩
    · cases fuel with
      | zero => simp only [controller_read_loop, hnot, if_false]
      | succ f => simp only [controller_read_loop, hnot, not_false_eq_true, if_true]
    · intro _
      exact ⟨rfl, rfl, by simp [edit_run],
        fun _ => ⟨by simpa using hcount, by simpa using htake⟩⟩
  | cons b rest ih =>
    intro fuel c cur hfuel hlen hcount hle htake
    simp only [List.length_cons] at hfuel hcount hle htake
    obtain ⟨f, rfl⟩ : ∃ f, fuel = f + 1 := ⟨fuel - 1, by omega⟩
    have hf : rest.length ≤ f := by omega
    have hlt : (cur.length : Int) < c.inbuf_count := by rw [hcount]; omega
    have hget : inbuf_get c (cur.length : Int) = b := by
      rw [inbuf_get_nat]; exact getD_of_take_eq _ _ _ _ _ htake
    -- dropping the byte at the cursor
    have hdrop : ∃ c1, controller_read_loop f ((remove_chars c (cur.length : Int) 1).2 + 1)
          (remove_chars c (cur.length : Int) 1).1 = some c1 ∧
        read_bounds c c1 ∧
        ((∀ x ∈ cur, x ≠ 0) →
          editor_agrees c c1 (edit_run ⟨cur, c.lines, c.out, false⟩ rest)) := by
      have hs := remove_chars_step c cur rest b 1 (by omega) (by omega) hlen hcount hle htake
      simp only [Nat.cast_one, Nat.add_sub_cancel, List.take_length] at hs
      obtain ⟨h1, h2, h3, h4, h5, h6, h7, h8⟩ := hs
      obtain ⟨c1, hc1, hb1, ha1⟩ := ih f _ cur hf h2 h3 (by omega) h4
      rw [h1]
      refine ⟨c1, hc1, read_bounds_step c _ c1 h8 hb1, fun hnz => ?_⟩
      have := ha1 hnz
      rw [h5, h6] at this
      exact editor_agrees_step c _ c1 _ h7 this
    unfold controller_read_loop
    rw [if_neg (not_not.mpr hlt), hget]
    by_cases hb0 : b = 0
    · rw [if_pos hb0]
      dsimp only
      obtain ⟨c1, hc1, hb1, ha1⟩ := hdrop
      refine ⟨c1, hc1, hb1, fun hnz => ?_⟩
      have := ha1 hnz
      rw [edit_run, if_pos (Or.inl hb0)]
      exact this
    rw [if_neg hb0]
    by_cases hb10 : b = 10
    · rw [if_pos hb10]
      dsimp only
      obtain ⟨c1, hc1, hb1, ha1⟩ := hdrop
      refine ⟨c1, hc1, hb1, fun hnz => ?_⟩
      have := ha1 hnz
      rw [edit_run, if_pos (Or.inr hb10)]
      exact this
    rw [if_neg hb10]
    have hn010 : ¬ (b = 0 ∨ b = 10) := by tauto
    by_cases hbs : b = 8 ∨ b = 127
    · rw [if_pos hbs]
      by_cases hi0 : (cur.length : Int) = 0
      · rw [if_pos hi0]
        dsimp only
        have hnil : cur = [] := by
          have : cur.length = 0 := by omega
          exact List.length_eq_zero.mp this
        obtain ⟨c1, hc1, hb1, ha1⟩ := hdrop
        refine ⟨c1, hc1, hb1, fun hnz => ?_⟩
        have := ha1 hnz
        rw [edit_run, if_neg hn010, if_pos hbs, if_pos hnil]
        exact this
      · rw [if_neg hi0]
        dsimp only
        have hpos : 1 ≤ cur.length := by omega
        have hne : cur ≠ [] := by
          intro h; rw [h] at hpos; simp at hpos
        have hs := remove_chars_step c cur rest b 2 (by omega) (by omega) hlen hcount hle htake
        have e2 : cur.length + 1 - 2 = cur.length - 1 := by omega
        simp only [Nat.cast_ofNat, e2, ← List.dropLast_eq_take] at hs
        obtain ⟨h1, h2, h3, h4, h5, h6, h7, h8⟩ := hs
        obtain ⟨c1, hc1, hb1, ha1⟩ := ih f
          (controller_outs (remove_chars c (cur.length : Int) 2).1 (bytes "\x08 \x08"))
          cur.dropLast hf h2 h3 (by rw [List.length_dropLast]; omega) h4
        rw [h1]
        refine ⟨c1, hc1, read_bounds_step c _ c1 h8 hb1, fun hnz => ?_⟩
        have := ha1 (fun x hx => hnz x (List.dropLast_subset cur hx))
        rw [edit_run, if_neg hn010, if_pos hbs, if_neg hne]
        dsimp only [controller_outs] at this
        rw [h5, h6] at this
        exact editor_agrees_step c _ c1 _ h7 this
    rw [if_neg hbs]
    by_cases hcr : b = 13
    · rw [if_pos hcr]
      dsimp only
      subst hcr
      have hcur : c.inbuf.take cur.length = cur := by
        have := congrArg (List.take cur.length) htake
        rw [List.take_take, Nat.min_eq_left (by omega), List.take_left' rfl] at this
        exact this
      have hrest : (c.inbuf.drop (cur.length + 1)).take rest.length = rest := by
        have := congrArg (List.drop (cur.length + 1)) htake
        rw [List.drop_take] at this
        have e : cur ++ 13 :: rest = (cur ++ [13]) ++ rest := by simp
        rw [e, List.drop_left' (by simp)] at this
        have e2 : cur.length + (rest.length + 1) - (cur.length + 1) = rest.length := by omega
        rw [e2] at this
        exact this
      have hc2 : inbuf_set (controller_outs c (bytes "\r\n")) (cur.length : Int) 0 =
          { c with out := c.out ++ bytes "\r\n", inbuf := c.inbuf.set cur.length 0,
                   writes := c.writes ++ [(cur.length : Int)] } := by
        rw [inbuf_set_nat]; rfl
      rw [hc2]
      unfold process_input_line
      dsimp only
      by_cases hcl : closes_session (c_string (c.inbuf.set cur.length 0)) = true
      · rw [if_pos hcl]
        dsimp only
        rw [if_pos rfl]
        refine ⟨_, rfl, ?_, fun hnz => ?_⟩
        · unfold shutdown_controller
          dsimp only
          split_ifs
          · refine ⟨by show 0 ≤ c.inbuf_count; rw [hcount]; omega,
              by show c.inbuf_count ≤ 255; rw [hcount]; omega,
              by show (c.inbuf.set cur.length 0).length = 256; rw [List.length_set]; exact hlen,
              fun w hw => ?_⟩
            have hw2 : w ∈ c.writes ++ [(cur.length : Int)] := hw
            rw [List.mem_append, List.mem_singleton] at hw2
            rcases hw2 with h | h
            · exact Or.inl h
            · right; omega
          · refine ⟨by show 0 ≤ c.inbuf_count; rw [hcount]; omega,
              by show c.inbuf_count ≤ 255; rw [hcount]; omega,
              by show (c.inbuf.set cur.length 0).length = 256; rw [List.length_set]; exact hlen,
              fun w hw => ?_⟩
            have hw2 : w ∈ c.writes ++ [(cur.length : Int)] := hw
            rw [List.mem_append, List.mem_singleton] at hw2
            rcases hw2 with h | h
            · exact Or.inl h
            · right; omega
        · have hL := c_string_set c.inbuf cur cur.length (by omega) hcur hnz
          rw [hL] at hcl
          rw [edit_run, if_neg hn010, if_neg hbs, if_pos rfl, if_pos hcl, hL]
          unfold shutdown_controller
          dsimp only
          split_ifs with hsd
          · exact ⟨rfl, rfl, by simp [hsd], fun h => by simp at h⟩
          · exact ⟨rfl, rfl, by simp, fun h => by simp at h⟩
      · rw [if_neg hcl]
        dsimp only
        rw [if_neg (by simp)]
        obtain ⟨X, hX⟩ : ∃ X : controller_info, X =
            { c with out := c.out ++ bytes "\r\n", inbuf := c.inbuf.set cur.length 0,
                     writes := c.writes ++ [(cur.length : Int)],
                     lines := c.lines ++ [c_string (c.inbuf.set cur.length 0)] } := ⟨_, rfl⟩
        rw [← hX]
        have hXi : X.inbuf = c.inbuf.set cur.length 0 := by rw [hX]
        have hXc : X.inbuf_count = c.inbuf_count := by rw [hX]
        have hXl : X.lines = c.lines ++ [c_string (c.inbuf.set cur.length 0)] := by rw [hX]
        have hXo : X.out = c.out ++ bytes "\r\n" := by rw [hX]
        have hXs : X.in_shutdown = c.in_shutdown := by rw [hX]
        have hXw : X.writes = c.writes ++ [(cur.length : Int)] := by rw [hX]
        have h4 := copy_leftover_eq X cur.length rest.length (by rw [hXc]; exact hcount)
          (by rw [hXi, List.length_set]; omega)
        obtain ⟨Y, hY⟩ : ∃ Y : controller_info, Y = copy_leftover X (cur.length : Int) :=
          ⟨_, rfl⟩
        rw [← hY]
        rw [← hY] at h4
        have hYi : Y.inbuf = (X.inbuf.drop (cur.length + 1)).take rest.length
            ++ X.inbuf.drop rest.length := by rw [h4]
        have hYc : Y.inbuf_count = (rest.length : Int) := by rw [h4]
        have hYl : Y.lines = X.lines := by rw [h4]
        have hYo : Y.out = X.out := by rw [h4]
        have hYs : Y.in_shutdown = X.in_shutdown := by rw [h4]
        have hYw : Y.writes = X.writes
            ++ (List.range rest.length).map (fun k => ((0 + k : Nat) : Int)) := by rw [h4]
        have hA : (X.inbuf.drop (cur.length + 1)).take rest.length = rest := by
          rw [hXi, List.drop_set_of_lt _ _ (by omega)]
          exact hrest
        have hYlen : Y.inbuf.length = 256 := by
          rw [hYi, hA, List.length_append, List.length_drop, hXi, List.length_set, hlen]
          omega
        have hYtake : Y.inbuf.take (([] : List Nat).length + rest.length) = [] ++ rest := by
          rw [hYi, hA]
          simp
        obtain ⟨c1, hc1, hb1, ha1⟩ := ih f Y [] hf hYlen (by rw [hYc]; simp) (by simp; omega)
          hYtake
        have e0 : (-1 + 1 : Int) = ((([] : List Nat).length : Nat) : Int) := by simp
        rw [e0]
        refine ⟨c1, hc1, read_bounds_step c Y c1 ?_ hb1, fun hnz => ?_⟩
        · intro w hw
          rw [hYw, hXw] at hw
          rcases writes_range_ok _ 0 rest.length (by omega) w hw with h | h
          · rw [List.mem_append, List.mem_singleton] at h
            rcases h with h | h
            · exact Or.inl h
            · right; omega
          · exact Or.inr h
        · have hL := c_string_set c.inbuf cur cur.length (by omega) hcur hnz
          rw [hL] at hcl
          have := ha1 (by simp)
          rw [hYl, hYo, hXl, hXo, hL] at this
          rw [edit_run, if_neg hn010, if_neg hbs, if_pos rfl, if_neg hcl]
          exact editor_agrees_step c Y c1 _ (by rw [hYs, hXs]) this
    · rw [if_neg hcr]
      have htake2 : c.inbuf.take ((cur ++ [b]).length + rest.length) = (cur ++ [b]) ++ rest := by
        rw [List.length_append, List.length_singleton, Nat.add_assoc, Nat.add_comm 1]
        simpa using htake
      obtain ⟨c1, hc1, hb1, ha1⟩ := ih f (controller_outs c [b]) (cur ++ [b]) hf hlen
        (by show c.inbuf_count = _
            rw [hcount, List.length_append, List.length_singleton]
            congr 1; omega)
        (by rw [List.length_append, List.length_singleton]; omega) htake2
      have e : ((cur.length : Int) + 1) = (((cur ++ [b]).length : Nat) : Int) := by
        rw [List.length_append, List.length_singleton]; push_cast; rfl
      rw [e]
      refine ⟨c1, hc1, read_bounds_step c _ c1 (fun w hw => Or.inl hw) hb1, fun hnz => ?_⟩
      have := ha1 (by
        intro x hx
        rw [List.mem_append, List.mem_singleton] at hx
        rcases hx with hx | hx
        · exact hnz x hx
        · rw [hx]; exact hb0)
      rw [edit_run, if_neg hn010, if_neg hbs, if_neg hcr]
      exact editor_agrees_step c _ c1 _ rfl this


theorem store_list (l : List Nat) (s b : Nat) (rest : List Nat) (hs : s < l.length) :
    (l.set s b).take (s + 1) ++ rest ++ (l.set s b).drop (s + 1 + rest.length)
      = l.take s ++ b :: rest ++ l.drop (s + (b :: rest).length) := by
  rw [List.drop_set_of_lt _ _ (by omega), List.set_eq_take_append_cons_drop, if_pos hs,
    List.take_append_eq_append_take, List.take_of_length_le (by simp)]
  simp only [List.length_take, Nat.min_eq_left (Nat.le_of_lt hs), Nat.add_sub_cancel_left,
    List.take_succ_cons, List.take_zero, List.length_cons, List.append_assoc,
    List.singleton_append, List.cons_append]
  rw [Nat.add_assoc, Nat.add_comm 1]
  rfl

theorem inbuf_store_eq (data : List Nat) (start : Nat) (c : controller_info)
    (hlen : start + data.length ≤ c.inbuf.length) :
    inbuf_store data (start : Int) c =
      { c with
        inbuf := c.inbuf.take start ++ data ++ c.inbuf.drop (start + data.length),
        writes := c.writes ++ (List.range data.length).map (fun k => ((start + k : Nat) : Int)) }
    := by
  induction data generalizing start c with
  | nil => simp [inbuf_store]
  | cons b rest ih =>
    unfold inbuf_store
    rw [inbuf_set_nat]
    have e1 : ((start : Int) + 1) = ((start + 1 : Nat) : Int) := by push_cast; rfl
    simp only [List.length_cons] at hlen
    rw [e1, ih (start + 1) _ (by simp only [List.length_set]; omega)]
    dsimp only
    have hs : start < c.inbuf.length := by omega
    congr 1
    · exact store_list c.inbuf start b rest hs
    · rw [List.length_cons, List.range_succ_eq_map, List.map_cons, List.map_map,
        List.append_assoc]
      congr 1
      simp only [List.singleton_append, Nat.add_zero, List.cons.injEq, true_and]
      apply List.map_congr_left
      intro k _
      simp only [Function.comp]
      congr 1
      omega

/-- A read on a live session whose data fits: the loop runs on the stored
data, from the bytes pending before. -/
theorem controller_read_live (fuel : Nat) (c : controller_info) (tn : telnet_result)
    (n : Nat) (hlive : c.in_shutdown = false) (hlen : c.inbuf.length = 256)
    (hn : c.inbuf_count = (n : Int)) (hroom : n + tn.data.length ≤ 255) (hn255 : n < 255)
    (herr : tn.error = false) (hleft : tn.bytesleft = 0) (hfuel : tn.data.length ≤ fuel) :
    ∃ c1, controller_read fuel c false tn = some c1 ∧ read_bounds c c1 ∧
      ((∀ x ∈ c.inbuf.take n, x ≠ 0) →
        editor_agrees c c1 (edit_run ⟨c.inbuf.take n, c.lines, c.out, false⟩ tn.data)) := by
  unfold controller_read
  have h255 : ¬ c.inbuf_count = INBUF_SIZE := by rw [hn]; unfold INBUF_SIZE; omega
  rw [hlive, herr, hleft]
  simp only [Bool.false_eq_true, if_false, h255, ne_eq, not_true_eq_false]
  rw [hn, inbuf_store_eq tn.data n c (by omega)]
  dsimp only
  rw [hn]
  have hl : (c.inbuf.take n).length = n := by rw [List.length_take]; omega
  obtain ⟨c1, hc1, hb1, ha1⟩ := controller_read_loop_refines tn.data fuel
    { c with
      inbuf := c.inbuf.take n ++ tn.data ++ c.inbuf.drop (n + tn.data.length),
      writes := c.writes ++ (List.range tn.data.length).map (fun k => ((n + k : Nat) : Int)),
      inbuf_count := (n : Int) + tn.data.length }
    (c.inbuf.take n) hfuel
    (by simp only [List.length_append, List.length_take, List.length_drop]; omega)
    (by rw [hl]; push_cast; rfl)
    (by rw [hl]; omega)
    (by rw [hl]; exact List.take_left' (by rw [List.length_append, hl]))
  rw [hl] at hc1
  refine ⟨c1, hc1, read_bounds_step c _ c1 (writes_range_ok c.writes n _ (by omega)) hb1,
    fun hnz => editor_agrees_step c _ c1 _ rfl (ha1 hnz)⟩


theorem edit_run_cons_ne (line : List Nat) (lines : List (List Nat)) (out : List Nat)
    (cl : Bool) (b : Nat) (rest : List Nat) (hb : b ≠ 13) :
    ∃ out1, edit_run ⟨line, lines, out, cl⟩ (b :: rest)
      = edit_run ⟨edit_byte line b, lines, out1, cl⟩ rest := by
  rw [edit_run]
  unfold edit_byte
  by_cases h1 : b = 0 ∨ b = 10
  · rw [if_pos h1, if_pos h1]; exact ⟨_, rfl⟩
  · rw [if_neg h1, if_neg h1]
    by_cases h2 : b = 8 ∨ b = 127
    · rw [if_pos h2, if_pos h2]
      dsimp only
      by_cases h3 : line = []
      · rw [if_pos h3, h3]; exact ⟨_, rfl⟩
      · rw [if_neg h3]; exact ⟨_, rfl⟩
    · rw [if_neg h2, if_neg h2, if_neg hb]; exact ⟨_, rfl⟩

theorem edit_piece_snoc (piece : List Nat) (b : Nat) :
    edit_piece (piece ++ [b]) = edit_byte (edit_piece piece) b := by
  unfold edit_piece
  rw [List.foldl_append]
  rfl

theorem edit_run_lines (rest : List Nat) :
    ∀ (piece : List Nat) (lines : List (List Nat)) (out : List Nat),
      (edit_run ⟨edit_piece piece, lines, out, false⟩ rest).lines
          = lines ++ until_closed ((cut_at_cr piece rest).map edit_piece) ∧
      ((edit_run ⟨edit_piece piece, lines, out, false⟩ rest).closed = false →
        (edit_run ⟨edit_piece piece, lines, out, false⟩ rest).line
          = edit_piece (tail_piece piece rest)) := by
  induction rest with
  | nil =>
    intro piece lines out
    simp [edit_run, cut_at_cr, tail_piece, until_closed]
  | cons b rest ih =>
    intro piece lines out
    by_cases hb : b = 13
    · subst hb
      rw [edit_run, if_neg (by decide), if_neg (by decide), if_pos rfl]
      dsimp only
      rw [cut_at_cr, if_pos rfl, tail_piece, if_pos rfl, List.map_cons, until_closed]
      by_cases hcl : closes_session (edit_piece piece) = true
      · rw [if_pos hcl, if_pos hcl]
        exact ⟨rfl, fun h => by simp at h⟩
      · rw [if_neg hcl, if_neg hcl]
        have := ih [] (lines ++ [edit_piece piece]) (out ++ bytes "\r\n")
        have e : edit_piece [] = [] := rfl
        rw [e] at this
        refine ⟨?_, this.2⟩
        rw [this.1, List.append_assoc]
        rfl
    · obtain ⟨out1, h1⟩ := edit_run_cons_ne (edit_piece piece) lines out false b rest hb
      rw [h1, cut_at_cr, if_neg hb, tail_piece, if_neg hb, ← edit_piece_snoc]
      exact ih (piece ++ [b]) lines out1

theorem edit_run_append (s t : List Nat) :
    ∀ st : editor, st.closed = false →
      edit_run st (s ++ t) =
        if (edit_run st s).closed = true then edit_run st s else edit_run (edit_run st s) t := by
  induction s with
  | nil =>
    intro st hst
    simp [edit_run, hst]
  | cons b s ih =>
    intro st hst
    rw [List.cons_append, edit_run, edit_run]
    by_cases h1 : b = 0 ∨ b = 10
    · rw [if_pos h1, if_pos h1]; exact ih st hst
    · rw [if_neg h1, if_neg h1]
      by_cases h2 : b = 8 ∨ b = 127
      · rw [if_pos h2, if_pos h2]
        by_cases h3 : st.line = []
        · rw [if_pos h3, if_pos h3]; exact ih st hst
        · rw [if_neg h3, if_neg h3]; exact ih _ hst
      · rw [if_neg h2, if_neg h2]
        by_cases h3 : b = 13
        · rw [if_pos h3, if_pos h3]
          by_cases h4 : closes_session st.line = true
          · rw [if_pos h4, if_pos h4]; simp
          · rw [if_neg h4, if_neg h4]; exact ih _ hst
        · rw [if_neg h3, if_neg h3]; exact ih _ hst

theorem edit_run_nonzero (rest : List Nat) :
    ∀ st : editor, (∀ x ∈ st.line, x ≠ 0) → ∀ x ∈ (edit_run st rest).line, x ≠ 0 := by
  induction rest with
  | nil => intro st h; exact h
  | cons b rest ih =>
    intro st h
    rw [edit_run]
    by_cases h1 : b = 0 ∨ b = 10
    · rw [if_pos h1]; exact ih st h
    · rw [if_neg h1]
      by_cases h2 : b = 8 ∨ b = 127
      · rw [if_pos h2]
        by_cases h3 : st.line = []
        · rw [if_pos h3]; exact ih st h
        · rw [if_neg h3]
          exact ih _ (fun x hx => h x (List.dropLast_subset _ hx))
      · rw [if_neg h2]
        by_cases h3 : b = 13
        · rw [if_pos h3]
          by_cases h4 : closes_session st.line = true
          · rw [if_pos h4]; exact h
          · rw [if_neg h4]; exact ih _ (by simp)
        · rw [if_neg h3]
          apply ih
          intro x hx
          dsimp only at hx
          rw [List.mem_append, List.mem_singleton] at hx
          rcases hx with hx | hx
          · exact h x hx
          · rw [hx]; intro h0; exact h1 (Or.inl h0)


theorem telnet_plain_fits (room : Int) (chunk : List Nat) (h : (chunk.length : Int) ≤ room) :
    telnet_plain room chunk = { data := chunk, bytesleft := 0, error := false } := by
  unfold telnet_plain
  have h1 : chunk.length ≤ room.toNat := by omega
  rw [List.take_of_length_le h1, Nat.sub_eq_zero_of_le h1]

theorem editor_eta (st : editor) (h : st.closed = false) :
    (⟨st.line, st.lines, st.out, false⟩ : editor) = st := by
  cases st
  simp_all

theorem controller_session_refines (fuel : Nat) (o0 : List Nat) (chunks : List (List Nat)) :
    ∀ (c : controller_info) (seen : List Nat),
      c.inbuf.length = 256 →
      c.lines = (edit_run ⟨[], [], o0, false⟩ seen).lines →
      c.out = (edit_run ⟨[], [], o0, false⟩ seen).out →
      c.in_shutdown = (edit_run ⟨[], [], o0, false⟩ seen).closed →
      ((edit_run ⟨[], [], o0, false⟩ seen).closed = false →
        c.inbuf_count = (((edit_run ⟨[], [], o0, false⟩ seen).line.length : Nat) : Int) ∧
        c.inbuf.take (edit_run ⟨[], [], o0, false⟩ seen).line.length
          = (edit_run ⟨[], [], o0, false⟩ seen).line) →
      no_overflow seen chunks → (∀ ch ∈ chunks, ch.length ≤ fuel) →
      ∃ c1, controller_session fuel c chunks = some c1 ∧
        c1.lines = (edit_run ⟨[], [], o0, false⟩ (seen ++ chunks.flatten)).lines ∧
        c1.out = (edit_run ⟨[], [], o0, false⟩ (seen ++ chunks.flatten)).out ∧
        c1.in_shutdown = (edit_run ⟨[], [], o0, false⟩ (seen ++ chunks.flatten)).closed := by
  induction chunks with
  | nil =>
    intro c seen _ hl ho hs _ _ _
    refine ⟨c, rfl, ?_, ?_, ?_⟩ <;> simpa
  | cons ch rest ih =>
    intro c seen hlen hl ho hs hp hfit hfuel
    obtain ⟨hfit1, hfit2, hfit3⟩ := hfit
    have hjoin : seen ++ (ch :: rest).flatten = (seen ++ ch) ++ rest.flatten := by
      simp
    rw [hjoin]
    have happ := edit_run_append seen ch ⟨[], [], o0, false⟩ rfl
    unfold controller_session
    by_cases hcl : (edit_run ⟨[], [], o0, false⟩ seen).closed = true
    · rw [if_pos hcl] at happ
      have hsd : c.in_shutdown = true := by rw [hs, hcl]
      have hread : controller_read fuel c false
          (telnet_plain (INBUF_SIZE - c.inbuf_count) ch) = some c := by
        unfold controller_read
        rw [if_pos hsd]
      rw [hread]
      exact ih c (seen ++ ch) hlen (by rw [happ]; exact hl) (by rw [happ]; exact ho)
        (by rw [happ]; exact hs) (by rw [happ]; intro h; rw [hcl] at h; simp at h) hfit3
        (fun x hx => hfuel x (by simp [hx]))
    · rw [if_neg hcl] at happ
      have hcl2 : (edit_run ⟨[], [], o0, false⟩ seen).closed = false := by
        simpa using hcl
      obtain ⟨hcount, htake⟩ := hp hcl2
      have hline := (edit_run_lines seen [] [] o0).2 hcl2
      have he : edit_piece [] = [] := rfl
      rw [he] at hline
      rw [← hline] at hfit1 hfit2
      have hplain := telnet_plain_fits (INBUF_SIZE - c.inbuf_count) ch
        (by rw [hcount]; unfold INBUF_SIZE; omega)
      rw [hplain]
      have hnz : ∀ x ∈ c.inbuf.take (edit_run ⟨[], [], o0, false⟩ seen).line.length, x ≠ 0 := by
        rw [htake]
        exact edit_run_nonzero seen _ (by simp)
      obtain ⟨c1, hc1, hb1, ha1⟩ := controller_read_live fuel c ⟨ch, 0, false⟩
        (edit_run ⟨[], [], o0, false⟩ seen).line.length (by rw [hs, hcl2]) hlen hcount
        hfit2 hfit1 rfl rfl (hfuel ch (by simp))
      have hst : (⟨c.inbuf.take (edit_run ⟨[], [], o0, false⟩ seen).line.length,
          c.lines, c.out, false⟩ : editor) = edit_run ⟨[], [], o0, false⟩ seen := by
        rw [htake, hl, ho]
        exact editor_eta _ hcl2
      have hag := ha1 hnz
      rw [hst] at hag
      dsimp only at hag
      rw [← happ] at hag
      obtain ⟨g1, g2, g3, g4⟩ := hag
      rw [hc1]
      exact ih c1 (seen ++ ch) hb1.2.2.1 g1 g2
        (by rw [g3, hs, hcl2]; simp) g4 hfit3 (fun x hx => hfuel x (by simp [hx]))


theorem shutdown_controller_frame (c : controller_info) :
    (shutdown_controller c).inbuf = c.inbuf ∧ (shutdown_controller c).inbuf_count = c.inbuf_count ∧
    (shutdown_controller c).writes = c.writes ∧ (shutdown_controller c).lines = c.lines ∧
    (shutdown_controller c).out = c.out := by
  unfold shutdown_controller
  split_ifs <;> exact ⟨rfl, rfl, rfl, rfl, rfl⟩

/-- C16: a call of `controller_read` on a session with `0 <= inbuf_count <= 255`
and the 256 cells of `inbuf`, to which `process_telnet_data` hands no more
bytes than the room it was given, returns, and afterwards
`0 <= inbuf_count <= 255`, `inbuf` has its 256 cells and every index written is
at least 0 and below 256. If the session is not shut down and 255 bytes are
pending, or the read has no error and `process_telnet_data` leaves bytes
unprocessed (the data does not fit), the call emits "Input line too long\r\n",
sets `inbuf_count` to 0 and hands no line to `process_input_line`. A chunk
without telnet command that is longer than the room left is such a read. -/
theorem controller_read_overflow (fuel : Nat) (c : controller_info) (readerr : Bool)
    (tn : telnet_result) (hlen : c.inbuf.length = 256) (h0 : 0 ≤ c.inbuf_count)
    (h255 : c.inbuf_count ≤ 255) (hroom : (tn.data.length : Int) ≤ INBUF_SIZE - c.inbuf_count)
    (hfuel : tn.data.length ≤ fuel) :
    (∃ c1, controller_read fuel c readerr tn = some c1 ∧
      0 ≤ c1.inbuf_count ∧ c1.inbuf_count ≤ 255 ∧ c1.inbuf.length = 256 ∧
      (∀ w ∈ c1.writes, w ∈ c.writes ∨ (0 ≤ w ∧ w < 256)) ∧
      (c.in_shutdown = false →
        (c.inbuf_count = 255 ∨ (readerr = false ∧ tn.error = false ∧ tn.bytesleft ≠ 0)) →
        c1.out = c.out ++ bytes "Input line too long\r\n" ∧ c1.inbuf_count = 0 ∧
        c1.lines = c.lines)) ∧
    (∀ chunk : List Nat, INBUF_SIZE - c.inbuf_count < chunk.length →
      (telnet_plain (INBUF_SIZE - c.inbuf_count) chunk).bytesleft ≠ 0 ∧
      (telnet_plain (INBUF_SIZE - c.inbuf_count) chunk).error = false ∧
      ((telnet_plain (INBUF_SIZE - c.inbuf_count) chunk).data.length : Int)
        ≤ INBUF_SIZE - c.inbuf_count) := by
  unfold INBUF_SIZE at hroom ⊢
  constructor
  swap
  · intro chunk hch
    unfold telnet_plain
    dsimp only
    rw [List.length_take]
    refine ⟨?_, rfl, ?_⟩ <;> omega
  obtain ⟨n, hn⟩ := Int.eq_ofNat_of_zero_le h0
  have hn255 : n ≤ 255 := by omega
  by_cases hsd : c.in_shutdown = true
  · refine ⟨c, by unfold controller_read; rw [if_pos hsd], h0, h255, hlen,
      fun w hw => Or.inl hw, fun h => by rw [hsd] at h; simp at h⟩
  have hlive : c.in_shutdown = false := by simpa using hsd
  by_cases hfull : c.inbuf_count = 255
  · refine ⟨inbuf_overflow c, ?_, by simp [inbuf_overflow], by simp [inbuf_overflow],
      by simpa [inbuf_overflow, controller_outs] using hlen,
      fun w hw => Or.inl (by simpa [inbuf_overflow, controller_outs] using hw),
      fun _ _ => by simp [inbuf_overflow, controller_outs]⟩
    unfold controller_read
    rw [if_neg hsd, if_pos (by unfold INBUF_SIZE; exact hfull)]
  have hstore := inbuf_store_eq tn.data n c (by omega)
  by_cases hre : readerr = true
  · have hf := shutdown_controller_frame c
    refine ⟨shutdown_controller c, ?_, by rw [hf.2.1]; exact h0, by rw [hf.2.1]; exact h255,
      by rw [hf.1]; exact hlen, fun w hw => Or.inl (by rw [hf.2.2.1] at hw; exact hw),
      fun _ h => ?_⟩
    · unfold controller_read
      rw [if_neg hsd, if_neg (by unfold INBUF_SIZE; exact hfull), if_pos hre]
    · rcases h with h | h
      · exact absurd h hfull
      · rw [hre] at h; simp at h
  have hre2 : readerr = false := by simpa using hre
  by_cases herr : tn.error = true
  · have hf := shutdown_controller_frame (inbuf_store tn.data c.inbuf_count c)
    refine ⟨shutdown_controller (inbuf_store tn.data c.inbuf_count c), ?_, ?_, ?_, ?_, ?_,
      fun _ h => ?_⟩
    · unfold controller_read
      rw [if_neg hsd, if_neg (by unfold INBUF_SIZE; exact hfull), if_neg hre]
      dsimp only
      rw [if_pos herr]
    · rw [hf.2.1, hn, hstore]; exact hn ▸ h0
    · rw [hf.2.1, hn, hstore]; exact hn ▸ h255
    · rw [hf.1, hn, hstore]
      simp only [List.length_append, List.length_take, List.length_drop]
      omega
    · rw [hf.2.2.1, hn, hstore]
      exact writes_range_ok c.writes n _ (by omega)
    · rcases h with h | h
      · exact absurd h hfull
      · rw [herr] at h; simp at h
  have herr2 : tn.error = false := by simpa using herr
  by_cases hleft : tn.bytesleft = 0
  · obtain ⟨c1, hc1, hb1, _⟩ := controller_read_live fuel c tn n hlive hlen hn (by omega)
      (by omega) herr2 hleft hfuel
    rw [hre2]
    refine ⟨c1, hc1, hb1.1, hb1.2.1, hb1.2.2.1, hb1.2.2.2, fun _ h => ?_⟩
    rcases h with h | h
    · exact absurd h hfull
    · exact absurd hleft h.2.2
  · refine ⟨inbuf_overflow (inbuf_store tn.data c.inbuf_count c), ?_, by simp [inbuf_overflow],
      by simp [inbuf_overflow], ?_, ?_, fun _ _ => ?_⟩
    · unfold controller_read
      rw [if_neg hsd, if_neg (by unfold INBUF_SIZE; exact hfull), if_neg hre]
      dsimp only
      rw [if_neg herr, if_pos hleft]
    · rw [hn, hstore]
      simp only [inbuf_overflow, controller_outs, List.length_append, List.length_take,
        List.length_drop]
      omega
    · rw [hn, hstore]
      simp only [inbuf_overflow, controller_outs]
      exact writes_range_ok c.writes n _ (by omega)
    · rw [hn, hstore]
      simp [inbuf_overflow, controller_outs]


theorem controller_read_overflow_witness :
    ∃ c1, controller_read 0 full_session false ⟨[], 3, false⟩ = some c1 ∧
      c1.out = full_session.out ++ bytes "Input line too long\r\n" ∧ c1.inbuf_count = 0 ∧
      c1.lines = full_session.lines := by
  obtain ⟨c1, h1, _, _, _, _, h6⟩ :=
    (controller_read_overflow 0 full_session false ⟨[], 3, false⟩
      (List.length_replicate 256 97) (by decide) (by decide) (by decide) (by decide)).1
  exact ⟨c1, h1, h6 rfl (Or.inl rfl)⟩

/-- C15, as amended: a session that is not shut down and has nothing pending is
fed a byte stream in chunks of any sizes, without telnet command and without
overflow. Then every read returns, and the lines handed to
`process_input_line` are those of the reference (the stream cut at each
carriage return; in each piece 0x00 and `\n` dropped, each `\b` or 0x7f
deleting the last retained character of the line, nothing when the line is
empty) up to and including the first line whose first word is `exit` or
`quit`: that line shuts the session down and nothing after it is looked at.
The echo is that of the one-pass editor, which echoes a deletion only when the
line is not empty. And `remove_chars (pos, count)` deletes exactly the `count`
pending bytes that end at index `pos`, lowers `inbuf_count` by `count` and
returns `pos - count`. -/
theorem controller_line_editor (fuel : Nat) (c : controller_info) (chunks : List (List Nat))
    (hlive : c.in_shutdown = false) (hlen : c.inbuf.length = 256) (hcount : c.inbuf_count = 0)
    (hlines : c.lines = []) (hfit : no_overflow [] chunks)
    (hfuel : ∀ ch ∈ chunks, ch.length ≤ fuel) :
    (∃ c1, controller_session fuel c chunks = some c1 ∧
      c1.lines = until_closed (ref_lines chunks.flatten) ∧
      c1.out = (edit_run ⟨[], [], c.out, false⟩ chunks.flatten).out) ∧
    (∀ (s : controller_info) (pos count n : Nat), 1 ≤ count → count ≤ pos + 1 →
      s.inbuf_count = (n : Int) → pos < n → n ≤ s.inbuf.length →
      (remove_chars s (pos : Int) (count : Int)).2 = (pos : Int) - count ∧
      (remove_chars s (pos : Int) (count : Int)).1.inbuf_count = s.inbuf_count - count ∧
      (remove_chars s (pos : Int) (count : Int)).1.inbuf.take (n - count) =
        (s.inbuf.take n).take (pos + 1 - count) ++ (s.inbuf.take n).drop (pos + 1)) := by
  constructor
  · obtain ⟨c1, h1, h2, h3, _⟩ := controller_session_refines fuel c.out chunks c [] hlen
      (by rw [hlines]; rfl) rfl (by rw [hlive]; rfl)
      (fun _ => ⟨by rw [hcount]; rfl, rfl⟩) hfit hfuel
    refine ⟨c1, h1, ?_, by simpa using h3⟩
    rw [h2, List.nil_append]
    have := (edit_run_lines chunks.flatten [] [] c.out).1
    rw [List.nil_append] at this
    exact this
  · intro s pos count n hc hpc hn hpn hlen2
    refine ⟨?_, ?_, remove_chars_pending s pos count n hc hpc hn hpn hlen2⟩
    · rw [remove_chars_eq s pos count n hc hpc hn hpn hlen2]
    · rw [remove_chars_eq s pos count n hc hpc hn hpn hlen2, hn]
      dsimp only
      omega

theorem controller_line_editor_witness :
    (∃ c1, controller_session 4 new_controller [bytes "ab\x08c", bytes "\rx\x00\r"] = some c1 ∧
      c1.lines = [bytes "ac", bytes "x"]) ∧
    (remove_chars abcde_session ((3 : Nat) : Int) ((2 : Nat) : Int)).1.inbuf.take (5 - 2)
      = bytes "abe" ∧
    (remove_chars abcde_session ((3 : Nat) : Int) ((2 : Nat) : Int)).2 = 1 := by
  have h := controller_line_editor 4 new_controller [bytes "ab\x08c", bytes "\rx\x00\r"]
    rfl (List.length_replicate 256 0) rfl rfl ⟨by decide, by decide, by decide, by decide, trivial⟩
    (by decide)
  obtain ⟨c1, h1, h2, _⟩ := h.1
  have hr := h.2 abcde_session 3 2 5 (by decide) (by decide) rfl (by decide)
    (by
      show 5 ≤ (bytes "abcde" ++ List.replicate 251 0).length
      rw [List.length_append, List.length_replicate]
      exact Nat.le_trans (by decide) (Nat.le_add_left 251 _))
  exact ⟨⟨c1, h1, h2.trans (by decide)⟩, hr.2.2.trans (by decide), hr.1.trans (by decide)⟩

/-- C15, a counterexample to the claim as worded: the stream "exit\rhelp\r"
arrives in one chunk, with no telnet command and no overflow. The reference
gives the two lines "exit" and "help"; `controller_read` hands only "exit" to
`process_input_line`, which shuts the session down, and leaves the loop. -/
theorem controller_lines_after_exit_counterexample :
    no_overflow [] [bytes "exit\rhelp\r"] ∧
    (controller_session 10 new_controller [bytes "exit\rhelp\r"]).map (fun c => c.lines)
      = some [bytes "exit"] ∧
    ref_lines (bytes "exit\rhelp\r") = [bytes "exit", bytes "help"] := by
  refine ⟨⟨by decide, by decide, trivial⟩, by decide, by decide⟩

/-! ## Modem control set/get (C29) -/

/-- C29, the code at the failing inputs: whatever the values of the constants
(with `SERGENIO_DTR_OFF` non-zero and different from `SERGENIO_DTR_ON`), for
every modem-control word `m` in which DTR is set, `termios_get_set_dtr` with
`SERGENIO_DTR_OFF` returns 0 and leaves the word `m & TIOCM_DTR`: DTR is still
set, so the query that follows reports `SERGENIO_DTR_ON`, and every other bit
is cleared. The same holds for `termios_get_set_rts`. -/
theorem dtr_off_keeps_dtr_at_failing_input (bit : Nat) (von voff : Int) (m : Nat)
    (hoff : voff ≠ 0) (hne : voff ≠ von) (hset : m &&& bit ≠ 0) :
    termios_get_set_dtr bit von voff m voff = (m &&& bit, voff, 0) ∧
    termios_get_set_dtr bit von voff (termios_get_set_dtr bit von voff m voff).1 0
      = (m &&& bit, von, 0) ∧
    termios_get_set_rts bit von voff m voff = (m &&& bit, voff, 0) ∧
    termios_get_set_rts bit von voff (termios_get_set_rts bit von voff m voff).1 0
      = (m &&& bit, von, 0) := by
  have h1 : termios_get_set_dtr bit von voff m voff = (m &&& bit, voff, 0) := by
    unfold termios_get_set_dtr
    rw [if_pos hoff, if_neg hne, if_pos rfl]
  have h2 : termios_get_set_rts bit von voff m voff = (m &&& bit, voff, 0) := by
    unfold termios_get_set_rts
    rw [if_pos hoff, if_neg hne, if_pos rfl]
  have h3 : (m &&& bit) &&& bit ≠ 0 := by
    rw [Nat.and_assoc, Nat.and_self]; exact hset
  refine ⟨h1, ?_, h2, ?_⟩
  · rw [h1]
    unfold termios_get_set_dtr
    rw [if_neg (by simp), if_pos h3]
  · rw [h2]
    unfold termios_get_set_rts
    rw [if_neg (by simp), if_pos h3]

theorem dtr_off_keeps_dtr_at_failing_input_witness :
    termios_get_set_dtr 2 1 2 6 2 = (2, 2, 0) ∧
    termios_get_set_dtr 2 1 2 (termios_get_set_dtr 2 1 2 6 2).1 0 = (2, 1, 0) ∧
    termios_get_set_rts 4 1 2 6 2 = (4, 2, 0) ∧
    termios_get_set_rts 4 1 2 (termios_get_set_rts 4 1 2 6 2).1 0 = (4, 1, 0) :=
  ⟨(dtr_off_keeps_dtr_at_failing_input 2 1 2 6 (by decide) (by decide) (by decide)).1,
   (dtr_off_keeps_dtr_at_failing_input 2 1 2 6 (by decide) (by decide) (by decide)).2.1,
   (dtr_off_keeps_dtr_at_failing_input 4 1 2 6 (by decide) (by decide) (by decide)).2.2.1,
   (dtr_off_keeps_dtr_at_failing_input 4 1 2 6 (by decide) (by decide) (by decide)).2.2.2⟩

/-! ## Timeval arithmetic (C30) -/

theorem sub_timeval_loop_usecs (fuel : Nat) : ∀ dest : timeval,
    (sub_timeval_loop fuel dest).usecs = dest.usecs := by
  induction fuel with
  | zero => intro dest; rfl
  | succ n ih =>
    intro dest
    unfold sub_timeval_loop
    split_ifs with h
    · rw [ih]
      unfold timeval.usecs
      dsimp only
      omega
    · rfl

theorem sub_timeval_loop_done (fuel : Nat) : ∀ dest : timeval,
    ((-dest.tv_usec).toNat + 999999) / 1000000 ≤ fuel →
    0 ≤ (sub_timeval_loop fuel dest).tv_usec := by
  induction fuel with
  | zero =>
    intro dest h
    unfold sub_timeval_loop
    omega
  | succ n ih =>
    intro dest h
    unfold sub_timeval_loop
    split_ifs with h1
    · apply ih
      dsimp only
      omega
    · omega

/-- C30, the code at the failing input: for `t = {100 s, 0 us}` and
`u = 1000000`, `add_usec_to_timeval` gives `{101, 1000000}`, which
`sub_timeval_us` measures as 2000000 microseconds after `t`, not 1000000: the
whole of `u` goes to `tv_usec` and the full seconds of `u` are added to
`tv_sec` as well. The other half of the claim holds: for all timevals
`sub_timeval_us (a, b)` is `(a.tv_sec - b.tv_sec) * 1000000 +
(a.tv_usec - b.tv_usec)` as a C `int`, and its loop ends with
`dest.tv_usec >= 0`. -/
theorem add_usec_counts_seconds_twice_at_failing_input :
    add_usec_to_timeval ⟨100, 0⟩ 1000000 = ⟨101, 1000000⟩ ∧
    sub_timeval_us (add_usec_to_timeval ⟨100, 0⟩ 1000000) ⟨100, 0⟩ = 2000000 ∧
    (∀ a b : timeval, sub_timeval_us a b
      = int32 ((a.tv_sec - b.tv_sec) * 1000000 + (a.tv_usec - b.tv_usec))) ∧
    (∀ a b : timeval,
      0 ≤ (sub_timeval_loop ((-(a.tv_usec - b.tv_usec)).toNat / 1000000 + 1)
        ⟨a.tv_sec - b.tv_sec, a.tv_usec - b.tv_usec⟩).tv_usec) := by
  refine ⟨by decide, by decide, fun a b => ?_, fun a b => ?_⟩
  · unfold sub_timeval_us
    dsimp only
    have := sub_timeval_loop_usecs ((-(a.tv_usec - b.tv_usec)).toNat / 1000000 + 1)
      ⟨a.tv_sec - b.tv_sec, a.tv_usec - b.tv_usec⟩
    unfold timeval.usecs at this
    rw [this]
  · exact sub_timeval_loop_done _ _ (by dsimp only; omega)

/-! ## Removal of stale ports (C28) -/

theorem change_port_state_disabled (p : port_info) (inuse : Bool) (env : startup_env) :
    (change_port_state p PORT_DISABLED inuse env).1 =
      if p.enabled = PORT_DISABLED then p
      else { p with enabled := PORT_DISABLED, acceptfds := none,
                    nr_acceptfds := if p.acceptfds.isSome then 0 else p.nr_acceptfds } := by
  unfold change_port_state
  by_cases h : p.enabled = PORT_DISABLED
  · rw [if_pos h, if_pos h]
  · rw [if_neg h, if_pos rfl, if_neg h]
    dsimp only
    cases hfd : p.acceptfds with
    | none =>
      rw [hfd] at *
      rfl
    | some l =>
      rw [hfd] at *
      rfl

/-- C28: after `clear_old_port_config (c)` the list holds, in their original
order, the ports that had `config_num == c`, unchanged, and the ports of
another generation that were not idle, each now with `config_num == -1` and
`enabled == Disabled` (its listening sockets closed, its names and session
state as before); every idle port of another generation is gone. -/
theorem clear_old_port_config_spec (c : Int) (env : startup_env) (ports : List port_info) :
    (clear_old_port_config c env ports).1 = ports.filterMap (stale_port c) ∧
    (∀ p : port_info, p.config_num = c → stale_port c p = some p) ∧
    (∀ p : port_info, p.config_num ≠ c → p.dev_to_tcp_state = PORT_UNCONNECTED →
      stale_port c p = none) ∧
    (∀ p : port_info, p.config_num ≠ c → p.dev_to_tcp_state ≠ PORT_UNCONNECTED →
      ∃ q, stale_port c p = some q ∧ q.config_num = -1 ∧ q.enabled = PORT_DISABLED ∧
        q.portname = p.portname ∧ q.devname = p.devname ∧
        q.dev_to_tcp_state = p.dev_to_tcp_state ∧ q.tcp_to_dev_state = p.tcp_to_dev_state ∧
        q.tcpfd = p.tcpfd) := by
  have hkeep : ∀ p : port_info, p.config_num = c → stale_port c p = some p := by
    intro p h
    unfold stale_port
    rw [if_pos h]
  have hgone : ∀ p : port_info, p.config_num ≠ c → p.dev_to_tcp_state = PORT_UNCONNECTED →
      stale_port c p = none := by
    intro p h1 h2
    unfold stale_port
    rw [if_neg h1, if_pos h2]
  have hmark : ∀ p : port_info, p.config_num ≠ c → p.dev_to_tcp_state ≠ PORT_UNCONNECTED →
      stale_port c p
        = some (change_port_state { p with config_num := -1 } PORT_DISABLED false env).1 := by
    intro p h1 h2
    unfold stale_port
    rw [if_neg h1, if_neg h2, change_port_state_disabled]
    dsimp only
    by_cases h3 : p.enabled = PORT_DISABLED
    · rw [if_pos h3, if_pos h3]
    · rw [if_neg h3, if_neg h3]
  refine ⟨?_, hkeep, hgone, fun p h1 h2 => ?_⟩
  · induction ports with
    | nil => rfl
    | cons curr rest ih =>
      unfold clear_old_port_config
      dsimp only
      rw [List.filterMap_cons]
      by_cases h1 : curr.config_num = c
      · rw [if_neg (not_not.mpr h1), hkeep curr h1]
        dsimp only
        rw [ih]
      · rw [if_pos h1]
        by_cases h2 : curr.dev_to_tcp_state = PORT_UNCONNECTED
        · rw [if_pos h2, hgone curr h1 h2]
          dsimp only
          rw [ih]
        · rw [if_neg h2, hmark curr h1 h2]
          dsimp only
          rw [ih]
  · unfold stale_port
    rw [if_neg h1, if_neg h2]
    by_cases h3 : p.enabled = PORT_DISABLED
    · rw [if_pos h3]
      exact ⟨_, rfl, rfl, h3, rfl, rfl, rfl, rfl, rfl⟩
    · rw [if_neg h3]
      exact ⟨_, rfl, rfl, rfl, rfl, rfl, rfl, rfl, rfl⟩

theorem clear_old_port_config_spec_witness :
    (clear_old_port_config 0 startup_ok stale_ports).1 =
      stale_ports.filterMap (stale_port 0) ∧
    stale_port 0 listening_port = some listening_port ∧
    stale_port 0 stale_idle_port = none ∧
    (∃ q, stale_port 0 stale_busy_port = some q ∧ q.config_num = -1 ∧
      q.enabled = PORT_DISABLED ∧ q.portname = stale_busy_port.portname) := by
  have h := clear_old_port_config_spec 0 startup_ok stale_ports
  obtain ⟨q, h1, h2, h3, h4, _⟩ := h.2.2.2 stale_busy_port (by decide) (by decide)
  exact ⟨h.1, h.2.1 listening_port rfl, h.2.2.1 stale_idle_port (by decide) rfl,
    q, h1, h2, h3, h4⟩

/-! ## RFC 2217 gating (C21) -/

theorem telnet_output_ready_2217 (port : port_info) :
    (telnet_output_ready port).is_2217 = port.is_2217 ∧
    (telnet_output_ready port).allow_2217 = port.allow_2217 ∧
    (telnet_output_ready port).linestate_mask = port.linestate_mask ∧
    (telnet_output_ready port).modemstate_mask = port.modemstate_mask ∧
    (telnet_output_ready port).last_modemstate = port.last_modemstate := by
  unfold telnet_output_ready
  split_ifs <;> exact ⟨rfl, rfl, rfl, rfl, rfl⟩

theorem com_port_will_off (port : port_info) (modem : Option Nat)
    (h : port.allow_2217 = false) : com_port_will port modem = (port, [], 0) := by
  unfold com_port_will
  rw [h]
  rfl

theorem com_port_will_on (port : port_info) (modem : Option Nat)
    (h : port.allow_2217 = true) :
    com_port_will port modem =
      (telnet_output_ready (will_state port ((modem.map (fun m => m % 256)).getD 0)),
       [Event.telnet_option [44, 107, (modem.map (fun m => m % 256)).getD 0]], 1) := by
  unfold com_port_will telnet_send_option will_state
  rw [h]
  cases modem <;> rfl

theorem will_step_allow (port : port_info) (s : will_step) (hs : s ≠ .config "-remctl") :
    (port.is_2217 = true → port.allow_2217 = true) →
    ((s.run port).is_2217 = true → (s.run port).allow_2217 = true) := by
  intro hinv
  cases s with
  | will modem =>
    unfold will_step.run
    dsimp only
    cases ha : port.allow_2217 with
    | false =>
      rw [com_port_will_off port modem ha]
      dsimp only
      intro h
      rw [hinv h] at ha
      exact absurd ha (by simp)
    | true =>
      rw [com_port_will_on port modem ha]
      dsimp only
      intro _
      rw [(telnet_output_ready_2217 _).2.1]
      exact ha
  | config pos =>
    unfold will_step.run myconfig
    dsimp only
    by_cases h1 : pos = "remctl"
    · rw [if_pos h1]
      intro _
      rfl
    · rw [if_neg h1]
      by_cases h2 : pos = "-remctl"
      · exact absurd (by rw [h2]) hs
      · rw [if_neg h2]
        exact hinv

theorem will_run_allow (steps : List will_step) :
    ∀ port : port_info, (∀ s ∈ steps, s ≠ .config "-remctl") →
      (port.is_2217 = true → port.allow_2217 = true) →
      ((will_run port steps).is_2217 = true → (will_run port steps).allow_2217 = true) := by
  induction steps with
  | nil => intro port _ h; exact h
  | cons s rest ih =>
    intro port hs hinv
    unfold will_run
    rw [List.foldl_cons]
    exact ih (s.run port) (fun x hx => hs x (by simp [hx]))
      (will_step_allow port s (hs s (by simp)) hinv)

/-- C21, as amended: `com_port_will` returns 0, sends nothing and changes no
field when `allow_2217` is false. When it is true it returns 1, sets
`is_2217`, `linestate_mask = 0`, `modemstate_mask = 255`, sets
`last_modemstate` to the modem state read from the device (0 when the read
fails) and queues exactly one suboption 44, 107 and that state. Starting from
`is_2217 == 0`, as `setup_tcp_port` leaves it, `is_2217` is non-zero only on a
port with `allow_2217` set as long as no `-remctl` is applied to the live
port. -/
theorem com_port_will_gating (port : port_info) (modem : Option Nat)
    (steps : List will_step) :
    (port.allow_2217 = false → com_port_will port modem = (port, [], 0)) ∧
    (port.allow_2217 = true →
      (com_port_will port modem).2.2 = 1 ∧
      (com_port_will port modem).1.is_2217 = true ∧
      (com_port_will port modem).1.linestate_mask = 0 ∧
      (com_port_will port modem).1.modemstate_mask = 255 ∧
      (com_port_will port modem).1.last_modemstate = (modem.map (fun m => m % 256)).getD 0 ∧
      (com_port_will port modem).1.allow_2217 = true ∧
      (com_port_will port modem).2.1
        = [Event.telnet_option [44, 107, (modem.map (fun m => m % 256)).getD 0]]) ∧
    ((∀ s ∈ steps, s ≠ .config "-remctl") → port.is_2217 = false →
      (will_run port steps).is_2217 = true → (will_run port steps).allow_2217 = true) := by
  refine ⟨com_port_will_off port modem, fun h => ?_, fun hs h0 =>
    will_run_allow steps port hs (fun h => by rw [h0] at h; simp at h)⟩
  rw [com_port_will_on port modem h]
  have hf := telnet_output_ready_2217
    (will_state port ((modem.map (fun m => m % 256)).getD 0))
  exact ⟨rfl, hf.1, hf.2.2.1, hf.2.2.2.1, hf.2.2.2.2, hf.2.1.trans h, rfl⟩

theorem com_port_will_gating_witness :
    com_port_will telnet_port (some 48) = (telnet_port, [], 0) ∧
    (com_port_will remctl_port (some 48)).2.1 = [Event.telnet_option [44, 107, 48]] ∧
    ((will_run remctl_port [.will none, .config "remctl", .will (some 48)]).is_2217 = true →
      (will_run remctl_port [.will none, .config "remctl", .will (some 48)]).allow_2217
        = true) :=
  ⟨(com_port_will_gating telnet_port (some 48) []).1 rfl,
   ((com_port_will_gating remctl_port (some 48) []).2.1 rfl).2.2.2.2.2.2,
   (com_port_will_gating remctl_port none
      [.will none, .config "remctl", .will (some 48)]).2.2 (by decide) rfl⟩

/-- C21, a counterexample to the last sentence of the claim as worded: on a
port configured with `remctl` the peer's WILL sets `is_2217`; `-remctl`, set
on the live port afterwards, clears `allow_2217` and leaves `is_2217` as it
is. So within the session `is_2217` is non-zero on a port whose `allow_2217`
is not set. -/
theorem is_2217_without_allow_counterexample :
    remctl_port.is_2217 = false ∧
    (will_run remctl_port [.will (some 48), .config "-remctl"]).is_2217 = true ∧
    (will_run remctl_port [.will (some 48), .config "-remctl"]).allow_2217 = false := by
  decide

/-! ## Trace written once (C22) -/

/-- C22, the code at the failing input: with `tr` and `tb` configured with the
same file name, `setup_trace` opens one fd (9) and makes `tb` equal to `tr`;
then a device read of the byte 65 hands that byte to `do_trace` twice for that
fd, once through `tr` and once through `tb`, so the file receives it twice.
With `tw` and `tb` on the same file the same happens to the bytes of a socket
read. -/
theorem trace_written_twice_at_failing_input :
    (setup_trace read_both_port setup_traced).tr = some .read ∧
    (setup_trace read_both_port setup_traced).tb = some .read ∧
    (setup_trace read_both_port setup_traced).trace_read.fd = 9 ∧
    (setup_trace read_both_port setup_traced).trace_both.fd = -1 ∧
    traced_to 9 (handle_dev_fd_read (setup_trace read_both_port setup_traced)
      (.data [65]) ⟨100, 0⟩ (.count 1)).2 = [[65], [65]] ∧
    (setup_trace write_both_port setup_traced).tw = some .write ∧
    (setup_trace write_both_port setup_traced).tb = some .write ∧
    traced_to 10 (handle_tcp_fd_read (setup_trace write_both_port setup_traced)
      (.data [66]) (fun b => (b, false)) (.count 1)).2 = [[66], [66]] := by
  decide

/-! ## Telnet escaping room (C24) -/

/-- Any fuel of at least `count - i` gives `iac_double_loop` the same result:
the fuel `count` that `handle_dev_fd_read` starts the loop with at `i = 0` is
enough for the loop to run to its end. -/
theorem iac_double_loop_fuel (fuel1 fuel2 : Nat) :
    ∀ (i count : Nat) (buf : List Nat), count - i ≤ fuel1 → count - i ≤ fuel2 →
      iac_double_loop fuel1 i count buf = iac_double_loop fuel2 i count buf := by
  induction fuel1 generalizing fuel2 with
  | zero =>
    intro i count buf h1 h2
    cases fuel2 with
    | zero => rfl
    | succ f2 =>
      unfold iac_double_loop
      rw [if_neg (by omega)]
  | succ f1 ih =>
    intro i count buf h1 h2
    cases fuel2 with
    | zero =>
      unfold iac_double_loop
      rw [if_neg (by omega)]
    | succ f2 =>
      unfold iac_double_loop
      by_cases hi : i < count
      · rw [if_pos hi, if_pos hi]
        by_cases hb : buf.getD i 0 = 255
        · rw [if_pos hb, if_pos hb]
          exact ih f2 _ _ _ (by omega) (by omega)
        · rw [if_neg hb, if_neg hb]
          exact ih f2 _ _ _ (by omega) (by omega)
      · rw [if_neg hi, if_neg hi]

/-- C24, the code at the failing input: a telnet port whose `dev_to_tcp` is
empty and has `maxsize` 2 reads one byte (what the reservation of half the
room allows), and the byte is 255. The doubling loop then reads `buf[0]`,
reads `buf[1]`, writes `buf[2]` and writes `buf[1]`: index 2 is `maxsize`, one
past the end of the storage. The committed `cursize` is 2, within `maxsize`.
The same happens with `maxsize` 8 and four bytes 255: index 8 is written. -/
theorem iac_doubling_writes_at_maxsize_at_failing_input :
    telnet_port2.dev_to_tcp.cursize = 0 ∧ telnet_port2.dev_to_tcp.maxsize = 2 ∧
    telnet_port2.dev_to_tcp.buf.length = 2 ∧
    dev_read_stored telnet_port2 [255] = ([255, 0], 1) ∧
    dev_read_iac_touched telnet_port2 [255] = [0, 1, 2, 1] ∧
    (handle_dev_fd_read telnet_port2 (.data [255]) ⟨100, 0⟩ .eagain).1.dev_to_tcp.cursize = 2 ∧
    committed (handle_dev_fd_read telnet_port2 (.data [255]) ⟨100, 0⟩ .eagain).1 =
      [255, 255] ∧
    telnet_port.dev_to_tcp.maxsize = 8 ∧
    (dev_read_stored telnet_port [255, 255, 255, 255]).2 = 4 ∧
    8 ∈ dev_read_iac_touched telnet_port [255, 255, 255, 255] ∧
    (handle_dev_fd_read telnet_port (.data [255, 255, 255, 255]) ⟨100, 0⟩
      .eagain).1.dev_to_tcp.cursize = 8 := by
  refine ⟨?_, ?_, ?_, ?_, ?_, ?_, ?_, ?_, ?_, ?_, ?_⟩ <;> decide

/-! ## Closeon match position (C27) -/

/-- C27, the code at the failing input: the port has the closeon string "b"
(`closeon_len` 1). The device delivers "b": the scan advances `closeon_pos`
to 1, sets `close_on_output_done` and leaves `closeon_pos` at 1, which is
`closeon_len`. A further read in the same session (before `send_timer`
expires) therefore compares with `closeon[1]`. The teardown of the session
does not touch `closeon_pos`, nor does the setup of the next one: the port of
the next client starts with `closeon_pos` 1, and the first byte the device
delivers is compared with `closeon[1]`, the index after the closeon string. -/
theorem closeon_pos_left_at_len_at_failing_input :
    closeon_port.closeon_pos = 0 ∧ closeon_port.closeon_len = 1 ∧
    dev_read_closeon_indices closeon_port [98] = [0] ∧
    (handle_dev_fd_read closeon_port (.data [98]) ⟨100, 0⟩ .eagain).1.closeon_pos = 1 ∧
    (handle_dev_fd_read closeon_port (.data [98]) ⟨100, 0⟩
      .eagain).1.close_on_output_done = true ∧
    (handle_dev_fd_read closeon_port (.data [98]) ⟨100, 0⟩
      .eagain).1.dev_read_enabled = true ∧
    dev_read_closeon_indices
      (handle_dev_fd_read closeon_port (.data [98]) ⟨100, 0⟩ .eagain).1 [99] = [1] ∧
    closeon_matched.dev_to_tcp_state = PORT_CLOSING ∧
    closeon_matched.closeon_pos = 1 ∧
    closeon_closed.length = 1 ∧
    closeon_reconnected.tcp_to_dev_state = PORT_WAITING_INPUT ∧
    closeon_reconnected.dev_to_tcp_state = PORT_WAITING_INPUT ∧
    closeon_reconnected.dev_read_enabled = true ∧
    closeon_reconnected.dev_to_tcp.cursize = 0 ∧
    closeon_reconnected.closeon = some [98] ∧
    closeon_reconnected.closeon_len = 1 ∧
    closeon_reconnected.closeon_pos = 1 ∧
    dev_read_closeon_indices closeon_reconnected [97] = [1] := by
  refine ⟨?_, ?_, ?_, ?_, ?_, ?_, ?_, ?_, ?_, ?_, ?_, ?_, ?_, ?_, ?_, ?_, ?_, ?_⟩ <;> decide

/-! ## Template expansion: the sink does not matter -/

/-- The two sinks of a walk of `process_str_loop` stay related when each call
of `op` keeps them related. -/
theorem process_str_loop_rel {δ δ' : Type} (R : δ → δ' → Prop) (port : port_info)
    (env : str_env) (time : tm) (tv : timeval) (op : δ → Nat → δ) (op' : δ' → Nat → δ')
    (isfilename : Bool) (hstep : ∀ d d' c, R d d' → R (op d c) (op' d' c)) :
    ∀ (fuel : Nat) (s : List Nat) d d', R d d' →
      R (process_str_loop port env time tv op isfilename fuel s d)
        (process_str_loop port env time tv op' isfilename fuel s d') := by
  have hfold : ∀ (l : List Nat) d d', R d d' → R (l.foldl op d) (l.foldl op' d') := by
    intro l
    induction l with
    | nil => intro d d' h; exact h
    | cons a l ihl => intro d d' h; exact ihl _ _ (hstep _ _ _ h)
  intro fuel
  induction fuel with
  | zero => intro s d d' h; unfold process_str_loop; exact h
  | succ n ih =>
    intro s d d' h
    cases s with
    | nil => unfold process_str_loop; exact h
    | cons c s =>
      unfold process_str_loop
      by_cases hc : c ≠ 92
      · rw [if_pos hc, if_pos hc]
        exact ih s _ _ (hstep _ _ _ h)
      · rw [if_neg hc, if_neg hc]
        cases s with
        | nil => exact h
        | cons e s1 =>
          dsimp only
          by_cases ho : 48 ≤ e ∧ e ≤ 55
          · rw [if_pos ho, if_pos ho]
            cases s1 with
            | nil => exact hstep _ _ _ h
            | cons c2 s2 =>
              dsimp only
              by_cases h2 : (!isdigit c2) = true
              · rw [if_pos h2, if_pos h2]; exact ih _ _ _ h
              · rw [if_neg h2, if_neg h2]
                cases s2 with
                | nil => exact hstep _ _ _ h
                | cons c3 s3 =>
                  dsimp only
                  by_cases h3 : (!isdigit c3) = true
                  · rw [if_pos h3, if_pos h3]; exact ih _ _ _ h
                  · rw [if_neg h3, if_neg h3]; exact ih _ _ _ h
          · rw [if_neg ho, if_neg ho]
            by_cases hx : e = 120
            · rw [if_pos hx, if_pos hx]
              cases s1 with
              | nil => exact h
              | cons c2 s2 =>
                dsimp only
                by_cases h2 : (!isxdigit c2) = true
                · rw [if_pos h2, if_pos h2]; exact ih _ _ _ h
                · rw [if_neg h2, if_neg h2]
                  cases s2 with
                  | nil => exact hstep _ _ _ h
                  | cons c3 s3 =>
                    dsimp only
                    by_cases h3 : (!isdigit c3) = true
                    · rw [if_pos h3, if_pos h3]; exact ih _ _ _ h
                    · rw [if_neg h3, if_neg h3]; exact ih _ _ _ h
            · rw [if_neg hx, if_neg hx]
              exact ih _ _ _ (hfold _ _ _ h)

/-- Any fuel of at least the length of the template gives `process_str_loop`
the same result: the loop of `process_str` runs to its end. -/
theorem process_str_loop_fuel {δ : Type} (port : port_info) (env : str_env) (time : tm)
    (tv : timeval) (op : δ → Nat → δ) (isfilename : Bool) (f1 : Nat) :
    ∀ (f2 : Nat) (s : List Nat) (d : δ), s.length ≤ f1 → s.length ≤ f2 →
      process_str_loop port env time tv op isfilename f1 s d =
        process_str_loop port env time tv op isfilename f2 s d := by
  induction f1 with
  | zero =>
    intro f2 s d h1 h2
    cases s with
    | nil => cases f2 <;> (unfold process_str_loop; rfl)
    | cons c s => simp at h1
  | succ n ih =>
    intro f2 s d h1 h2
    cases s with
    | nil => cases f2 <;> (unfold process_str_loop; rfl)
    | cons c s =>
      cases f2 with
      | zero => simp at h2
      | succ m =>
        have l1 : s.length ≤ n := by simp at h1; omega
        have l2 : s.length ≤ m := by simp at h2; omega
        unfold process_str_loop
        by_cases hc : c ≠ 92
        · rw [if_pos hc, if_pos hc]
          exact ih m s _ l1 l2
        · rw [if_neg hc, if_neg hc]
          cases s with
          | nil => rfl
          | cons e s1 =>
            have l3 : s1.length ≤ n := by simp at l1; omega
            have l4 : s1.length ≤ m := by simp at l2; omega
            dsimp only
            by_cases ho : 48 ≤ e ∧ e ≤ 55
            · rw [if_pos ho, if_pos ho]
              cases s1 with
              | nil => rfl
              | cons c2 s2 =>
                have l5 : s2.length ≤ n := by simp at l3; omega
                have l6 : s2.length ≤ m := by simp at l4; omega
                dsimp only
                by_cases h2 : (!isdigit c2) = true
                · rw [if_pos h2, if_pos h2]; exact ih m _ _ l3 l4
                · rw [if_neg h2, if_neg h2]
                  cases s2 with
                  | nil => rfl
                  | cons c3 s3 =>
                    have l7 : s3.length ≤ n := by simp at l5; omega
                    have l8 : s3.length ≤ m := by simp at l6; omega
                    dsimp only
                    by_cases h3 : (!isdigit c3) = true
                    · rw [if_pos h3, if_pos h3]; exact ih m _ _ l5 l6
                    · rw [if_neg h3, if_neg h3]; exact ih m _ _ l7 l8
            · rw [if_neg ho, if_neg ho]
              by_cases hx : e = 120
              · rw [if_pos hx, if_pos hx]
                cases s1 with
                | nil => rfl
                | cons c2 s2 =>
                  have l5 : s2.length ≤ n := by simp at l3; omega
                  have l6 : s2.length ≤ m := by simp at l4; omega
                  dsimp only
                  by_cases h2 : (!isxdigit c2) = true
                  · rw [if_pos h2, if_pos h2]; exact ih m _ _ l3 l4
                  · rw [if_neg h2, if_neg h2]
                    cases s2 with
                    | nil => rfl
                    | cons c3 s3 =>
                      have l7 : s3.length ≤ n := by simp at l5; omega
                      have l8 : s3.length ≤ m := by simp at l6; omega
                      dsimp only
                      by_cases h3 : (!isdigit c3) = true
                      · rw [if_pos h3, if_pos h3]; exact ih m _ _ l5 l6
                      · rw [if_neg h3, if_neg h3]; exact ih m _ _ l7 l8
              · rw [if_neg hx, if_neg hx]
                exact ih m _ _ l3 l4

/-- Whatever the sink, `process_str` hands it the characters of the
expansion, in order. -/
theorem process_str_expansion {δ : Type} (port : port_info) (env : str_env) (time : tm)
    (tv : timeval) (op : δ → Nat → δ) (isfilename : Bool) (s : List Nat) (d : δ) :
    process_str port env time tv op isfilename s d =
      (expansion port env time tv isfilename s).foldl op d := by
  unfold expansion process_str
  exact process_str_loop_rel (fun (x : δ) (l : List Nat) => x = l.foldl op d) port env time tv
    op (fun (l : List Nat) c => l ++ [c]) isfilename
    (by intro x l c h; rw [List.foldl_append, ← h]; rfl) s.length s d [] rfl

/-- Counting a list of characters with `count_op`, without wrap-around. -/
theorem foldl_count_op (l : List Nat) : ∀ (n : Nat), n + l.length < 4294967296 →
    l.foldl count_op n = n + l.length := by
  induction l with
  | nil => intro n _; rfl
  | cons a l ih =>
    intro n h
    simp only [List.length_cons] at h
    have h1 : count_op n a = n + 1 := by
      unfold count_op uint32
      exact Nat.mod_eq_of_lt (by omega)
    rw [List.foldl_cons, h1, ih (n + 1) (by omega), List.length_cons]
    omega

/-- Storing a list of characters with `buffer_op`, without wrap-around of
`pos`. -/
theorem foldl_buffer_op (l : List Nat) : ∀ (b : bufop_data),
    b.pos + l.length < 4294967296 →
    l.foldl buffer_op b =
      { pos := b.pos + l.length, str := store_at b.str b.pos l,
        writes := b.writes ++ List.range' b.pos l.length } := by
  induction l with
  | nil => intro b _; simp [store_at]
  | cons a l ih =>
    intro b h
    simp only [List.length_cons] at h
    have h1 : buffer_op b a =
        { pos := b.pos + 1, str := b.str.set b.pos a, writes := b.writes ++ [b.pos] } := by
      unfold buffer_op uint32
      rw [Nat.mod_eq_of_lt (by omega)]
    rw [List.foldl_cons, h1, ih _ (by dsimp only; omega)]
    simp only [List.length_cons, store_at, List.range'_succ, List.append_assoc,
      List.singleton_append]
    congr 1
    omega

/-! ## Template numeric escapes (C23) -/

/-- After a backslash and three digits the first of which is octal, the loop
goes on behind the digits without having handed anything to the sink. -/
theorem process_str_loop_octal3 {δ : Type} (port : port_info) (env : str_env) (time : tm)
    (tv : timeval) (op : δ → Nat → δ) (isfilename : Bool) (fuel : Nat) (rest : List Nat)
    (d : δ) :
    process_str_loop port env time tv op isfilename (fuel + 1) (92 :: 49 :: 48 :: 49 :: rest) d =
      process_str_loop port env time tv op isfilename fuel rest d := rfl

/-- After a backslash, `x` and two digits the loop goes on behind the digits
without having handed anything to the sink. -/
theorem process_str_loop_hex2 {δ : Type} (port : port_info) (env : str_env) (time : tm)
    (tv : timeval) (op : δ → Nat → δ) (isfilename : Bool) (fuel : Nat) (rest : List Nat)
    (d : δ) :
    process_str_loop port env time tv op isfilename (fuel + 1) (92 :: 120 :: 52 :: 49 :: rest) d =
      process_str_loop port env time tv op isfilename fuel rest d := rfl

/-- C23, the code at the failing input: the template `\101B` expands to the
single byte 'B' and so does `\x41B`; the value of the escape is computed and
never handed to the sink. In any context and before any rest of the template
`\101` and `\x41` expand to nothing. An escape that is followed by a character
that is not a decimal digit loses its value too (`\1B`, `\x4B`, `\x4a`). A
value is emitted only by an escape of one or two octal digits or one hex digit
that ends the template. -/
theorem numeric_escape_emits_nothing_at_failing_input :
    expansion telnet_port sample_str_env sample_tm sample_tv false (bytes "\\101B") =
      bytes "B" ∧
    expansion telnet_port sample_str_env sample_tm sample_tv false (bytes "\\x41B") =
      bytes "B" ∧
    (∀ (port : port_info) (env : str_env) (time : tm) (tv : timeval) (isfilename : Bool)
        (rest : List Nat),
      expansion port env time tv isfilename (bytes "\\101" ++ rest) =
        expansion port env time tv isfilename rest ∧
      expansion port env time tv isfilename (bytes "\\x41" ++ rest) =
        expansion port env time tv isfilename rest) ∧
    expansion telnet_port sample_str_env sample_tm sample_tv false (bytes "\\1B") =
      bytes "B" ∧
    expansion telnet_port sample_str_env sample_tm sample_tv false (bytes "\\x4B") =
      bytes "B" ∧
    expansion telnet_port sample_str_env sample_tm sample_tv false (bytes "\\x4a") =
      bytes "a" ∧
    expansion telnet_port sample_str_env sample_tm sample_tv false (bytes "\\7") = [7] ∧
    expansion telnet_port sample_str_env sample_tm sample_tv false (bytes "\\10") = [8] ∧
    expansion telnet_port sample_str_env sample_tm sample_tv false (bytes "\\xA") = [10] := by
  refine ⟨by decide, by decide, ?_, by decide, by decide, by decide, by decide, by decide,
    by decide⟩
  intro port env time tv isfilename rest
  constructor
  · show process_str_loop port env time tv _ isfilename (rest.length + 3 + 1)
      (92 :: 49 :: 48 :: 49 :: rest) [] = _
    rw [process_str_loop_octal3]
    exact process_str_loop_fuel port env time tv _ isfilename _ _ rest [] (by omega)
      (Nat.le_refl _)
  · show process_str_loop port env time tv _ isfilename (rest.length + 3 + 1)
      (92 :: 120 :: 52 :: 49 :: rest) [] = _
    rw [process_str_loop_hex2]
    exact process_str_loop_fuel port env time tv _ isfilename _ _ rest [] (by omega)
      (Nat.le_refl _)

/-! ## Two-pass template expansion (C25) -/

/-- C25: for every port, context, template and filename flag whose expansion
has fewer than 2^32 - 1 characters (the range of the `unsigned int` counter),
the counting pass of `process_str` counts exactly the characters of the
expansion, and the writing pass started at any `bufop` stores exactly those
characters at the consecutive positions from `bufop.pos` on. Hence
`process_str_to_str`, when `malloc` succeeds, returns a string in which every
index written is below the allocated size, `bufop.pos` ends at the length of
the expansion, the string starts with the expansion, and the length stored
through `lenrv` is the length of the expansion; without `lenrv` the
terminating NUL stands at the index that is the length of the expansion. -/
theorem process_str_two_passes (port : port_info) (env : str_env) (time : tm) (tv : timeval)
    (s : List Nat) (want_len isfilename : Bool)
    (hlen : (expansion port env time tv isfilename s).length < 4294967295) :
    process_str port env time tv count_op isfilename s 0 =
      (expansion port env time tv isfilename s).length ∧
    (∀ b : bufop_data,
      b.pos + (expansion port env time tv isfilename s).length < 4294967296 →
      process_str port env time tv buffer_op isfilename s b =
        { pos := b.pos + (expansion port env time tv isfilename s).length,
          str := store_at b.str b.pos (expansion port env time tv isfilename s),
          writes := b.writes ++
            List.range' b.pos (expansion port env time tv isfilename s).length }) ∧
    ∃ r, process_str_to_str port env time tv s want_len isfilename true = some r ∧
      r.bufop.str.length = r.alloc ∧
      (∀ i ∈ r.bufop.writes, i < r.alloc) ∧
      r.bufop.pos = (expansion port env time tv isfilename s).length ∧
      r.bufop.str.take (expansion port env time tv isfilename s).length =
        expansion port env time tv isfilename s ∧
      (want_len = true →
        r.lenrv = some (expansion port env time tv isfilename s).length ∧
        r.len = (expansion port env time tv isfilename s).length) ∧
      (want_len = false →
        r.lenrv = none ∧ r.len = (expansion port env time tv isfilename s).length + 1 ∧
        r.bufop.str[(expansion port env time tv isfilename s).length]? = some 0) := by
  obtain ⟨E, hE⟩ : ∃ E, E = expansion port env time tv isfilename s := ⟨_, rfl⟩
  rw [← hE] at hlen ⊢
  have hcount : process_str port env time tv count_op isfilename s 0 = E.length := by
    rw [process_str_expansion, ← hE, foldl_count_op E 0 (by omega)]
    omega
  have hwrite : ∀ b : bufop_data, b.pos + E.length < 4294967296 →
      process_str port env time tv buffer_op isfilename s b =
        { pos := b.pos + E.length, str := store_at b.str b.pos E,
          writes := b.writes ++ List.range' b.pos E.length } := by
    intro b hb
    rw [process_str_expansion, ← hE, foldl_buffer_op E b hb]
  refine ⟨hcount, hwrite, ?_⟩
  unfold process_str_to_str
  rw [hcount]
  cases want_len with
  | true =>
    dsimp only
    rw [hwrite _ (by dsimp only; omega)]
    refine ⟨_, rfl, ?_, ?_, ?_, ?_, ?_, ?_⟩
    · dsimp only
      rw [store_at_length, List.length_replicate]
    · dsimp only
      intro i hi
      simp only [List.nil_append, List.mem_range'_1] at hi
      simp only [Bool.not_true, Bool.false_eq_true, if_false]
      split_ifs <;> omega
    · dsimp only; omega
    · dsimp only
      apply store_at_zero_take
      rw [List.length_replicate]
      simp only [Bool.not_true, Bool.false_eq_true, if_false]
      split_ifs <;> omega
    · intro _; exact ⟨by simp, by simp⟩
    · intro h; cases h
  | false =>
    have hu : uint32 (E.length + 1) = E.length + 1 := by
      unfold uint32; exact Nat.mod_eq_of_lt (by omega)
    dsimp only
    rw [hwrite _ (by dsimp only; omega)]
    simp only [Bool.not_false, if_true, hu, Nat.add_one_ne_zero, if_false, Bool.false_eq_true]
    refine ⟨_, rfl, ?_, ?_, ?_, ?_, ?_, ?_⟩
    · dsimp only
      rw [List.length_set, store_at_length, List.length_replicate]
    · dsimp only
      intro i hi
      simp only [List.nil_append, List.mem_append, List.mem_range'_1, List.mem_singleton] at hi
      omega
    · dsimp only; omega
    · dsimp only
      simp only [Nat.zero_add]
      rw [List.set_take, List.set_eq_of_length_le (by simp)]
      apply store_at_zero_take
      rw [List.length_replicate]
      omega
    · intro h; cases h
    · intro _
      refine ⟨rfl, rfl, ?_⟩
      dsimp only
      simp only [Nat.zero_add]
      rw [List.getElem?_set_self]
      rw [store_at_length, List.length_replicate]
      omega

/-- C25 at the template `\d-\Y\x41` for a trace file name (no `lenrv`). -/
theorem process_str_two_passes_witness :
    (expansion telnet_port sample_str_env sample_tm sample_tv true
      (bytes "\\d-\\Y\\x41")).length < 4294967295 ∧
    process_str telnet_port sample_str_env sample_tm sample_tv count_op true
      (bytes "\\d-\\Y\\x41") 0 =
      (expansion telnet_port sample_str_env sample_tm sample_tv true
        (bytes "\\d-\\Y\\x41")).length :=
  ⟨by decide,
   (process_str_two_passes telnet_port sample_str_env sample_tm sample_tv
      (bytes "\\d-\\Y\\x41") false true (by decide)).1⟩

/-! ## Backpressure invariant (C26) -/

/-- `shutdown_port` leaves the port closing. -/
theorem shutdown_port_closing (port : port_info) (reason : String) :
    (shutdown_port port reason).1.dev_to_tcp_state = PORT_CLOSING := by
  unfold shutdown_port
  by_cases h : port.dev_to_tcp_state = PORT_CLOSING
  · rw [if_pos h]; exact h
  · rw [if_neg h]

/-- After `handle_tcp_send`, a port that is not closing and has data left in
`dev_to_tcp` has backpressure on. -/
theorem handle_tcp_send_backpressure (wr : write_result) : ∀ (port : port_info),
    (handle_tcp_send port wr).1.dev_to_tcp_state ≠ PORT_CLOSING →
    (handle_tcp_send port wr).1.dev_to_tcp.cursize ≠ 0 →
    backpressure_on (handle_tcp_send port wr).1 := by
  induction wr with
  | eintr next ih => intro port; unfold handle_tcp_send; exact ih port
  | eagain => intro port _ _; unfold handle_tcp_send; exact ⟨rfl, rfl, rfl⟩
  | epipe =>
    intro port h _
    unfold handle_tcp_send at h
    exact absurd (shutdown_port_closing port _) h
  | error =>
    intro port h _
    unfold handle_tcp_send at h
    exact absurd (shutdown_port_closing port _) h
  | count n =>
    intro port h hc
    unfold handle_tcp_send at h hc ⊢
    dsimp only at h hc ⊢
    by_cases h0 : port.dev_to_tcp.cursize - min n port.dev_to_tcp.cursize ≠ 0
    · rw [if_pos h0]; exact ⟨rfl, rfl, rfl⟩
    · rw [if_neg h0] at h hc
      by_cases h1 : port.close_on_output_done = true
      · rw [if_pos h1] at h
        exact absurd (shutdown_port_closing _ _) h
      · rw [if_neg h1] at hc
        exact absurd (by dsimp only; omega) hc

/-- After `send_timeout`, a port that is not closing and has data left in
`dev_to_tcp` has backpressure on. -/
theorem send_timeout_backpressure (port : port_info) (wr : write_result)
    (h : (send_timeout port wr).1.dev_to_tcp_state ≠ PORT_CLOSING)
    (hc : (send_timeout port wr).1.dev_to_tcp.cursize ≠ 0) :
    backpressure_on (send_timeout port wr).1 := by
  unfold send_timeout at h hc ⊢
  dsimp only at h hc ⊢
  by_cases h0 : port.dev_to_tcp_state = PORT_CLOSING
  · rw [if_pos h0] at h; exact absurd h0 h
  · rw [if_neg h0] at h hc ⊢
    by_cases h1 : port.dev_to_tcp.cursize > 0
    · rw [if_pos h1] at h hc ⊢
      exact handle_tcp_send_backpressure wr _ h hc
    · rw [if_neg h1] at hc
      exact absurd (by dsimp only; omega) hc

/-- After the label `send_it`, a port that is not closing and has data left
in `dev_to_tcp` has backpressure on. -/
theorem dev_read_send_it_backpressure (port : port_info) (wr : write_result)
    (h : (dev_read_send_it port wr).1.dev_to_tcp_state ≠ PORT_CLOSING)
    (hc : (dev_read_send_it port wr).1.dev_to_tcp.cursize ≠ 0) :
    backpressure_on (dev_read_send_it port wr).1 := by
  unfold dev_read_send_it at h hc ⊢
  dsimp only at h hc ⊢
  by_cases h0 : (handle_tcp_send port wr).2.2 = 0
  · rw [if_pos h0] at h hc ⊢
    exact handle_tcp_send_backpressure wr port h hc
  · rw [if_neg h0] at h hc ⊢
    exact handle_tcp_send_backpressure wr port h hc
/-- The function `dev_read_do_send` is its two parts in a row. -/
theorem dev_read_do_send_parts (port : port_info) (count : Nat) (send_now : Bool)
    (now : timeval) (wr : write_result) :
    dev_read_do_send port count send_now now wr =
      dev_read_dispatch (dev_read_commit port count).1 (dev_read_commit port count).2
        send_now now wr := rfl

/-- After the second part of `dev_read_do_send`, a port that is not closing
and has data in `dev_to_tcp` either has backpressure on or waits for
`send_timer` with its handlers and state unchanged. -/
theorem dev_read_dispatch_backpressure (port : port_info) (ev : List Event) (send_now : Bool)
    (now : timeval) (wr : write_result)
    (h : (dev_read_dispatch port ev send_now now wr).1.dev_to_tcp_state ≠ PORT_CLOSING)
    (hc : (dev_read_dispatch port ev send_now now wr).1.dev_to_tcp.cursize ≠ 0) :
    backpressure_on (dev_read_dispatch port ev send_now now wr).1 ∨
    waits_for_send_timer port (dev_read_dispatch port ev send_now now wr).1 := by
  unfold dev_read_dispatch at h hc ⊢
  by_cases h0 : send_now = true ∨ port.dev_to_tcp.cursize = port.dev_to_tcp.maxsize ∨
      port.chardelay = 0
  · rw [if_pos h0] at h hc ⊢
    exact Or.inl (dev_read_send_it_backpressure _ _ h hc)
  · rw [if_neg h0] at h hc ⊢
    by_cases hrun : port.send_timer_running = true
    · rw [if_pos hrun] at h hc ⊢
      dsimp only at h hc ⊢
      split_ifs at h hc ⊢
      · exact Or.inr ⟨rfl, rfl, rfl, rfl, rfl⟩
      · exact Or.inl (dev_read_send_it_backpressure _ _ h hc)
      · exact Or.inr ⟨rfl, rfl, rfl, rfl, rfl⟩
    · rw [if_neg hrun] at h hc ⊢
      dsimp only at h hc ⊢
      split_ifs at h hc ⊢
      · exact Or.inr ⟨rfl, rfl, rfl, rfl, rfl⟩
      · exact Or.inl (dev_read_send_it_backpressure _ _ h hc)
      · exact Or.inr ⟨rfl, rfl, rfl, rfl, rfl⟩

/-- After the part of `handle_dev_fd_read` from `do_send` on, a port that is
not closing and has data in `dev_to_tcp` either has backpressure on or waits
for `send_timer` with its handlers and state unchanged. -/
theorem dev_read_do_send_backpressure (port : port_info) (count : Nat) (send_now : Bool)
    (now : timeval) (wr : write_result)
    (h : (dev_read_do_send port count send_now now wr).1.dev_to_tcp_state ≠ PORT_CLOSING)
    (hc : (dev_read_do_send port count send_now now wr).1.dev_to_tcp.cursize ≠ 0) :
    backpressure_on (dev_read_do_send port count send_now now wr).1 ∨
    waits_for_send_timer port (dev_read_do_send port count send_now now wr).1 := by
  rw [dev_read_do_send_parts] at h hc ⊢
  exact dev_read_dispatch_backpressure _ _ _ _ _ h hc
/-- After `handle_dev_fd_read`, a port that is not closing and has data in
`dev_to_tcp` either has backpressure on or waits for `send_timer` with its
handlers and state unchanged. -/
theorem handle_dev_fd_read_backpressure (port : port_info) (rd : read_result) (now : timeval)
    (wr : write_result)
    (h : (handle_dev_fd_read port rd now wr).1.dev_to_tcp_state ≠ PORT_CLOSING)
    (hc : (handle_dev_fd_read port rd now wr).1.dev_to_tcp.cursize ≠ 0) :
    backpressure_on (handle_dev_fd_read port rd now wr).1 ∨
    waits_for_send_timer port (handle_dev_fd_read port rd now wr).1 := by
  unfold handle_dev_fd_read at h hc ⊢
  cases rd with
  | data bytes =>
    dsimp only at h hc ⊢
    split_ifs at h hc ⊢
    all_goals first
      | exact dev_read_do_send_backpressure _ _ _ _ _ h hc
      | exact absurd (shutdown_port_closing _ _) h
  | eagain =>
    dsimp only at h hc ⊢
    by_cases h1 : port.dev_to_tcp.cursize ≠ 0
    · rw [if_pos h1] at h hc ⊢
      exact dev_read_do_send_backpressure _ _ _ _ _ h hc
    · rw [if_neg h1] at hc
      exact absurd hc h1
  | error =>
    dsimp only at h hc ⊢
    by_cases h1 : port.dev_to_tcp.cursize ≠ 0
    · rw [if_pos h1] at h hc ⊢
      exact dev_read_do_send_backpressure _ _ _ _ _ h hc
    · rw [if_neg h1] at h
      exact absurd (shutdown_port_closing _ _) h

/-- The shutdown that follows a failed `buffer_write` leaves the port
closing. -/
theorem tcp_write_failed_closing (port : port_info) (epipe : Bool) :
    (tcp_write_failed port epipe).1.dev_to_tcp_state = PORT_CLOSING := by
  unfold tcp_write_failed
  cases epipe
  · exact shutdown_port_closing _ _
  · exact shutdown_port_closing _ _

/-- The function `buffer_write` never adds to the buffer. -/
theorem buffer_write_cursize_le (w : write_result) : ∀ (b : sbuf),
    (buffer_write b w).buf.cursize ≤ b.cursize := by
  induction w with
  | eintr next ih => intro b; unfold buffer_write; exact ih b
  | eagain => intro b; unfold buffer_write; exact Nat.le_refl _
  | epipe => intro b; unfold buffer_write; exact Nat.le_refl _
  | error => intro b; unfold buffer_write; exact Nat.le_refl _
  | count n => intro b; unfold buffer_write; dsimp only; omega

/-- Reading back the buffer `tcp_fd_write` has stored gives no more than was
stored. -/
theorem set_buf_cursize_le (port : port_info) (buf : write_buf) (b : sbuf) :
    ((port.set_buf buf b).buf_at buf).cursize ≤ b.cursize := by
  cases buf with
  | dev_to_tcp => exact Nat.le_refl _
  | banner =>
    unfold port_info.set_buf port_info.buf_at
    cases port.banner with
    | none => exact Nat.zero_le _
    | some _ => exact Nat.le_refl _

/-- Entered at `send_tn_data`, `tcp_fd_write` does not jump back: one round
of fuel is enough. A port that it leaves not closing has backpressure off
when `buf` and the telnet command buffer are empty, has `buf` empty when it
was so before, and has its handlers and state unchanged when data is left in
`buf`. -/
theorem tcp_fd_write_from_tn (fuel : Nat) (buf : write_buf) (port : port_info)
    (ws : List write_result) :
    ∀ r, r = tcp_fd_write_from (fuel + 1) true buf port ws →
      r.1.dev_to_tcp_state ≠ PORT_CLOSING →
      ((r.1.buf_at buf).cursize = 0 → r.1.out_telnet_cmd.cursize = 0 →
        backpressure_off r.1) ∧
      ((port.buf_at buf).cursize = 0 → (r.1.buf_at buf).cursize = 0) ∧
      ((r.1.buf_at buf).cursize ≠ 0 → same_handlers port r.1) := by
  intro r hr h
  unfold tcp_fd_write_from at hr
  simp only [if_true, true_and] at hr
  split at hr
  · rw [hr] at h; exact absurd (tcp_write_failed_closing _ _) h
  · split at hr
    · rename_i a
      rw [hr]
      refine ⟨fun _ ht => ?_, fun h0 => ?_, fun _ => ⟨rfl, rfl, rfl⟩⟩
      · dsimp only at ht; omega
      · cases buf <;> exact h0
    · rename_i a
      split at hr
      · rw [hr] at h; exact absurd (tcp_write_failed_closing _ _) h
      · split at hr
        · rename_i b
          split at hr
          · rename_i a1; exact absurd (by cases buf <;> exact a1) a
          · split at hr
            · rw [hr] at h
              exact absurd (shutdown_port_closing _ _) h
            · rw [hr]
              refine ⟨fun _ _ => ⟨rfl, rfl, rfl⟩, fun _ => ?_, fun hne => absurd ?_ hne⟩
              · cases buf <;> exact b
              · cases buf <;> exact b
        · rename_i b
          rw [hr]
          have hle := Nat.le_trans
            (set_buf_cursize_le
              { port with out_telnet_cmd :=
                  (buffer_write port.out_telnet_cmd (ws.headD .eagain)).buf }
              buf (buffer_write (port.buf_at buf) (ws.tail.headD .eagain)).buf)
            (buffer_write_cursize_le (ws.tail.headD .eagain) (port.buf_at buf))
          refine ⟨fun h0 => absurd ?_ b, fun h0 => ?_, fun _ => ?_⟩
          · cases buf <;> exact h0
          · exfalso
            apply b
            have h1 : (port_info.buf_at
                { port with out_telnet_cmd :=
                    (buffer_write port.out_telnet_cmd (ws.headD .eagain)).buf } buf)
                = port.buf_at buf := by cases buf <;> rfl
            rw [h1]
            omega
          · cases buf <;> exact ⟨rfl, rfl, rfl⟩

/-- Entered at its start, `tcp_fd_write` jumps to `send_tn_data` at most
once: two rounds of fuel are enough. A port that it leaves not closing has
backpressure off when `buf` and the telnet command buffer are empty, and has
its handlers and state unchanged when data is left in `buf`. -/
theorem tcp_fd_write_from_start (fuel : Nat) (buf : write_buf) (port : port_info)
    (ws : List write_result) :
    ∀ r, r = tcp_fd_write_from (fuel + 2) false buf port ws →
      r.1.dev_to_tcp_state ≠ PORT_CLOSING →
      ((r.1.buf_at buf).cursize = 0 → r.1.out_telnet_cmd.cursize = 0 →
        backpressure_off r.1) ∧
      ((r.1.buf_at buf).cursize ≠ 0 → same_handlers port r.1) := by
  intro r hr h
  unfold tcp_fd_write_from at hr
  simp only [Bool.false_eq_true, if_false, false_and] at hr
  split at hr
  · rw [hr] at h; exact absurd (tcp_write_failed_closing _ _) h
  · split at hr
    · rename_i b
      split at hr
      · rw [hr] at h ⊢
        dsimp only at h ⊢
        obtain ⟨t1, t2, -⟩ := tcp_fd_write_from_tn fuel buf _ _
          (tcp_fd_write_from (fuel + 1) true buf _ _) rfl h
        refine ⟨t1, fun hne => absurd (t2 ?_) hne⟩
        cases buf <;> exact b
      · split at hr
        · rw [hr] at h
          exact absurd (shutdown_port_closing _ _) h
        · rw [hr]
          refine ⟨fun _ _ => ⟨rfl, rfl, rfl⟩, fun hne => absurd ?_ hne⟩
          cases buf <;> exact b
    · rename_i b
      rw [hr]
      refine ⟨fun h0 => absurd ?_ b, fun _ => ?_⟩
      · cases buf <;> exact h0
      · cases buf <;> exact ⟨rfl, rfl, rfl⟩

/-- After `tcp_fd_write (port, buf)`, a port that is not closing has
backpressure off when `buf` and the telnet command buffer are empty, and has
its handlers and state unchanged when data is left in `buf`. -/
theorem tcp_fd_write_backpressure (port : port_info) (buf : write_buf)
    (ws : List write_result)
    (h : (tcp_fd_write port buf ws).1.dev_to_tcp_state ≠ PORT_CLOSING) :
    (((tcp_fd_write port buf ws).1.buf_at buf).cursize = 0 →
      (tcp_fd_write port buf ws).1.out_telnet_cmd.cursize = 0 →
      backpressure_off (tcp_fd_write port buf ws).1) ∧
    (((tcp_fd_write port buf ws).1.buf_at buf).cursize ≠ 0 →
      same_handlers port (tcp_fd_write port buf ws).1) := by
  unfold tcp_fd_write at h ⊢
  cases hs : port.sending_tn_data
  · rw [hs] at h
    exact tcp_fd_write_from_start 1 buf port ws _ rfl h
  · rw [hs] at h
    obtain ⟨t1, -, t3⟩ := tcp_fd_write_from_tn 2 buf port ws _ rfl h
    exact ⟨t1, t3⟩
/-- The function `handle_tcp_fd_banner_write` leaves the port as
`tcp_fd_write (port, port->banner)` left it, or, when that call returned 0 with
the banner written out, that port with the banner freed and
`tcp_write_handler` back at `handle_tcp_fd_write`. -/
theorem handle_tcp_fd_banner_write_cases (port : port_info) (ws : List write_result)
    (r : port_info × List Event × Int) (hr : handle_tcp_fd_banner_write port ws = some r) :
    r.1 = (tcp_fd_write port .banner ws).1 ∨
    (r.1 = { (tcp_fd_write port .banner ws).1 with
              tcp_write_handler := .handle_tcp_fd_write, banner := none } ∧
      ((tcp_fd_write port .banner ws).1.buf_at .banner).cursize = 0 ∧
      (tcp_fd_write port .banner ws).2.2 = 0) := by
  unfold handle_tcp_fd_banner_write at hr
  split at hr
  · cases hr
  · dsimp only at hr
    split at hr
    · rename_i h0
      split at hr
      · rename_i h1
        simp only [Option.some.injEq] at hr
        rw [← hr]
        exact Or.inr ⟨rfl, h1, h0⟩
      · simp only [Option.some.injEq] at hr
        rw [← hr]
        exact Or.inl rfl
    · simp only [Option.some.injEq] at hr
      rw [← hr]
      exact Or.inl rfl

/-- C26 (amended): for every port and every answer of the outside world:
after `handle_tcp_send` and after `send_timeout`, a port that is not closing
and has data left in `dev_to_tcp` has backpressure on (write-ready handler
enabled, device read handler disabled, `PORT_WAITING_OUTPUT_CLEAR`); after
`handle_dev_fd_read` such a port either has backpressure on or waits for
`send_timer`, which is armed, with its handlers and state as they were before
the read; after `tcp_fd_write (port, buf)`, for `buf` the `dev_to_tcp` buffer
as for `buf` the banner, a port that is not closing has backpressure off
(device read handler enabled, write-ready handler disabled,
`PORT_WAITING_INPUT`) when `buf` and the telnet command buffer are empty, and
has its handlers and state as they were before the call when data is left in
`buf`. `handle_tcp_fd_write` is that call for `dev_to_tcp`, and
`handle_tcp_fd_banner_write` is that call for the banner, followed, when the
banner is written out, by the freeing of the banner and the change of
`tcp_write_handler`. -/
theorem backpressure_after_step (port : port_info) :
    (∀ wr, (handle_tcp_send port wr).1.dev_to_tcp_state ≠ PORT_CLOSING →
      (handle_tcp_send port wr).1.dev_to_tcp.cursize ≠ 0 →
      backpressure_on (handle_tcp_send port wr).1) ∧
    (∀ wr, (send_timeout port wr).1.dev_to_tcp_state ≠ PORT_CLOSING →
      (send_timeout port wr).1.dev_to_tcp.cursize ≠ 0 →
      backpressure_on (send_timeout port wr).1) ∧
    (∀ rd now wr, (handle_dev_fd_read port rd now wr).1.dev_to_tcp_state ≠ PORT_CLOSING →
      (handle_dev_fd_read port rd now wr).1.dev_to_tcp.cursize ≠ 0 →
      backpressure_on (handle_dev_fd_read port rd now wr).1 ∨
      waits_for_send_timer port (handle_dev_fd_read port rd now wr).1) ∧
    (∀ buf ws, (tcp_fd_write port buf ws).1.dev_to_tcp_state ≠ PORT_CLOSING →
      (((tcp_fd_write port buf ws).1.buf_at buf).cursize = 0 →
        (tcp_fd_write port buf ws).1.out_telnet_cmd.cursize = 0 →
        backpressure_off (tcp_fd_write port buf ws).1) ∧
      (((tcp_fd_write port buf ws).1.buf_at buf).cursize ≠ 0 →
        same_handlers port (tcp_fd_write port buf ws).1)) ∧
    (∀ ws, handle_tcp_fd_write port ws = tcp_fd_write port .dev_to_tcp ws) ∧
    (∀ ws r, handle_tcp_fd_banner_write port ws = some r →
      r.1 = (tcp_fd_write port .banner ws).1 ∨
      (r.1 = { (tcp_fd_write port .banner ws).1 with
                tcp_write_handler := .handle_tcp_fd_write, banner := none } ∧
        ((tcp_fd_write port .banner ws).1.buf_at .banner).cursize = 0 ∧
        (tcp_fd_write port .banner ws).2.2 = 0)) :=
  ⟨fun wr => handle_tcp_send_backpressure wr port,
   fun wr => send_timeout_backpressure port wr,
   fun rd now wr => handle_dev_fd_read_backpressure port rd now wr,
   fun buf ws h => tcp_fd_write_backpressure port buf ws h,
   fun _ => rfl,
   fun ws r hr => handle_tcp_fd_banner_write_cases port ws r hr⟩

/-- C26 (amended) at a short write: the device fills the 2-byte buffer, so
the data is sent at once, and the socket takes one byte; and at the write
that drains the buffer afterwards. -/
theorem backpressure_after_step_witness :
    backpressure_on
      (handle_dev_fd_read (connected_port 2) (.data [1, 2]) ⟨100, 0⟩ (.count 1)).1 ∧
    backpressure_off
      (tcp_fd_write
        (handle_dev_fd_read (connected_port 2) (.data [1, 2]) ⟨100, 0⟩ (.count 1)).1
        .dev_to_tcp [.count 1]).1 :=
  ⟨((backpressure_after_step (connected_port 2)).2.2.1 (.data [1, 2]) ⟨100, 0⟩ (.count 1)
      (by decide) (by decide)).resolve_right (by decide),
   ((backpressure_after_step
      (handle_dev_fd_read (connected_port 2) (.data [1, 2]) ⟨100, 0⟩ (.count 1)).1).2.2.2.1
      .dev_to_tcp [.count 1] (by decide)).1 (by decide) (by decide)⟩

/-- C26, counterexample: with the default character delay a device read of
one byte leaves the byte in `dev_to_tcp` while the device read handler stays
enabled, the write-ready handler stays disabled and the state stays
`PORT_WAITING_INPUT` (the data waits for `send_timer`). In the run
`pacing_run` the expiry of `send_timer` drains the buffer of a port that has
backpressure on: the buffer is empty, no telnet command is pending, and the
device read handler is still disabled. And on a raw port with the banner "hi"
the write-ready handler, which is `handle_tcp_fd_banner_write`, writes one
byte of the banner: `dev_to_tcp` is empty, no telnet command is pending, and
the write-ready handler is still enabled. -/
theorem backpressure_counterexample :
    handler_view delayed_byte_port = (1, 0, true, false, PORT_WAITING_INPUT) ∧
    delayed_byte_port.send_timer_armed = some ⟨100, 2083⟩ ∧
    (pipe_run ⟨connected_port 2, [], []⟩ pacing_run).map (fun s => handler_view s.port) =
      some (0, 0, false, true, PORT_WAITING_OUTPUT_CLEAR) ∧
    banner_port.tcp_write_handler = .handle_tcp_fd_banner_write ∧
    handler_view banner_port = (0, 0, true, true, PORT_WAITING_INPUT) ∧
    (handle_tcp_fd_write_mux banner_port [.count 1]).map
        (fun r => (handler_view r.1, r.1.banner, r.2)) =
      some ((0, 0, true, true, PORT_WAITING_INPUT), some ⟨[104, 105], 1, 1, 2⟩,
        [Event.tcp_sent [104]]) := by
  refine ⟨?_, ?_, ?_, ?_, ?_, ?_⟩ <;> decide

/-! ## Inactivity timeout and the timer-paced send (C8) -/

/-- C8, the code at the failing input: on a port with `timeout` 2 and the
default character delay, one tick after `reset_timer` the device delivers a
byte; the byte waits for `send_timer`, and `send_timeout` relays it to the
socket without `reset_timer`: `timeout_left` stays 1. The first tick after
that byte counts down to 0 and the second one initiates
`shutdown_port ("timeout")`, although `timeout + 1` is 3. On the sibling path,
where `handle_dev_fd_read` sends the byte at once, `reset_timer` runs and
`timeout_left` is 2 again. The rest of the claim holds: `reset_timer` leaves
`timeout_left == timeout`, and from that state, on a port that is not closing
and with nothing but ticks, the `k`-th tick initiates the timeout shutdown
exactly when `k == timeout + 1`, and never with `timeout == 0`. -/
theorem send_timeout_skips_reset_timer_at_failing_input :
    timeout_port.timeout = 2 ∧ timeout_port.timeout_left = 2 ∧
    (got_timeout timeout_port none).1.timeout_left = 1 ∧
    handler_view timeout_read_port = (1, 0, true, false, PORT_WAITING_INPUT) ∧
    (send_timeout timeout_read_port (.count 1)).2 = [Event.tcp_sent [1]] ∧
    timer_relayed_port.timeout = 2 ∧ timer_relayed_port.timeout_left = 1 ∧
    timer_relayed_port.dev_to_tcp_state = PORT_WAITING_INPUT ∧
    tick_events (fun _ => none) 1 timer_relayed_port = [Event.timer_rearmed] ∧
    (ticks (fun _ => none) 1 timer_relayed_port).timeout_left = 0 ∧
    Event.footer "timeout" ∈ tick_events (fun _ => none) 2 timer_relayed_port ∧
    (ticks (fun _ => none) 2 timer_relayed_port).dev_to_tcp_state = PORT_CLOSING ∧
    direct_relayed_port.timeout_left = 2 ∧
    (∀ port : port_info, (reset_timer port).timeout_left = port.timeout ∧
      (reset_timer port).timeout = port.timeout ∧
      (reset_timer port).dev_to_tcp_state = port.dev_to_tcp_state) ∧
    (∀ (port : port_info) (modem : Nat → Option Nat),
      (0 < port.timeout → port.dev_to_tcp_state ≠ PORT_CLOSING → ∀ k : Nat, 1 ≤ k →
        (Event.footer "timeout" ∈ tick_events modem k (reset_timer port) ↔
          (k : Int) = port.timeout + 1)) ∧
      (port.timeout = 0 → ∀ k : Nat, 1 ≤ k →
        ∀ reason, Event.footer reason ∉ tick_events modem k (reset_timer port))) := by
  refine ⟨by decide, by decide, by decide, by decide, by decide, by decide, by decide,
    by decide, by decide, by decide, by decide, by decide, by decide,
    fun port => ⟨rfl, rfl, rfl⟩, fun port modem => ⟨fun hT hs k hk => ?_, fun h0 k hk => ?_⟩⟩
  · exact ((inactivity_timeout (reset_timer port) modem).1 hT rfl hs k hk).1
  · exact (inactivity_timeout (reset_timer port) modem).2 h0 k hk

end Ser2net
